import Mathlib

/-!
GRT `HMM` classifier (ClassificationModules/HMM/HMM.cpp).

A shallow embedding of the orchestration layer of the GRT hidden Markov model
classifier: the setters, `clear`, the discrete and continuous training
pipelines and the four prediction routines.

Conventions of the embedding.

* `double` values live in an arbitrary linearly ordered field `α`; the
  definitions are executable at `α := ℚ`.  Division by zero follows the field
  convention `x / 0 = 0`, so statements about quotients carry the hypothesis
  that the divisor is non-zero wherever the C++ result would be `inf`/`nan`.
* `UINT` values are natural numbers; the code performs no arithmetic on them
  other than loop counting and comparisons.
* `std::vector` is `List`.  A read outside the vector (undefined in C++) yields
  a default value and a write outside the vector is dropped; a statement that
  covers such an access says so in its doc comment, and every concrete example
  keeps all accesses in range.
* `antilog`, the exponential of the C++ code, is a field of `Collaborators`.
  The double-precision `exp` is 0 for arguments below about -745, so the
  statements on the likelihoods of the discrete mode that are not over the
  real exponential assume of `antilog` only what they use (non-negative,
  non-decreasing, 0 at and below `-99e+99`) and carry the hypothesis that the
  sum of the antilogs, the divisor, is not 0.
* The classifier object is the record `HMM`; every member function takes the
  record and returns the C++ return value together with the new record.
* The sub-model classes, the dataset container and the `Classifier` base class
  are not part of `HMM.cpp`.  The sub-models are abstract types `DM`, `CM`
  whose member functions are the fields of `Collaborators`.
-/

namespace GRT

/-! ## Constants and plain data -/

/-- Modelled from the spec: the `HMMType` enumerator for the discrete mode
(declared in the header, which is not in the source); the spec gives
`hmmType ∈ {DISCRETE, CONTINUOUS}`, two distinct constants. -/
def HMM_DISCRETE : Nat := 0

/-- Modelled from the spec: the `HMMType` enumerator for the continuous mode. -/
def HMM_CONTINUOUS : Nat := 1

/-- Modelled from the spec: the `HMMModelTypes` enumerator for an ergodic
model; the spec gives `modelType ∈ {ERGODIC, LEFT_RIGHT}`. -/
def HMM_ERGODIC : Nat := 0

/-- Modelled from the spec: the `HMMModelTypes` enumerator for a left-right
model. -/
def HMM_LEFTRIGHT : Nat := 1

/-- Modelled from the spec: the reserved "unknown/null" class label emitted by
null rejection. -/
def GRT_DEFAULT_NULL_CLASS_LABEL : Nat := 0

/-- The pair `(minValue, maxValue)` stored per input dimension in `ranges`. -/
structure MinMax (α : Type) where
  minValue : α
  maxValue : α
deriving DecidableEq, Repr

/-- The element type of the `results` vector of `predict_continuous`:
`index` holds the exemplar's class label and `value` its score. -/
structure IndexedDouble (α : Type) where
  index : Nat
  value : α
deriving DecidableEq, Repr

/-- A `MatrixDouble`: the column count and the list of rows. -/
structure MatrixDouble (α : Type) where
  cols : Nat
  rows : List (List α)
deriving DecidableEq, Repr

/-- One labelled time series of the training set. -/
structure TimeSeriesClassificationSample (α : Type) where
  classLabel : Nat
  data : MatrixDouble α
deriving DecidableEq, Repr

/-- Modelled from the spec: the dataset container (§6 "Dataset": sample count,
feature dimensionality, class count, an ordered class tracker, per-class
sample extraction, global scaling).  `classTracker` lists the class labels in
tracker order; only the label of a tracker entry is read by `HMM.cpp`. -/
structure TimeSeriesClassificationData (α : Type) where
  numDimensions : Nat
  classTracker : List Nat
  data : List (TimeSeriesClassificationSample α)
deriving DecidableEq, Repr

/-- The classifier object: the configuration fields of `HMM`, the members it
inherits from `Classifier`/`MLBase` that `HMM.cpp` reads or writes, and the
two sub-model collections. -/
structure HMM (α DM CM : Type) where
  hmmType : Nat
  modelType : Nat
  delta : Nat
  numStates : Nat
  numSymbols : Nat
  maxNumEpochs : Nat
  minChange : α
  downsampleFactor : Nat
  committeeSize : Nat
  useScaling : Bool
  useNullRejection : Bool
  trained : Bool
  numInputDimensions : Nat
  numClasses : Nat
  classLabels : List Nat
  nullRejectionThresholds : List α
  ranges : List (MinMax α)
  classLikelihoods : List α
  classDistances : List α
  predictedClassLabel : Nat
  maxLikelihood : α
  bestDistance : α
  discreteModels : List DM
  continuousModels : List CM
deriving DecidableEq, Repr

/-- The member functions of the collaborating classes that `HMM.cpp` calls and
whose bodies are outside it.  Scoring is a pure function of the sub-model and
the input (spec §6: `score(sequence|symbol) -> log-likelihood`); fitting
returns the success flag and the fitted sub-model. -/
structure Collaborators (α DM CM : Type) where
  /-- `antilog(x)`, the conversion from a log-likelihood to a likelihood. -/
  antilog : α → α
  /-- The C++ conversion `(UINT)x` of a `double`. -/
  toUINT : α → Nat
  /-- `scale(x, minSource, maxSource, minTarget, maxTarget)` of `MLBase`. -/
  scale : α → α → α → α → α → α
  /-- `TimeSeriesClassificationData::getRanges`. -/
  getRanges : TimeSeriesClassificationData α → List (MinMax α)
  /-- A default-constructed `DiscreteHiddenMarkovModel`. -/
  dNew : DM
  /-- `DiscreteHiddenMarkovModel::resetModel(numStates,numSymbols,modelType,delta)`. -/
  dResetModel : DM → Nat → Nat → Nat → Nat → DM
  /-- `DiscreteHiddenMarkovModel::setMaxNumEpochs`. -/
  dSetMaxNumEpochs : DM → Nat → DM
  /-- `DiscreteHiddenMarkovModel::setMinChange`. -/
  dSetMinChange : DM → α → DM
  /-- `DiscreteHiddenMarkovModel::train(observationSequences)`. -/
  dTrain : DM → List (List Nat) → Bool × DM
  /-- `DiscreteHiddenMarkovModel::predict(UINT)`. -/
  dPredict : DM → Nat → α
  /-- `DiscreteHiddenMarkovModel::predict(vector<UINT>)`. -/
  dPredictSeq : DM → List Nat → α
  /-- A default-constructed `ContinuousHiddenMarkovModel`. -/
  cNew : CM
  /-- `ContinuousHiddenMarkovModel::setDownsampleFactor`. -/
  cSetDownsampleFactor : CM → Nat → CM
  /-- `ContinuousHiddenMarkovModel::setModelType`. -/
  cSetModelType : CM → Nat → CM
  /-- `ContinuousHiddenMarkovModel::setDelta`. -/
  cSetDelta : CM → Nat → CM
  /-- `ContinuousHiddenMarkovModel::enableScaling`. -/
  cEnableScaling : CM → Bool → CM
  /-- `ContinuousHiddenMarkovModel::train_(sample)`. -/
  cTrain : CM → TimeSeriesClassificationSample α → Bool × CM
  /-- `ContinuousHiddenMarkovModel::predict(VectorDouble)`. -/
  cPredict : CM → List α → α
  /-- `ContinuousHiddenMarkovModel::predict(MatrixDouble)`. -/
  cPredictSeq : CM → MatrixDouble α → α
  /-- `ContinuousHiddenMarkovModel::getClassLabel`. -/
  cGetClassLabel : CM → Nat

/-! ## Control-flow and container helpers -/

/-- The loop `for(UINT k=0; k<n; k++) body` without early exit. -/
def forLoop {σ : Type} (n : Nat) (body : Nat → σ → σ) (init : σ) : σ :=
  (List.range n).foldl (fun st k => body k st) init

/-- A loop over the indices `ks` whose body may `return false` from the
enclosing function: the flag `false` stops the loop and is returned with the
state reached at that point; `true` means the loop ran to its end. -/
def forLoopE {σ : Type} : List Nat → (Nat → σ → Bool × σ) → σ → Bool × σ
  | [], _, st => (true, st)
  | k :: ks, body, st =>
    match body k st with
    | (false, st1) => (false, st1)
    | (true, st1) => forLoopE ks body st1

/-- The call `v.resize(n, x)`: keep the first `n` elements, pad with `x`. -/
def resize {β : Type} (v : List β) (n : Nat) (x : β) : List β :=
  v.take n ++ List.replicate (n - v.length) x

/-- `Util::sum`. -/
def Util_sum {α : Type} [LinearOrderedField α] (v : List α) : α := v.sum

namespace MatrixDouble

variable {α : Type}

/-- `getNumRows`. -/
def getNumRows (m : MatrixDouble α) : Nat := m.rows.length

/-- `getNumCols`. -/
def getNumCols (m : MatrixDouble α) : Nat := m.cols

/-- The element `m[i][j]`. -/
def elem [Zero α] (m : MatrixDouble α) (i j : Nat) : α := (m.rows.getD i []).getD j 0

end MatrixDouble

namespace TimeSeriesClassificationData

variable {α : Type}

/-- `getNumSamples`. -/
def getNumSamples (d : TimeSeriesClassificationData α) : Nat := d.data.length

/-- `getNumDimensions`. -/
def getNumDimensions (d : TimeSeriesClassificationData α) : Nat := d.numDimensions

/-- `getNumClasses`: the number of class-tracker entries. -/
def getNumClasses (d : TimeSeriesClassificationData α) : Nat := d.classTracker.length

/-- The expression `getClassTracker()[k].classLabel`. -/
def classLabelAt (d : TimeSeriesClassificationData α) (k : Nat) : Nat := d.classTracker.getD k 0

/-- The sample `trainingData[k]`. -/
def sampleAt (d : TimeSeriesClassificationData α) (k : Nat) : TimeSeriesClassificationSample α :=
  d.data.getD k { classLabel := 0, data := { cols := 0, rows := [] } }

/-- Modelled from the spec: `getClassData(classID)`, the "per-class sample
extraction" of the dataset container: the samples labelled `classID`, in
order, as a dataset of the same dimensionality. -/
def getClassData (d : TimeSeriesClassificationData α) (classID : Nat) :
    TimeSeriesClassificationData α :=
  { numDimensions := d.numDimensions
    classTracker := if d.data.any (fun x => x.classLabel == classID) then [classID] else []
    data := d.data.filter (fun x => x.classLabel == classID) }

end TimeSeriesClassificationData

variable {α DM CM : Type} [LinearOrderedField α]

/-- Modelled from the spec: `TimeSeriesClassificationData::scale(minTarget,
maxTarget)`, the dataset's "global scaling by a caller-specified numeric
range": every value of dimension `j` is rescaled with `scale` from the range
of dimension `j` to the target range; the samples and their shapes are kept. -/
def scaleData (E : Collaborators α DM CM) (d : TimeSeriesClassificationData α)
    (minTarget maxTarget : α) : TimeSeriesClassificationData α :=
  let rg := E.getRanges d
  { d with
    data := d.data.map (fun x =>
      { x with
        data := { x.data with
          rows := x.data.rows.map (fun row =>
            row.enum.map (fun jv =>
              E.scale jv.2 (rg.getD jv.1 ⟨0, 0⟩).minValue (rg.getD jv.1 ⟨0, 0⟩).maxValue
                minTarget maxTarget)) } }) }

namespace HMM

/-! ## Base-class operations -/

/-- Modelled from the spec: `Classifier::clear` (the base class is not in the
source).  The spec states that a clear "also resets base classifier state"
and that all trained state is "fully reset by a clear operation": the trained
flag, the dimensions and class count, the label list, the thresholds, the
feature ranges and the prediction buffers return to their empty values.  The
fields declared by `HMM` itself are out of the base class's reach. -/
def Classifier_clear (s : HMM α DM CM) : HMM α DM CM :=
  { s with
    trained := false
    numInputDimensions := 0
    numClasses := 0
    classLabels := []
    nullRejectionThresholds := []
    ranges := []
    classLikelihoods := []
    classDistances := []
    predictedClassLabel := GRT_DEFAULT_NULL_CLASS_LABEL
    maxLikelihood := 0
    bestDistance := 0 }

/-- Modelled from the spec: `Classifier::getClassLabelIndexValue`, the map from
a class label to its class index ("index into this sequence is the internal
class index"): the first position of the label in `classLabels`, and `0` for a
label that does not occur. -/
def getClassLabelIndexValue (s : HMM α DM CM) (classLabel : Nat) : Nat :=
  if classLabel ∈ s.classLabels then s.classLabels.indexOf classLabel else 0

/-- `HMM::clear` (lines 588-597). -/
def clear (s : HMM α DM CM) : Bool × HMM α DM CM :=
  let s := Classifier_clear s
  (true, { s with discreteModels := [], continuousModels := [] })

/-! ## Setters (lines 900-983) -/

/-- `HMM::setHMMType`. -/
def setHMMType (s : HMM α DM CM) (hmmType : Nat) : Bool × HMM α DM CM :=
  let s := (clear s).2
  if hmmType = HMM_DISCRETE ∨ hmmType = HMM_CONTINUOUS then
    (true, { s with hmmType := hmmType })
  else (false, s)

/-- `HMM::setModelType`. -/
def setModelType (s : HMM α DM CM) (modelType : Nat) : Bool × HMM α DM CM :=
  let s := (clear s).2
  if modelType = HMM_ERGODIC ∨ modelType = HMM_LEFTRIGHT then
    (true, { s with modelType := modelType })
  else (false, s)

/-- `HMM::setDelta`. -/
def setDelta (s : HMM α DM CM) (delta : Nat) : Bool × HMM α DM CM :=
  let s := (clear s).2
  if delta > 0 then (true, { s with delta := delta }) else (false, s)

/-- `HMM::setDownsampleFactor`. -/
def setDownsampleFactor (s : HMM α DM CM) (downsampleFactor : Nat) : Bool × HMM α DM CM :=
  let s := (clear s).2
  if downsampleFactor > 0 then (true, { s with downsampleFactor := downsampleFactor })
  else (false, s)

/-- `HMM::setCommitteeSize`; it does not call `clear`. -/
def setCommitteeSize (s : HMM α DM CM) (committeeSize : Nat) : Bool × HMM α DM CM :=
  if committeeSize > 0 then (true, { s with committeeSize := committeeSize }) else (false, s)

/-- `HMM::setNumStates`. -/
def setNumStates (s : HMM α DM CM) (numStates : Nat) : Bool × HMM α DM CM :=
  let s := (clear s).2
  if numStates > 0 then (true, { s with numStates := numStates }) else (false, s)

/-- `HMM::setNumSymbols`. -/
def setNumSymbols (s : HMM α DM CM) (numSymbols : Nat) : Bool × HMM α DM CM :=
  let s := (clear s).2
  if numSymbols > 0 then (true, { s with numSymbols := numSymbols }) else (false, s)

/-! ## Observation sequences (lines 849-866) -/

/-- `HMM::convertDataToObservationSequence`.  The second argument is the
caller's `observationSequences`, an in/out parameter: the result carries the
return flag and the contents the parameter has when the function returns. -/
def convertDataToObservationSequence (E : Collaborators α DM CM) (s : HMM α DM CM)
    (classData : TimeSeriesClassificationData α) (observationSequences : List (List Nat)) :
    Bool × List (List Nat) :=
  let obs := resize observationSequences classData.getNumSamples []
  forLoopE (List.range classData.getNumSamples) (fun i obs =>
    let timeseries := (classData.sampleAt i).data
    let obs := obs.set i (resize (obs.getD i []) timeseries.getNumRows 0)
    forLoopE (List.range timeseries.getNumRows) (fun j obs =>
      if timeseries.elem j 0 ≥ (s.numSymbols : α) then (false, obs)
      else (true, obs.set i ((obs.getD i []).set j (E.toUINT (timeseries.elem j 0))))) obs) obs

/-! ## Discrete training (lines 135-212) -/

/-- The loop of lines 156-160: configure each of the `numClasses` models. -/
def initDiscreteModels (E : Collaborators α DM CM) (s : HMM α DM CM) (models : List DM) : List DM :=
  forLoop s.numClasses
    (fun k models =>
      let m := models.getD k E.dNew
      let m := E.dResetModel m s.numStates s.numSymbols s.modelType s.delta
      let m := E.dSetMaxNumEpochs m s.maxNumEpochs
      let m := E.dSetMinChange m s.minChange
      models.set k m)
    models

/-- The body of the loop of lines 163-180: record the label of class `k`,
convert the class's data and fit the `k`-th model; `false` is an early
`return false`. -/
def trainDiscreteModel (E : Collaborators α DM CM) (trainingData : TimeSeriesClassificationData α)
    (k : Nat) (s : HMM α DM CM) : Bool × HMM α DM CM :=
  let classID := trainingData.classLabelAt k
  let s := { s with classLabels := s.classLabels.set k classID }
  let classData := trainingData.getClassData classID
  match convertDataToObservationSequence E s classData [] with
  | (false, _) => (false, s)
  | (true, observationSequences) =>
    match E.dTrain (s.discreteModels.getD k E.dNew) observationSequences with
    | (false, m) => (false, { s with discreteModels := s.discreteModels.set k m })
    | (true, m) => (true, { s with discreteModels := s.discreteModels.set k m })

/-- The inner loop of lines 198-203: the sum of `fabs` of the scores the model
gives to the sequences. -/
def sumAbsLoglikelihood (E : Collaborators α DM CM) (m : DM)
    (observationSequences : List (List Nat)) : α :=
  forLoop observationSequences.length
    (fun i avgLoglikelihood =>
      avgLoglikelihood + |E.dPredictSeq m (observationSequences.getD i [])|) 0

/-- The body of the loop of lines 185-205: the null-rejection threshold of
class `k`. -/
def computeThreshold (E : Collaborators α DM CM) (trainingData : TimeSeriesClassificationData α)
    (k : Nat) (s : HMM α DM CM) : Bool × HMM α DM CM :=
  let classID := trainingData.classLabelAt k
  let s := { s with classLabels := s.classLabels.set k classID }
  let classData := trainingData.getClassData classID
  match convertDataToObservationSequence E s classData [] with
  | (false, _) => (false, s)
  | (true, observationSequences) =>
    let avgLoglikelihood :=
      sumAbsLoglikelihood E (s.discreteModels.getD k E.dNew) observationSequences
    (true, { s with
      nullRejectionThresholds :=
        s.nullRejectionThresholds.set k (-(avgLoglikelihood / (observationSequences.length : α))) })

/-- `HMM::train_discrete`. -/
def train_discrete (E : Collaborators α DM CM) (s : HMM α DM CM)
    (trainingData : TimeSeriesClassificationData α) : Bool × HMM α DM CM :=
  let s := (clear s).2
  if trainingData.getNumSamples = 0 then (false, s)
  else if trainingData.getNumDimensions ≠ 1 then (false, s)
  else
    let s := { s with numInputDimensions := trainingData.getNumDimensions }
    let s := { s with numClasses := trainingData.getNumClasses }
    let s := { s with discreteModels := resize s.discreteModels s.numClasses E.dNew }
    let s := { s with classLabels := resize s.classLabels s.numClasses 0 }
    let s := { s with discreteModels := initDiscreteModels E s s.discreteModels }
    match forLoopE (List.range s.numClasses) (trainDiscreteModel E trainingData) s with
    | (false, s) => (false, s)
    | (true, s) =>
      let s := { s with nullRejectionThresholds := resize s.nullRejectionThresholds s.numClasses 0 }
      match forLoopE (List.range s.numClasses) (computeThreshold E trainingData) s with
      | (false, s) => (false, s)
      | (true, s) => (true, { s with trained := true })

/-! ## Continuous training (lines 214-267) -/

/-- The body of the loop of lines 242-255: configure and fit the `k`-th
exemplar model on the `k`-th training sample. -/
def trainContinuousModel (E : Collaborators α DM CM) (trainingData : TimeSeriesClassificationData α)
    (k : Nat) (s : HMM α DM CM) : Bool × HMM α DM CM :=
  let m := s.continuousModels.getD k E.cNew
  let m := E.cSetDownsampleFactor m s.downsampleFactor
  let m := E.cSetModelType m s.modelType
  let m := E.cSetDelta m s.delta
  let m := E.cEnableScaling m false
  match E.cTrain m (trainingData.sampleAt k) with
  | (false, m) => (false, { s with continuousModels := s.continuousModels.set k m })
  | (true, m) => (true, { s with continuousModels := s.continuousModels.set k m })

/-- `HMM::train_continuous`. -/
def train_continuous (E : Collaborators α DM CM) (s : HMM α DM CM)
    (trainingData : TimeSeriesClassificationData α) : Bool × HMM α DM CM :=
  let s := (clear s).2
  if trainingData.getNumSamples = 0 then (false, s)
  else
    let s := { s with numInputDimensions := trainingData.getNumDimensions }
    let s := { s with numClasses := trainingData.getNumClasses }
    let s := { s with classLabels := resize s.classLabels s.numClasses 0 }
    let s := { s with
      classLabels := forLoop s.numClasses
        (fun k labels => labels.set k (trainingData.classLabelAt k)) s.classLabels }
    let s := { s with ranges := E.getRanges trainingData }
    let trainingData := if s.useScaling then scaleData E trainingData 0 1 else trainingData
    let numTrainingSamples := trainingData.getNumSamples
    let s := { s with continuousModels := resize s.continuousModels numTrainingSamples E.cNew }
    match forLoopE (List.range numTrainingSamples) (trainContinuousModel E trainingData) s with
    | (false, s) => (false, s)
    | (true, s) =>
      let s := { s with trained := true }
      let s :=
        if s.useNullRejection then
          { s with nullRejectionThresholds := resize s.nullRejectionThresholds s.numClasses 0 }
        else s
      (true, s)

/-- `HMM::train_`. -/
def train_ (E : Collaborators α DM CM) (s : HMM α DM CM)
    (trainingData : TimeSeriesClassificationData α) : Bool × HMM α DM CM :=
  if s.hmmType = HMM_DISCRETE then train_discrete E s trainingData
  else if s.hmmType = HMM_CONTINUOUS then train_continuous E s trainingData
  else (false, s)

/-! ## Discrete prediction (lines 285-343 and 431-492) -/

/-- The variables the scoring loop of `predict_discrete` writes: the members
`classDistances`, `classLikelihoods`, `bestDistance` and the locals
`bestIndex`, `sum`. -/
structure ScoreState (α : Type) where
  classDistances : List α
  classLikelihoods : List α
  bestDistance : α
  bestIndex : Nat
  sum : α
deriving DecidableEq, Repr

/-- The body of the scoring loop (lines 313-326, identical to 462-475 up to
the scoring call `score`). -/
def discreteScoreBody (E : Collaborators α DM CM) (score : DM → α) (s : HMM α DM CM) (k : Nat)
    (st : ScoreState α) : ScoreState α :=
  let d := score (s.discreteModels.getD k E.dNew)
  let st := { st with classDistances := st.classDistances.set k d }
  let st := { st with classLikelihoods := st.classLikelihoods.set k (E.antilog d) }
  let st := if d > st.bestDistance then { st with bestDistance := d, bestIndex := k } else st
  { st with sum := st.sum + E.antilog d }

/-- The scoring loop, started with `bestIndex = 0` and `sum = 0`. -/
def discreteScoreLoop (E : Collaborators α DM CM) (score : DM → α) (s : HMM α DM CM) :
    ScoreState α :=
  forLoop s.numClasses (discreteScoreBody E score s)
    { classDistances := s.classDistances
      classLikelihoods := s.classLikelihoods
      bestDistance := s.bestDistance
      bestIndex := 0
      sum := 0 }

/-- The normalising loop of lines 329-331 (478-480): `classLikelihoods[k] /= sum`.
For `sum = 0` the C++ quotient is `nan`; the field value is 0 there, so the
statements about the normalised likelihoods take a hypothesis under which
`sum` is non-zero. -/
def normaliseLikelihoods (numClasses : Nat) (classLikelihoods : List α) (sum : α) : List α :=
  forLoop numClasses (fun k l => l.set k (l.getD k 0 / sum)) classLikelihoods

/-- Lines 313-342, shared verbatim by both overloads (lines 462-491): score
every class, normalise, select the best class and apply null rejection. -/
def discreteDecision (E : Collaborators α DM CM) (score : DM → α) (s : HMM α DM CM) :
    Bool × HMM α DM CM :=
  let st := discreteScoreLoop E score s
  let bestIndex := st.bestIndex
  let s := { s with classDistances := st.classDistances, bestDistance := st.bestDistance }
  let s := { s with classLikelihoods := normaliseLikelihoods s.numClasses st.classLikelihoods st.sum }
  let s := { s with maxLikelihood := s.classLikelihoods.getD bestIndex 0 }
  let s := { s with predictedClassLabel := s.classLabels.getD bestIndex 0 }
  let s :=
    if s.useNullRejection then
      if s.maxLikelihood > s.nullRejectionThresholds.getD bestIndex 0 then
        { s with predictedClassLabel := s.classLabels.getD bestIndex 0 }
      else { s with predictedClassLabel := GRT_DEFAULT_NULL_CLASS_LABEL }
    else s
  (true, s)

/-- The two conditional `resize` calls that precede every scoring loop. -/
def resizeBuffers (s : HMM α DM CM) : HMM α DM CM :=
  let s :=
    if s.classLikelihoods.length ≠ s.numClasses then
      { s with classLikelihoods := resize s.classLikelihoods s.numClasses 0 }
    else s
  if s.classDistances.length ≠ s.numClasses then
    { s with classDistances := resize s.classDistances s.numClasses 0 }
  else s

/-- `HMM::predict_discrete(VectorDouble&)`. -/
def predict_discrete (E : Collaborators α DM CM) (s : HMM α DM CM) (inputVector : List α) :
    Bool × HMM α DM CM :=
  let s := { s with predictedClassLabel := 0 }
  let s := { s with maxLikelihood := -10000 }
  if !s.trained then (false, s)
  else if inputVector.length ≠ s.numInputDimensions then (false, s)
  else
    let s := resizeBuffers s
    let s := { s with bestDistance := -(99 * 10 ^ 99) }
    let newObservation := E.toUINT (inputVector.getD 0 0)
    if newObservation ≥ s.numSymbols then (false, s)
    else discreteDecision E (fun m => E.dPredict m newObservation) s

/-- The conversion loop of lines 447-454: `observationSequence[i]` is the
truncated `timeseries[i][0]`; a symbol `>= numSymbols` is an early
`return false`. -/
def toObservationSequence (E : Collaborators α DM CM) (s : HMM α DM CM)
    (timeseries : MatrixDouble α) : Bool × List Nat :=
  forLoopE (List.range timeseries.getNumRows)
    (fun i obs =>
      let obs := obs.set i (E.toUINT (timeseries.elem i 0))
      if obs.getD i 0 ≥ s.numSymbols then (false, obs) else (true, obs))
    (List.replicate timeseries.getNumRows 0)

/-- `HMM::predict_discrete(MatrixDouble&)`. -/
def predict_discrete_timeseries (E : Collaborators α DM CM) (s : HMM α DM CM)
    (timeseries : MatrixDouble α) : Bool × HMM α DM CM :=
  if !s.trained then (false, s)
  else if timeseries.getNumCols ≠ 1 then (false, s)
  else
    match toObservationSequence E s timeseries with
    | (false, _) => (false, s)
    | (true, observationSequence) =>
      let s := resizeBuffers s
      let s := { s with bestDistance := -(99 * 10 ^ 99) }
      discreteDecision E (fun m => E.dPredictSeq m observationSequence) s

/-! ## Continuous prediction (lines 345-412 and 495-565) -/

/-- Modelled from the spec: `IndexedDouble::sortIndexedDoubleByValueDescending`,
the comparator handed to `std::sort` ("sort all pairs by distance
descending"): `a` goes before `b` when its value is greater. -/
def sortIndexedDoubleByValueDescending (a b : IndexedDouble α) : Prop := a.value > b.value

instance : DecidableRel (sortIndexedDoubleByValueDescending : IndexedDouble α → _ → Prop) :=
  fun a b => inferInstanceAs (Decidable (a.value > b.value))

/-- The call `std::sort(results.begin(), results.end(), comparator)`, as the
insertion sort with the comparator.  `std::sort` leaves the order of elements
with equal values unspecified; this is one admissible outcome. -/
def sortResults (results : List (IndexedDouble α)) : List (IndexedDouble α) :=
  results.insertionSort sortIndexedDoubleByValueDescending

/-- The scoring loop of lines 375-384 (528-537): fill `results` and track
`minValue`, which starts at `-1000`. -/
def continuousScoreLoop (E : Collaborators α DM CM) (score : CM → α) (s : HMM α DM CM) :
    List (IndexedDouble α) × α :=
  let numModels := s.continuousModels.length
  forLoop numModels
    (fun i st =>
      let m := s.continuousModels.getD i E.cNew
      let results := st.1.set i { index := E.cGetClassLabel m, value := score m }
      let minValue := if score m < st.2 then score m else st.2
      (results, minValue))
    (List.replicate numModels ⟨0, 0⟩, -1000)

/-- The committee vote of lines 390-392 (543-545), on `classDistances`.  For a
member whose score is 0 the C++ vote `1.0 / (0 / minValue)` is infinite; the
field value of the quotient is 0 there, so the statements about the votes and
about what is computed from them take the hypothesis that no committee member
scores 0. -/
def committeeVote (s : HMM α DM CM) (results : List (IndexedDouble α)) (minValue : α)
    (classDistances : List α) : List α :=
  forLoop s.committeeSize
    (fun i cd =>
      let r := results.getD i ⟨0, 0⟩
      let c := s.getClassLabelIndexValue r.index
      cd.set c (cd.getD c 0 + 1 / (r.value / minValue)))
    classDistances

/-- The loop of lines 396-398 (549-551): `classLikelihoods[k] = classDistances[k] / sum`.
For `sum = 0` the C++ quotient is `inf` or `nan`; statements about the
quotients take the hypothesis `sum ≠ 0`. -/
def distancesToLikelihoods (numClasses : Nat) (classDistances : List α) (sum : α)
    (classLikelihoods : List α) : List α :=
  forLoop numClasses (fun k l => l.set k (classDistances.getD k 0 / sum)) classLikelihoods

/-- The loop of lines 401-406 (554-559): find the index of the largest
accumulated distance; the loop state is `(bestDistance, bestIndex)`. -/
def findMaximumLabel (numClasses : Nat) (classDistances : List α) (bestDistance : α) : α × Nat :=
  forLoop numClasses
    (fun k st => if classDistances.getD k 0 > st.1 then (classDistances.getD k 0, k) else st)
    (bestDistance, 0)

/-- Lines 364-411, shared verbatim by both overloads (lines 517-564) up to the
scoring call `score`. -/
def continuousDecision (E : Collaborators α DM CM) (score : CM → α) (s : HMM α DM CM) :
    Bool × HMM α DM CM :=
  let s := resizeBuffers s
  let s := { s with classDistances := s.classDistances.map (fun _ => 0) }
  let s := { s with bestDistance := -1000 }
  let rm := continuousScoreLoop E score s
  let results := sortResults rm.1
  let minValue := rm.2
  let s := { s with classDistances := committeeVote s results minValue s.classDistances }
  let sum := Util_sum s.classDistances
  let s := { s with
    classLikelihoods := distancesToLikelihoods s.numClasses s.classDistances sum s.classLikelihoods }
  let bm := findMaximumLabel s.numClasses s.classDistances s.bestDistance
  let s := { s with bestDistance := bm.1 }
  let bestIndex := bm.2
  let s := { s with maxLikelihood := s.classLikelihoods.getD bestIndex 0 }
  let s := { s with predictedClassLabel := s.classLabels.getD bestIndex 0 }
  (true, s)

/-- The scaling loop of lines 358-362 applied to the input vector. -/
def scaleInputVector (E : Collaborators α DM CM) (s : HMM α DM CM) (inputVector : List α) :
    List α :=
  forLoop s.numInputDimensions
    (fun i v =>
      v.set i (E.scale (v.getD i 0) (s.ranges.getD i ⟨0, 0⟩).minValue
        (s.ranges.getD i ⟨0, 0⟩).maxValue 0 1))
    inputVector

/-- The scaling loops of lines 508-515 applied to the input time series. -/
def scaleTimeseries (E : Collaborators α DM CM) (s : HMM α DM CM) (timeseries : MatrixDouble α) :
    MatrixDouble α :=
  forLoop s.numInputDimensions
    (fun j ts =>
      forLoop timeseries.getNumRows
        (fun i ts =>
          { ts with
            rows := ts.rows.set i ((ts.rows.getD i []).set j
              (E.scale (ts.elem i j) (s.ranges.getD j ⟨0, 0⟩).minValue
                (s.ranges.getD j ⟨0, 0⟩).maxValue 0 1)) })
        ts)
    timeseries

/-- `HMM::predict_continuous(VectorDouble&)`. -/
def predict_continuous (E : Collaborators α DM CM) (s : HMM α DM CM) (inputVector : List α) :
    Bool × HMM α DM CM :=
  if !s.trained then (false, s)
  else if inputVector.length ≠ s.numInputDimensions then (false, s)
  else
    let inputVector := if s.useScaling then scaleInputVector E s inputVector else inputVector
    continuousDecision E (fun m => E.cPredict m inputVector) s

/-- `HMM::predict_continuous(MatrixDouble&)`. -/
def predict_continuous_timeseries (E : Collaborators α DM CM) (s : HMM α DM CM)
    (timeseries : MatrixDouble α) : Bool × HMM α DM CM :=
  if !s.trained then (false, s)
  else if timeseries.getNumCols ≠ s.numInputDimensions then (false, s)
  else
    let timeseries := if s.useScaling then scaleTimeseries E s timeseries else timeseries
    continuousDecision E (fun m => E.cPredictSeq m timeseries) s

/-- `HMM::predict_(VectorDouble&)`. -/
def predict_ (E : Collaborators α DM CM) (s : HMM α DM CM) (inputVector : List α) :
    Bool × HMM α DM CM :=
  if s.hmmType = HMM_DISCRETE then predict_discrete E s inputVector
  else if s.hmmType = HMM_CONTINUOUS then predict_continuous E s inputVector
  else (false, s)

/-- `HMM::predict_(MatrixDouble&)`. -/
def predict_timeseries (E : Collaborators α DM CM) (s : HMM α DM CM)
    (timeseries : MatrixDouble α) : Bool × HMM α DM CM :=
  if s.hmmType = HMM_DISCRETE then predict_discrete_timeseries E s timeseries
  else if s.hmmType = HMM_CONTINUOUS then predict_continuous_timeseries E s timeseries
  else (false, s)

/-! ## Construction and concrete instances -/

/-- The constructor `HMM::HMM(hmmType, modelType, delta, useScaling,
useNullRejection)` (lines 28-53); the members of the base classes start at
their empty values. -/
def new (hmmType modelType delta : Nat) (useScaling useNullRejection : Bool) : HMM α DM CM :=
  { hmmType := hmmType
    modelType := modelType
    delta := delta
    numStates := 10
    numSymbols := 20
    maxNumEpochs := 1000
    minChange := 1 / 100000
    downsampleFactor := 5
    committeeSize := 5
    useScaling := useScaling
    useNullRejection := useNullRejection
    trained := false
    numInputDimensions := 0
    numClasses := 0
    classLabels := []
    nullRejectionThresholds := []
    ranges := []
    classLikelihoods := []
    classDistances := []
    predictedClassLabel := 0
    maxLikelihood := 0
    bestDistance := 0
    discreteModels := []
    continuousModels := [] }

/-- A concrete set of collaborators used to run the classifier on examples.
A discrete sub-model is the table of the scores it gives to the symbols
`0, 1, ...`; fitting stores `-(number of occurrences of the symbol)` for
every symbol below 4.  A continuous sub-model is the pair of the exemplar's
class label and its score; fitting stores the first value of the sample as
the score.  `fitOk` is the flag every fit returns. -/
def tableCollaborators {α : Type} [LinearOrderedField α] [FloorRing α] (antilog : α → α)
    (fitOk : Bool) : Collaborators α (List α) (Nat × α) where
  antilog := antilog
  toUINT := fun x => ⌊x⌋.toNat
  scale := fun x a b c d => (x - a) * (d - c) / (b - a) + c
  getRanges := fun _ => []
  dNew := []
  dResetModel := fun m _ _ _ _ => m
  dSetMaxNumEpochs := fun m _ => m
  dSetMinChange := fun m _ => m
  dTrain := fun _ seqs =>
    (fitOk, (List.range 4).map (fun o => -(((seqs.map (fun q => q.count o)).sum : Nat) : α)))
  dPredict := fun m o => m.getD o 0
  dPredictSeq := fun m os => (os.map (fun o => m.getD o 0)).sum
  cNew := (0, 0)
  cSetDownsampleFactor := fun m _ => m
  cSetModelType := fun m _ => m
  cSetDelta := fun m _ => m
  cEnableScaling := fun m _ => m
  cTrain := fun _ x => (fitOk, (x.classLabel, x.data.elem 0 0))
  cPredict := fun m _ => m.2
  cPredictSeq := fun m _ => m.2
  cGetClassLabel := fun m => m.1

/-- A training set with the two classes 7 and 9 and one-dimensional samples. -/
def exampleData {α : Type} [LinearOrderedField α] : TimeSeriesClassificationData α :=
  { numDimensions := 1
    classTracker := [7, 9]
    data := [⟨7, ⟨1, [[0], [1], [0]]⟩⟩, ⟨9, ⟨1, [[2], [3]]⟩⟩] }

/-- A dataset of the same shape without any sample. -/
def emptyData {α : Type} : TimeSeriesClassificationData α :=
  { numDimensions := 1, classTracker := [], data := [] }

/-- A discrete classifier with default settings, trained on `exampleData`. -/
def exampleDiscrete : HMM ℚ (List ℚ) (Nat × ℚ) :=
  (train_discrete (tableCollaborators id true) (new HMM_DISCRETE HMM_ERGODIC 1 false false)
    exampleData).2

/-- A training set for the continuous mode: three one-dimensional exemplars
of the classes 7, 9, 7 whose first values, the scores the concrete exemplar
models return, are -2, -4 and -3. -/
def exampleContinuousData {α : Type} [LinearOrderedField α] : TimeSeriesClassificationData α :=
  { numDimensions := 1
    classTracker := [7, 9]
    data := [⟨7, ⟨1, [[-2], [1]]⟩⟩, ⟨9, ⟨1, [[-4]]⟩⟩, ⟨7, ⟨1, [[-3]]⟩⟩] }

/-- A continuous classifier with a committee of 2, trained on
`exampleContinuousData`. -/
def exampleContinuous : HMM ℚ (List ℚ) (Nat × ℚ) :=
  (train_continuous (tableCollaborators id true)
    (setCommitteeSize (new HMM_CONTINUOUS HMM_ERGODIC 1 false false) 2).2
    exampleContinuousData).2

/-- A training set for the continuous mode whose second exemplar, of class 2,
gets the positive score 500 from the concrete exemplar model. -/
def positiveScoreData {α : Type} [LinearOrderedField α] : TimeSeriesClassificationData α :=
  { numDimensions := 1
    classTracker := [1, 2]
    data := [⟨1, ⟨1, [[-3]]⟩⟩, ⟨2, ⟨1, [[500]]⟩⟩] }

/-- A continuous classifier with a committee of 1 trained on `positiveScoreData`. -/
def positiveScoreClassifier : HMM ℚ (List ℚ) (Nat × ℚ) :=
  (train_continuous (tableCollaborators id true)
    (setCommitteeSize (new HMM_CONTINUOUS HMM_ERGODIC 1 false false) 1).2
    positiveScoreData).2

/-- A continuous classifier with a committee of 1 trained on
`exampleContinuousData`. -/
def nearestExemplarClassifier : HMM ℚ (List ℚ) (Nat × ℚ) :=
  (train_continuous (tableCollaborators id true)
    (setCommitteeSize (new HMM_CONTINUOUS HMM_ERGODIC 1 false false) 1).2
    exampleContinuousData).2

/-- The discrete classifier of `exampleDiscrete`, written out field by field
over an arbitrary field of values: two classes with the score tables
`[-2, -1, 0, 0]` and `[0, 0, -1, -1]`. -/
def exampleDiscreteState {α : Type} [LinearOrderedField α] : HMM α (List α) (Nat × α) :=
  { (new HMM_DISCRETE HMM_ERGODIC 1 false false : HMM α (List α) (Nat × α)) with
    trained := true
    numInputDimensions := 1
    numClasses := 2
    classLabels := [7, 9]
    nullRejectionThresholds := [-5, -2]
    discreteModels := [[-2, -1, 0, 0], [0, 0, -1, -1]] }

/-- The scoring call of `predict_continuous(VectorDouble&)`: the input is
rescaled first when scaling is enabled. -/
def vectorScore (E : Collaborators α DM CM) (s : HMM α DM CM) (v : List α) : CM → α :=
  fun m => E.cPredict m (if s.useScaling then scaleInputVector E s v else v)

/-- The scoring call of `predict_continuous(MatrixDouble&)`. -/
def timeseriesScore (E : Collaborators α DM CM) (s : HMM α DM CM) (ts : MatrixDouble α) : CM → α :=
  fun m => E.cPredictSeq m (if s.useScaling then scaleTimeseries E s ts else ts)

/-- The pairs (class label, score) of the exemplar models, in model order:
the contents of `results` before the sort. -/
def exemplarResults (E : Collaborators α DM CM) (score : CM → α) (s : HMM α DM CM) :
    List (IndexedDouble α) :=
  s.continuousModels.map (fun m => { index := E.cGetClassLabel m, value := score m })

/-- The best-scoring exemplar: the first element of `results` after the
descending sort. -/
def bestExemplar (E : Collaborators α DM CM) (score : CM → α) (s : HMM α DM CM) :
    IndexedDouble α :=
  (sortResults (exemplarResults E score s)).getD 0 ⟨0, 0⟩

/-- The object at line 373 (526) of `predict_continuous`: the buffers are
resized, `classDistances` is filled with 0 and `bestDistance` is `-1000`. -/
def continuousStart (s : HMM α DM CM) : HMM α DM CM :=
  { resizeBuffers s with
    classDistances := (resizeBuffers s).classDistances.map (fun _ => 0)
    bestDistance := -1000 }

/-- Two classifier objects have the same configuration: they agree on every
field of the `ClassifierConfig` (spec §3), whatever their trained state and
prediction buffers are. -/
def sameConfiguration (s1 s2 : HMM α DM CM) : Prop :=
  s1.hmmType = s2.hmmType ∧ s1.modelType = s2.modelType ∧ s1.delta = s2.delta ∧
  s1.numStates = s2.numStates ∧ s1.numSymbols = s2.numSymbols ∧
  s1.maxNumEpochs = s2.maxNumEpochs ∧ s1.minChange = s2.minChange ∧
  s1.downsampleFactor = s2.downsampleFactor ∧ s1.committeeSize = s2.committeeSize ∧
  s1.useScaling = s2.useScaling ∧ s1.useNullRejection = s2.useNullRejection

/-- The model every class starts from in `train_discrete`: a
default-constructed model configured by lines 157-159. -/
def configuredDiscreteModel (E : Collaborators α DM CM) (s : HMM α DM CM) : DM :=
  E.dSetMinChange
    (E.dSetMaxNumEpochs (E.dResetModel E.dNew s.numStates s.numSymbols s.modelType s.delta)
      s.maxNumEpochs)
    s.minChange

/-- The fit of the sub-model of class index `k` fails in `train_discrete`: the
data of the class converts to observation sequences and `train` of the
configured model returns false on them. -/
def discreteFitFails (E : Collaborators α DM CM) (s : HMM α DM CM)
    (d : TimeSeriesClassificationData α) (k : Nat) : Prop :=
  k < d.getNumClasses ∧
  (convertDataToObservationSequence E s (d.getClassData (d.classLabelAt k)) []).1 = true ∧
  (E.dTrain (configuredDiscreteModel E s)
    (convertDataToObservationSequence E s (d.getClassData (d.classLabelAt k)) []).2).1 = false

/-- The model every exemplar starts from in `train_continuous`: a
default-constructed model configured by lines 245-248. -/
def configuredContinuousModel (E : Collaborators α DM CM) (s : HMM α DM CM) : CM :=
  E.cEnableScaling
    (E.cSetDelta (E.cSetModelType (E.cSetDownsampleFactor E.cNew s.downsampleFactor) s.modelType)
      s.delta)
    false

/-- The fit of the exemplar model of training sample `k` fails in
`train_continuous`: `train_` of the configured model returns false on the
(scaled, when scaling is enabled) sample. -/
def continuousFitFails (E : Collaborators α DM CM) (s : HMM α DM CM)
    (d : TimeSeriesClassificationData α) (k : Nat) : Prop :=
  k < d.getNumSamples ∧
  (E.cTrain (configuredContinuousModel E s)
    ((if s.useScaling then scaleData E d 0 1 else d).sampleAt k)).1 = false

/-! ## Notions used in the statements about prediction -/

/-- The persistent part of the classifier object: the configuration fields,
the trained flag, the dimensions and class count, the labels, the thresholds,
the feature ranges and both sub-model collections; everything except the
transient prediction buffers `predictedClassLabel`, `maxLikelihood`,
`bestDistance`, `classLikelihoods` and `classDistances`. -/
def persistentState (s : HMM α DM CM) :
    (Nat × Nat × Nat × Nat × Nat × Nat × α × Nat × Nat × Bool × Bool) ×
    (Bool × Nat × Nat × List Nat × List α × List (MinMax α) × List DM × List CM) :=
  ((s.hmmType, s.modelType, s.delta, s.numStates, s.numSymbols, s.maxNumEpochs, s.minChange,
    s.downsampleFactor, s.committeeSize, s.useScaling, s.useNullRejection),
   (s.trained, s.numInputDimensions, s.numClasses, s.classLabels, s.nullRejectionThresholds,
    s.ranges, s.discreteModels, s.continuousModels))

/-- A classifier constructed with an `hmmType` that is neither enumerator. -/
def unknownTypeClassifier : HMM ℚ (List ℚ) (Nat × ℚ) :=
  new 2 HMM_ERGODIC 1 false false

/-- The object at the start of the scoring loop of `predict_discrete` (line
313, 462): the buffers are resized and `bestDistance` is `-99e+99`. -/
def discreteStart (s : HMM α DM CM) : HMM α DM CM :=
  { resizeBuffers s with bestDistance := -(99 * 10 ^ 99) }

/-- The scoring call of `predict_discrete(VectorDouble&)`: the sub-model scores
the symbol `(UINT)inputVector[0]`. -/
def symbolScore (E : Collaborators α DM CM) (v : List α) : DM → α :=
  fun m => E.dPredict m (E.toUINT (v.getD 0 0))

/-- The scoring call of `predict_discrete(MatrixDouble&)`: the sub-model scores
the converted observation sequence. -/
def sequenceScore (E : Collaborators α DM CM) (s : HMM α DM CM) (ts : MatrixDouble α) : DM → α :=
  fun m => E.dPredictSeq m (toObservationSequence E s ts).2

/-- The value of the local `bestIndex` after the scoring loop of
`predict_discrete(VectorDouble&)`. -/
def vectorBestIndex (E : Collaborators α DM CM) (s : HMM α DM CM) (v : List α) : Nat :=
  (discreteScoreLoop E (symbolScore E v)
    (discreteStart { s with predictedClassLabel := 0, maxLikelihood := -10000 })).bestIndex

/-- The value of the local `bestIndex` after the scoring loop of
`predict_discrete(MatrixDouble&)`. -/
def timeseriesBestIndex (E : Collaborators α DM CM) (s : HMM α DM CM) (ts : MatrixDouble α) :
    Nat :=
  (discreteScoreLoop E (sequenceScore E s ts) (discreteStart s)).bestIndex

/-- The index `b` is the first index of the maximum of the list: it is in
range, no element is greater than the one at `b`, and every element before
`b` is strictly smaller. -/
def isFirstMaxIndex (l : List α) (b : Nat) : Prop :=
  b < l.length ∧ (∀ i, i < l.length → l.getD i 0 ≤ l.getD b 0) ∧
  (∀ i, i < b → l.getD i 0 < l.getD b 0)

/-- A trained discrete classifier with null rejection switched on whose two
classes give the symbol 0 the scores `-10^102` and `-10^101`, both below the
start value `-99e+99` of `bestDistance`. -/
def belowSentinelClassifier : HMM ℚ (List ℚ) (Nat × ℚ) :=
  { (new HMM_DISCRETE HMM_ERGODIC 1 false false : HMM ℚ (List ℚ) (Nat × ℚ)) with
    trained := true
    numInputDimensions := 1
    numClasses := 2
    classLabels := [7, 9]
    nullRejectionThresholds := [-5, -2]
    discreteModels := [[-(10 ^ 102)], [-(10 ^ 101)]] }

/-! ## Notions used in the statements about observation sequences -/

/-- The body of the inner loop of `convertDataToObservationSequence` (lines
856-862) for the time series `ts` of sample `i`: check value `j` and store its
symbol. -/
def convertValue (E : Collaborators α DM CM) (s : HMM α DM CM) (ts : MatrixDouble α) (i j : Nat)
    (obs : List (List Nat)) : Bool × List (List Nat) :=
  if ts.elem j 0 ≥ (s.numSymbols : α) then (false, obs)
  else (true, obs.set i ((obs.getD i []).set j (E.toUINT (ts.elem j 0))))

/-- The body of the outer loop of `convertDataToObservationSequence` (lines
853-863): resize the sequence of sample `i` and convert its values. -/
def convertSample (E : Collaborators α DM CM) (s : HMM α DM CM)
    (classData : TimeSeriesClassificationData α) (i : Nat) (obs : List (List Nat)) :
    Bool × List (List Nat) :=
  forLoopE (List.range (classData.sampleAt i).data.getNumRows)
    (convertValue E s (classData.sampleAt i).data i)
    (obs.set i (resize (obs.getD i []) (classData.sampleAt i).data.getNumRows 0))

/-- The symbols of a one-dimensional time series: the values of column 0,
converted to `UINT`, in row order. -/
def symbolsOf (E : Collaborators α DM CM) (ts : MatrixDouble α) : List Nat :=
  (List.range ts.getNumRows).map (fun j => E.toUINT (ts.elem j 0))

/-- The observation sequences of a class's data: one sequence per sample, of
the sample's length, whose `j`-th symbol is the `j`-th value converted to
`UINT`. -/
def observationSequencesOf (E : Collaborators α DM CM)
    (classData : TimeSeriesClassificationData α) : List (List Nat) :=
  classData.data.map (fun x => symbolsOf E x.data)

/-- Some value of the class data is `>= numSymbols`. -/
def hasValueOutOfRange (s : HMM α DM CM) (classData : TimeSeriesClassificationData α) : Prop :=
  ∃ x, x ∈ classData.data ∧ ∃ j, j < x.data.getNumRows ∧ (s.numSymbols : α) ≤ x.data.elem j 0

/-- Class data whose only value, 25, is outside the default symbol range of 20. -/
def outOfRangeData {α : Type} [LinearOrderedField α] : TimeSeriesClassificationData α :=
  { numDimensions := 1, classTracker := [7], data := [⟨7, ⟨1, [[25]]⟩⟩] }

/-! ## Notions used in the statements about the rejection thresholds -/

/-- The object at line 161 of `train_discrete`: cleared, resized and with
every class model configured, before the first fit. -/
def discreteTrainingStart (E : Collaborators α DM CM) (s : HMM α DM CM)
    (d : TimeSeriesClassificationData α) : HMM α DM CM :=
  let s := (clear s).2
  let s := { s with numInputDimensions := d.getNumDimensions }
  let s := { s with numClasses := d.getNumClasses }
  let s := { s with discreteModels := resize s.discreteModels s.numClasses E.dNew }
  let s := { s with classLabels := resize s.classLabels s.numClasses 0 }
  { s with discreteModels := initDiscreteModels E s s.discreteModels }

/-- The training sequences of the class with index `k`: the observation
sequences of the samples that carry the `k`-th label of the class tracker. -/
def classSequences (E : Collaborators α DM CM) (d : TimeSeriesClassificationData α) (k : Nat) :
    List (List Nat) :=
  observationSequencesOf E (d.getClassData (d.classLabelAt k))

/-- The average of the absolute values of the scores a sub-model gives to the
sequences: `(sum_i |score(s_i)|) / n`. -/
def averageAbsScore (E : Collaborators α DM CM) (m : DM) (seqs : List (List Nat)) : α :=
  (seqs.map (fun q => |E.dPredictSeq m q|)).sum / (seqs.length : α)

/-- A training set whose single class 7 has the two samples `0` and `0, 1`. -/
def twoSequenceData {α : Type} [LinearOrderedField α] : TimeSeriesClassificationData α :=
  { numDimensions := 1
    classTracker := [7]
    data := [⟨7, ⟨1, [[0]]⟩⟩, ⟨7, ⟨1, [[0], [1]]⟩⟩] }

/-- A counted loop whose `i`-th iteration reads `table[i]`, with the read
bounds-checked: the result is `none` as soon as an index `i` is not below
`table.size()`, and otherwise the iteration applies `body i table[i]`. -/
def forLoopReading {σ β : Type} (n : Nat) (table : List β) (body : Nat → β → σ → σ)
    (init : σ) : Option σ :=
  forLoop n (fun i st => st.bind (fun x => (table[i]?).map (fun r => body i r x))) (some init)

/-- The committee vote of lines 390-392 (543-545) with the read `results[i]`
bounds-checked: `none` when some `i < committeeSize` is not below
`results.size()`. -/
def committeeVoteChecked (s : HMM α DM CM) (results : List (IndexedDouble α)) (minValue : α)
    (classDistances : List α) : Option (List α) :=
  forLoopReading s.committeeSize results
    (fun _ r cd =>
      let c := s.getClassLabelIndexValue r.index
      cd.set c (cd.getD c 0 + 1 / (r.value / minValue)))
    classDistances

/-- The `results` vector at the committee loop of `predict_continuous`: one
entry per exemplar model, sorted by descending score. -/
def sortedResults (E : Collaborators α DM CM) (score : CM → α) (s : HMM α DM CM) :
    List (IndexedDouble α) :=
  sortResults (continuousScoreLoop E score (continuousStart s)).1

/-- A continuous classifier with the default committee size 5, trained on the
three exemplars of `exampleContinuousData`. -/
def defaultCommitteeClassifier : HMM ℚ (List ℚ) (Nat × ℚ) :=
  (train_continuous (tableCollaborators id true)
    (new HMM_CONTINUOUS HMM_ERGODIC 1 false false) exampleContinuousData).2

/-- The scaling loop of lines 358-362 with the read `ranges[i]`
bounds-checked: `none` when some `i < numInputDimensions` is not below
`ranges.size()`. -/
def scaleInputVectorChecked (E : Collaborators α DM CM) (s : HMM α DM CM) (inputVector : List α) :
    Option (List α) :=
  forLoopReading s.numInputDimensions s.ranges
    (fun i r v => v.set i (E.scale (v.getD i 0) r.minValue r.maxValue 0 1))
    inputVector

/-- The scaling loops of lines 508-515 with the read `ranges[j]`
bounds-checked: `none` when an iteration of the inner loop reads `ranges[j]`
with `j` not below `ranges.size()`. -/
def scaleTimeseriesChecked (E : Collaborators α DM CM) (s : HMM α DM CM)
    (timeseries : MatrixDouble α) : Option (MatrixDouble α) :=
  forLoop s.numInputDimensions
    (fun j st =>
      forLoop timeseries.getNumRows
        (fun i st =>
          st.bind (fun ts =>
            (s.ranges[j]?).map (fun r =>
              { ts with
                rows := ts.rows.set i ((ts.rows.getD i []).set j
                  (E.scale (ts.elem i j) r.minValue r.maxValue 0 1)) })))
        st)
    (some timeseries)

/-- The committee of `predict_continuous`: the entries `results[i]`,
`i < committeeSize`, that the loop of lines 390-392 (543-545) reads after the
descending sort. -/
def committee (E : Collaborators α DM CM) (score : CM → α) (s : HMM α DM CM) :
    List (IndexedDouble α) :=
  (sortResults (exemplarResults E score s)).take s.committeeSize

/-- The local `minValue` of `predict_continuous` after the scoring loop of
lines 375-384 (528-537). -/
def scoredMinValue (E : Collaborators α DM CM) (score : CM → α) (s : HMM α DM CM) : α :=
  (continuousScoreLoop E score s).2

/-- The vote of line 391 (544): `1.0 / (results[i].value / minValue)`. -/
def voteWeight (value minValue : α) : α := 1 / (value / minValue)

/-- The local `bestIndex` of `predict_continuous` after the maximum search of
lines 401-406 (554-559). -/
def continuousBestIndex (E : Collaborators α DM CM) (score : CM → α) (s : HMM α DM CM) : Nat :=
  (findMaximumLabel s.numClasses (continuousDecision E score s).2.classDistances (-1000)).2

/-- A training set for the continuous mode whose two exemplars, of the classes
1 and 2, get the positive scores 1/3 and 1/2 from the concrete exemplar
model. -/
def fractionScoreData {α : Type} [LinearOrderedField α] : TimeSeriesClassificationData α :=
  { numDimensions := 1
    classTracker := [1, 2]
    data := [⟨1, ⟨1, [[1 / 3]]⟩⟩, ⟨2, ⟨1, [[1 / 2]]⟩⟩] }

/-- A continuous classifier with a committee of 2 trained on `fractionScoreData`. -/
def fractionScoreClassifier : HMM ℚ (List ℚ) (Nat × ℚ) :=
  (train_continuous (tableCollaborators id true)
    (setCommitteeSize (new HMM_CONTINUOUS HMM_ERGODIC 1 false false) 2).2
    fractionScoreData).2

/-- `HMM::setNumRandomTrainingIterations` (lines 985-996).  The member
`numRandomTrainingIterations` it assigns is read by no other function of the
file and is not a field of the state record; the call's effect on the record
is that of `clear()`, and the flag is the result of the validation. -/
def setNumRandomTrainingIterations (s : HMM α DM CM) (numRandomTrainingIterations : Nat) :
    Bool × HMM α DM CM :=
  let s := (clear s).2
  if numRandomTrainingIterations > 0 then (true, s) else (false, s)

/-- A call of one of the public operations of the classifier that train,
predict, clear or configure, with its argument. -/
inductive Call (α : Type) where
  | train (trainingData : TimeSeriesClassificationData α)
  | predict (inputVector : List α)
  | predictTimeseries (timeseries : MatrixDouble α)
  | clear
  | setHMMType (hmmType : Nat)
  | setModelType (modelType : Nat)
  | setDelta (delta : Nat)
  | setDownsampleFactor (downsampleFactor : Nat)
  | setCommitteeSize (committeeSize : Nat)
  | setNumStates (numStates : Nat)
  | setNumSymbols (numSymbols : Nat)
  | setNumRandomTrainingIterations (numRandomTrainingIterations : Nat)

/-- The effect of one call on the classifier. -/
def applyCall (E : Collaborators α DM CM) (s : HMM α DM CM) : Call α → Bool × HMM α DM CM
  | Call.train d => train_ E s d
  | Call.predict v => predict_ E s v
  | Call.predictTimeseries ts => predict_timeseries E s ts
  | Call.clear => clear s
  | Call.setHMMType n => setHMMType s n
  | Call.setModelType n => setModelType s n
  | Call.setDelta n => setDelta s n
  | Call.setDownsampleFactor n => setDownsampleFactor s n
  | Call.setCommitteeSize n => setCommitteeSize s n
  | Call.setNumStates n => setNumStates s n
  | Call.setNumSymbols n => setNumSymbols s n
  | Call.setNumRandomTrainingIterations n => setNumRandomTrainingIterations s n

/-- The classifier after a sequence of calls, whatever flags they return. -/
def runCalls (E : Collaborators α DM CM) (calls : List (Call α)) (s : HMM α DM CM) :
    HMM α DM CM :=
  calls.foldl (fun st c => (applyCall E st c).2) s

/-- A sequence of calls on a fresh classifier: configure, train in discrete
mode, predict, switch to the continuous mode and train again. -/
def exampleCalls : List (Call ℚ) :=
  [Call.setNumStates 5, Call.train exampleData, Call.predict [0],
   Call.setHMMType HMM_CONTINUOUS, Call.setCommitteeSize 2, Call.train exampleContinuousData,
   Call.predict [1]]

/-- The continuous classifier of `exampleContinuous` with two exemplar models
that score -2000 (class 7) and -4 (class 9). -/
def lowScoreClassifier : HMM ℚ (List ℚ) (Nat × ℚ) :=
  { exampleContinuous with continuousModels := [(7, -2000), (9, -4)] }

/-- Modelled from the spec: `TimeSeriesClassificationData::getRanges()`, the
"per-dimension ranges" captured from the training set: for each of the
`numDimensions` dimensions the least and the greatest value of that dimension
over all rows of all samples (`0, 0` for a dataset without values). -/
def dataRanges (d : TimeSeriesClassificationData α) : List (MinMax α) :=
  (List.range d.getNumDimensions).map (fun j =>
    { minValue :=
        ((d.data.map (fun x => x.data.rows.map (fun row => row.getD j 0))).flatten).foldl min
          (((d.data.map (fun x => x.data.rows.map (fun row => row.getD j 0))).flatten).headD 0)
      maxValue :=
        ((d.data.map (fun x => x.data.rows.map (fun row => row.getD j 0))).flatten).foldl max
          (((d.data.map (fun x => x.data.rows.map (fun row => row.getD j 0))).flatten).headD 0) })

/-- The concrete collaborators of `tableCollaborators id true` with
`getRanges` computing the per-dimension ranges of the dataset. -/
def rangedCollaborators : Collaborators ℚ (List ℚ) (Nat × ℚ) :=
  { tableCollaborators id true with getRanges := dataRanges }

/-- A training set for the continuous mode with scaling: two one-dimensional
exemplars of the classes 7 and 9 whose values range over `[0, 4]`. -/
def scalingData {α : Type} [LinearOrderedField α] : TimeSeriesClassificationData α :=
  { numDimensions := 1
    classTracker := [7, 9]
    data := [⟨7, ⟨1, [[1], [0]]⟩⟩, ⟨9, ⟨1, [[2], [4]]⟩⟩] }

/-- A sequence of calls on a fresh continuous classifier with scaling enabled:
set the committee size to 2 and train on `scalingData`. -/
def scalingCalls : List (Call ℚ) :=
  [Call.setCommitteeSize 2, Call.train scalingData]

/-- A stand-in on an ordered field for the double-precision `exp` that the
source's `antilog` computes: 0 below -746, where the double-precision `exp`
underflows to 0, and positive and non-decreasing from there on, with the value
1 at 0.  The examples evaluate it at 0, where its value is that of `exp`, and
at -1000, where `exp` underflows. -/
def underflowAntilog {α : Type} [LinearOrderedField α] (x : α) : α :=
  if x < -746 then 0 else if x ≤ 0 then 1 / (1 - x) else 1 + x

/-- The concrete collaborators of `tableCollaborators antilog true` with
another fit of the discrete sub-model: the score table holds the
log-likelihood 0 for a symbol (below 4) that occurs in the class's sequences
and -1000 for a symbol that does not occur. -/
def seenCollaborators {α : Type} [LinearOrderedField α] [FloorRing α] (antilog : α → α) :
    Collaborators α (List α) (Nat × α) :=
  { tableCollaborators antilog true with
    dTrain := fun _ seqs =>
      (true, (List.range 4).map
        (fun o => if seqs.any (fun q => q.contains o) then 0 else -1000)) }

/-- A training set with the two classes 7 and 9: the samples of class 7 hold
the symbol 0 only, the sample of class 9 holds the symbol 1 only. -/
def binaryData {α : Type} [LinearOrderedField α] : TimeSeriesClassificationData α :=
  { numDimensions := 1
    classTracker := [7, 9]
    data := [⟨7, ⟨1, [[0], [0]]⟩⟩, ⟨7, ⟨1, [[0]]⟩⟩, ⟨9, ⟨1, [[1]]⟩⟩] }

/-- The collaborators `seenCollaborators` over the rationals with
`underflowAntilog` as the antilog. -/
def underflowCollaborators : Collaborators ℚ (List ℚ) (Nat × ℚ) :=
  seenCollaborators underflowAntilog

/-- A discrete classifier with null rejection enabled, trained by
`train_discrete` on `binaryData` with the collaborators
`underflowCollaborators`. -/
def underflowClassifier : HMM ℚ (List ℚ) (Nat × ℚ) :=
  (train_discrete underflowCollaborators
    (new HMM_DISCRETE HMM_ERGODIC 1 false true) binaryData).2

/-! ## General lemmas on the loops -/

theorem forLoop_zero {σ : Type} (body : Nat → σ → σ) (init : σ) : forLoop 0 body init = init := rfl

theorem forLoop_succ {σ : Type} (n : Nat) (body : Nat → σ → σ) (init : σ) :
    forLoop (n + 1) body init = body n (forLoop n body init) := by
  simp [forLoop, List.range_succ, List.foldl_append]

/-- A loop with early exit keeps every property its body keeps. -/
theorem forLoopE_inv {σ : Type} (P : σ → Prop) (body : Nat → σ → Bool × σ)
    (h : ∀ k st, P st → P (body k st).2) :
    ∀ (ks : List Nat) (st : σ), P st → P (forLoopE ks body st).2 := by
  intro ks
  induction ks with
  | nil => intro st hst; exact hst
  | cons k ks ih =>
    intro st hst
    have hk := h k st hst
    unfold forLoopE
    rcases hb : body k st with ⟨b, st1⟩
    rw [hb] at hk
    cases b
    · exact hk
    · exact ih st1 hk

/-- A loop with early exit keeps the value of every projection its body keeps. -/
theorem forLoopE_proj {σ β : Type} (f : σ → β) (body : Nat → σ → Bool × σ)
    (h : ∀ k st, f (body k st).2 = f st) (ks : List Nat) (st : σ) :
    f (forLoopE ks body st).2 = f st :=
  forLoopE_inv (fun x => f x = f st) body (fun k x hx => (h k x).trans hx) ks st rfl

/-! ## Frame lemmas for the training loop bodies -/

theorem trainDiscreteModel_trained (E : Collaborators α DM CM)
    (d : TimeSeriesClassificationData α) (k : Nat) (s : HMM α DM CM) :
    (trainDiscreteModel E d k s).2.trained = s.trained := by
  unfold trainDiscreteModel
  simp only []
  split
  · rfl
  · split <;> rfl

theorem trainDiscreteModel_continuousModels (E : Collaborators α DM CM)
    (d : TimeSeriesClassificationData α) (k : Nat) (s : HMM α DM CM) :
    (trainDiscreteModel E d k s).2.continuousModels = s.continuousModels := by
  unfold trainDiscreteModel
  simp only []
  split
  · rfl
  · split <;> rfl

theorem trainDiscreteModel_length (E : Collaborators α DM CM)
    (d : TimeSeriesClassificationData α) (k : Nat) (s : HMM α DM CM) :
    (trainDiscreteModel E d k s).2.discreteModels.length = s.discreteModels.length := by
  unfold trainDiscreteModel
  simp only []
  split
  · rfl
  · split <;> simp

theorem computeThreshold_trained (E : Collaborators α DM CM)
    (d : TimeSeriesClassificationData α) (k : Nat) (s : HMM α DM CM) :
    (computeThreshold E d k s).2.trained = s.trained := by
  unfold computeThreshold
  simp only []
  split <;> rfl

theorem computeThreshold_continuousModels (E : Collaborators α DM CM)
    (d : TimeSeriesClassificationData α) (k : Nat) (s : HMM α DM CM) :
    (computeThreshold E d k s).2.continuousModels = s.continuousModels := by
  unfold computeThreshold
  simp only []
  split <;> rfl

theorem computeThreshold_discreteModels (E : Collaborators α DM CM)
    (d : TimeSeriesClassificationData α) (k : Nat) (s : HMM α DM CM) :
    (computeThreshold E d k s).2.discreteModels = s.discreteModels := by
  unfold computeThreshold
  simp only []
  split <;> rfl

theorem trainContinuousModel_trained (E : Collaborators α DM CM)
    (d : TimeSeriesClassificationData α) (k : Nat) (s : HMM α DM CM) :
    (trainContinuousModel E d k s).2.trained = s.trained := by
  unfold trainContinuousModel
  simp only []
  split <;> rfl

theorem trainContinuousModel_discreteModels (E : Collaborators α DM CM)
    (d : TimeSeriesClassificationData α) (k : Nat) (s : HMM α DM CM) :
    (trainContinuousModel E d k s).2.discreteModels = s.discreteModels := by
  unfold trainContinuousModel
  simp only []
  split <;> rfl

theorem trainContinuousModel_length (E : Collaborators α DM CM)
    (d : TimeSeriesClassificationData α) (k : Nat) (s : HMM α DM CM) :
    (trainContinuousModel E d k s).2.continuousModels.length = s.continuousModels.length := by
  unfold trainContinuousModel
  simp only []
  split <;> simp

/-- The result of a loop with early exit agrees with the start state on every
projection its body keeps. -/
theorem forLoopE_proj_eq {σ β : Type} (f : σ → β) (body : Nat → σ → Bool × σ)
    (h : ∀ k st, f (body k st).2 = f st) {ks : List Nat} {st st1 : σ} {b : Bool}
    (hr : forLoopE ks body st = (b, st1)) : f st1 = f st := by
  have := forLoopE_proj f body h ks st
  rw [hr] at this
  exact this

/-- The trained flag after `train_discrete` is the returned flag. -/
theorem train_discrete_trained_eq (E : Collaborators α DM CM) (s : HMM α DM CM)
    (d : TimeSeriesClassificationData α) :
    (train_discrete E s d).2.trained = (train_discrete E s d).1 := by
  unfold train_discrete
  dsimp only
  split_ifs
  all_goals first
    | rfl
    | (split
       · next s1 h1 =>
         have h3 := forLoopE_proj_eq (fun x : HMM α DM CM => x.trained) _
           (trainDiscreteModel_trained E d) h1
         simpa [clear, Classifier_clear] using h3
       · next s1 h1 =>
         split
         · next s2 h2 =>
           have h3 := forLoopE_proj_eq (fun x : HMM α DM CM => x.trained) _
             (trainDiscreteModel_trained E d) h1
           have h4 := forLoopE_proj_eq (fun x : HMM α DM CM => x.trained) _
             (computeThreshold_trained E d) h2
           dsimp only at h3 h4
           rw [h3] at h4
           simpa [clear, Classifier_clear] using h4
         · rfl)

/-- The trained flag after `train_continuous` is the returned flag. -/
theorem train_continuous_trained_eq (E : Collaborators α DM CM) (s : HMM α DM CM)
    (d : TimeSeriesClassificationData α) :
    (train_continuous E s d).2.trained = (train_continuous E s d).1 := by
  unfold train_continuous
  dsimp only
  split_ifs
  all_goals first
    | rfl
    | (split
       · next s1 h1 =>
         have h3 := forLoopE_proj_eq (fun x : HMM α DM CM => x.trained) _
           (trainContinuousModel_trained E _) h1
         simpa [clear, Classifier_clear] using h3
       · split_ifs <;> rfl)

/-! ## Training on an empty dataset, re-training -/

theorem clear_eq_of_sameConfiguration {s1 s2 : HMM α DM CM} (h : sameConfiguration s1 s2) :
    (clear s1).2 = (clear s2).2 := by
  cases s1
  cases s2
  simp only [sameConfiguration] at h
  obtain ⟨h1, h2, h3, h4, h5, h6, h7, h8, h9, h10, h11⟩ := h
  simp only [clear, Classifier_clear]
  subst h1 h2 h3 h4 h5 h6 h7 h8 h9 h10 h11
  rfl

theorem train_discrete_congr (E : Collaborators α DM CM) {s1 s2 : HMM α DM CM}
    (h : (clear s1).2 = (clear s2).2) (d : TimeSeriesClassificationData α) :
    train_discrete E s1 d = train_discrete E s2 d := by
  unfold train_discrete
  rw [h]

theorem train_continuous_congr (E : Collaborators α DM CM) {s1 s2 : HMM α DM CM}
    (h : (clear s1).2 = (clear s2).2) (d : TimeSeriesClassificationData α) :
    train_continuous E s1 d = train_continuous E s2 d := by
  unfold train_continuous
  rw [h]

theorem train_discrete_empty (E : Collaborators α DM CM) (s : HMM α DM CM)
    (d : TimeSeriesClassificationData α) (h : d.getNumSamples = 0) :
    train_discrete E s d = (false, (clear s).2) := by
  unfold train_discrete
  simp [h]

theorem train_continuous_empty (E : Collaborators α DM CM) (s : HMM α DM CM)
    (d : TimeSeriesClassificationData α) (h : d.getNumSamples = 0) :
    train_continuous E s d = (false, (clear s).2) := by
  unfold train_continuous
  simp [h]

/-- C3, as stated, fails: training the trained classifiers `exampleDiscrete`
and `exampleContinuous` on a dataset without samples does not leave the prior
trained state as it was (the trained flag, the labels, the thresholds and the
sub-models are all reset). -/
theorem train_empty_keeps_state_counterexample :
    (emptyData : TimeSeriesClassificationData ℚ).getNumSamples = 0 ∧
    ¬ ((train_discrete (tableCollaborators id true) exampleDiscrete emptyData).1 = false ∧
       (train_discrete (tableCollaborators id true) exampleDiscrete emptyData).2.trained
          = exampleDiscrete.trained ∧
       (train_discrete (tableCollaborators id true) exampleDiscrete emptyData).2.classLabels
          = exampleDiscrete.classLabels ∧
       (train_discrete (tableCollaborators id true) exampleDiscrete emptyData).2.nullRejectionThresholds
          = exampleDiscrete.nullRejectionThresholds ∧
       (train_discrete (tableCollaborators id true) exampleDiscrete emptyData).2.discreteModels
          = exampleDiscrete.discreteModels ∧
       (train_discrete (tableCollaborators id true) exampleDiscrete emptyData).2.continuousModels
          = exampleDiscrete.continuousModels) ∧
    ¬ ((train_continuous (tableCollaborators id true) exampleContinuous emptyData).1 = false ∧
       (train_continuous (tableCollaborators id true) exampleContinuous emptyData).2.trained
          = exampleContinuous.trained ∧
       (train_continuous (tableCollaborators id true) exampleContinuous emptyData).2.classLabels
          = exampleContinuous.classLabels ∧
       (train_continuous (tableCollaborators id true) exampleContinuous emptyData).2.nullRejectionThresholds
          = exampleContinuous.nullRejectionThresholds ∧
       (train_continuous (tableCollaborators id true) exampleContinuous emptyData).2.discreteModels
          = exampleContinuous.discreteModels ∧
       (train_continuous (tableCollaborators id true) exampleContinuous emptyData).2.continuousModels
          = exampleContinuous.continuousModels) := by
  decide!

/-- C3, amended: on a dataset with zero samples `train_discrete` and
`train_continuous` return failure and leave the classifier in the cleared
state, whatever state it was in: the result is the state `clear` produces, so
the trained flag is false and the labels, thresholds and both sub-model
collections are empty. -/
theorem train_empty_clears (E : Collaborators α DM CM) (s : HMM α DM CM)
    (d : TimeSeriesClassificationData α) (h : d.getNumSamples = 0) :
    (train_discrete E s d = (false, (clear s).2) ∧
      train_continuous E s d = (false, (clear s).2)) ∧
    (clear s).2.trained = false ∧ (clear s).2.classLabels = [] ∧
    (clear s).2.nullRejectionThresholds = [] ∧ (clear s).2.discreteModels = [] ∧
    (clear s).2.continuousModels = [] :=
  ⟨⟨train_discrete_empty E s d h, train_continuous_empty E s d h⟩, rfl, rfl, rfl, rfl, rfl⟩

/-- Witness for C3 (amended): the trained classifier `exampleDiscrete` and the
dataset without samples. -/
theorem train_empty_clears_witness :
    (emptyData : TimeSeriesClassificationData ℚ).getNumSamples = 0 ∧
    ((train_discrete (tableCollaborators id true) exampleDiscrete emptyData
        = (false, (clear exampleDiscrete).2) ∧
      train_continuous (tableCollaborators id true) exampleDiscrete emptyData
        = (false, (clear exampleDiscrete).2)) ∧
    (clear exampleDiscrete).2.trained = false ∧ (clear exampleDiscrete).2.classLabels = [] ∧
    (clear exampleDiscrete).2.nullRejectionThresholds = [] ∧
    (clear exampleDiscrete).2.discreteModels = [] ∧
    (clear exampleDiscrete).2.continuousModels = []) :=
  ⟨rfl, train_empty_clears (tableCollaborators id true) exampleDiscrete emptyData rfl⟩

/-- C6: re-training replaces the prior trained state.  For two classifier
objects with the same configuration and arbitrary trained state, training on
the same dataset gives the same return value and the same object; this holds
for `train_discrete` and for `train_continuous`, and for the dispatcher
`train_` when the configured `hmmType` is one of the two enumerators of the
data model.  In particular the sub-models, `classLabels`,
`nullRejectionThresholds` and the trained flag after the call do not depend on
the state before it. -/
theorem retrain_replaces_state (E : Collaborators α DM CM) (s1 s2 : HMM α DM CM)
    (d : TimeSeriesClassificationData α) (hc : sameConfiguration s1 s2) :
    train_discrete E s1 d = train_discrete E s2 d ∧
    train_continuous E s1 d = train_continuous E s2 d ∧
    (s1.hmmType = HMM_DISCRETE ∨ s1.hmmType = HMM_CONTINUOUS →
      (train_ E s1 d).1 = (train_ E s2 d).1 ∧
      (train_ E s1 d).2.discreteModels = (train_ E s2 d).2.discreteModels ∧
      (train_ E s1 d).2.continuousModels = (train_ E s2 d).2.continuousModels ∧
      (train_ E s1 d).2.classLabels = (train_ E s2 d).2.classLabels ∧
      (train_ E s1 d).2.nullRejectionThresholds = (train_ E s2 d).2.nullRejectionThresholds ∧
      (train_ E s1 d).2.trained = (train_ E s2 d).2.trained) := by
  have hd := train_discrete_congr E (clear_eq_of_sameConfiguration hc) d
  have hk := train_continuous_congr E (clear_eq_of_sameConfiguration hc) d
  refine ⟨hd, hk, ?_⟩
  intro ht
  have h : train_ E s1 d = train_ E s2 d := by
    have hty : s2.hmmType = s1.hmmType := hc.1.symm
    unfold train_
    rw [hty]
    rcases ht with ht | ht
    · rw [if_pos ht, if_pos ht]; exact hd
    · by_cases h0 : s1.hmmType = HMM_DISCRETE
      · rw [if_pos h0, if_pos h0]; exact hd
      · rw [if_neg h0, if_neg h0, if_pos ht, if_pos ht]; exact hk
  rw [h]
  exact ⟨rfl, rfl, rfl, rfl, rfl, rfl⟩

/-- Witness for C6: the classifier trained on `exampleData` and a freshly
constructed classifier have the same configuration and differ in their
trained state; re-training both on `exampleData` gives the same sub-models. -/
theorem retrain_replaces_state_witness :
    sameConfiguration exampleDiscrete
      (new HMM_DISCRETE HMM_ERGODIC 1 false false : HMM ℚ (List ℚ) (Nat × ℚ)) ∧
    exampleDiscrete.trained ≠
      (new HMM_DISCRETE HMM_ERGODIC 1 false false : HMM ℚ (List ℚ) (Nat × ℚ)).trained ∧
    exampleDiscrete.discreteModels ≠
      (new HMM_DISCRETE HMM_ERGODIC 1 false false : HMM ℚ (List ℚ) (Nat × ℚ)).discreteModels ∧
    (train_ (tableCollaborators id true) exampleDiscrete exampleData).2.discreteModels
      = (train_ (tableCollaborators id true) (new HMM_DISCRETE HMM_ERGODIC 1 false false)
          exampleData).2.discreteModels :=
  ⟨by unfold sameConfiguration; decide!, by decide!, by decide!,
   ((retrain_replaces_state (tableCollaborators id true) exampleDiscrete
      (new HMM_DISCRETE HMM_ERGODIC 1 false false) exampleData
      (by unfold sameConfiguration; decide!)).2.2 (Or.inl (by decide!))).2.1⟩

/-! ## Setters -/

/-- C7: `setDelta`, `setNumStates`, `setNumSymbols` and `setDownsampleFactor`
fail exactly on the argument 0, `setHMMType` and `setModelType` fail exactly
on an argument that is neither of the two type constants; after a failure the
field has its previous value and after a success it is the argument. -/
theorem setters_validate (s : HMM α DM CM) (x : Nat) :
    (((setDelta s x).1 = false ↔ x = 0) ∧
      (setDelta s x).2.delta = if x = 0 then s.delta else x) ∧
    (((setNumStates s x).1 = false ↔ x = 0) ∧
      (setNumStates s x).2.numStates = if x = 0 then s.numStates else x) ∧
    (((setNumSymbols s x).1 = false ↔ x = 0) ∧
      (setNumSymbols s x).2.numSymbols = if x = 0 then s.numSymbols else x) ∧
    (((setDownsampleFactor s x).1 = false ↔ x = 0) ∧
      (setDownsampleFactor s x).2.downsampleFactor = if x = 0 then s.downsampleFactor else x) ∧
    (((setHMMType s x).1 = false ↔ ¬ (x = HMM_DISCRETE ∨ x = HMM_CONTINUOUS)) ∧
      (setHMMType s x).2.hmmType =
        if x = HMM_DISCRETE ∨ x = HMM_CONTINUOUS then x else s.hmmType) ∧
    (((setModelType s x).1 = false ↔ ¬ (x = HMM_ERGODIC ∨ x = HMM_LEFTRIGHT)) ∧
      (setModelType s x).2.modelType =
        if x = HMM_ERGODIC ∨ x = HMM_LEFTRIGHT then x else s.modelType) := by
  refine ⟨⟨?_, ?_⟩, ⟨?_, ?_⟩, ⟨?_, ?_⟩, ⟨?_, ?_⟩, ⟨?_, ?_⟩, ⟨?_, ?_⟩⟩
  · unfold setDelta; by_cases h : x = 0 <;> simp [h, Nat.pos_iff_ne_zero]
  · unfold setDelta; by_cases h : x = 0 <;> simp [h, Nat.pos_iff_ne_zero, clear, Classifier_clear]
  · unfold setNumStates; by_cases h : x = 0 <;> simp [h, Nat.pos_iff_ne_zero]
  · unfold setNumStates; by_cases h : x = 0 <;> simp [h, Nat.pos_iff_ne_zero, clear, Classifier_clear]
  · unfold setNumSymbols; by_cases h : x = 0 <;> simp [h, Nat.pos_iff_ne_zero]
  · unfold setNumSymbols; by_cases h : x = 0 <;> simp [h, Nat.pos_iff_ne_zero, clear, Classifier_clear]
  · unfold setDownsampleFactor; by_cases h : x = 0 <;> simp [h, Nat.pos_iff_ne_zero]
  · unfold setDownsampleFactor
    by_cases h : x = 0 <;> simp [h, Nat.pos_iff_ne_zero, clear, Classifier_clear]
  · unfold setHMMType
    by_cases h : x = HMM_DISCRETE ∨ x = HMM_CONTINUOUS
    · rw [if_pos h]; simp [h]
    · rw [if_neg h]; simp [h]
  · unfold setHMMType
    by_cases h : x = HMM_DISCRETE ∨ x = HMM_CONTINUOUS
    · rw [if_pos h, if_pos h]
    · rw [if_neg h, if_neg h]; rfl
  · unfold setModelType
    by_cases h : x = HMM_ERGODIC ∨ x = HMM_LEFTRIGHT
    · rw [if_pos h]; simp [h]
    · rw [if_neg h]; simp [h]
  · unfold setModelType
    by_cases h : x = HMM_ERGODIC ∨ x = HMM_LEFTRIGHT
    · rw [if_pos h, if_pos h]
    · rw [if_neg h, if_neg h]; rfl

/-- C8: every call of a structural setter, accepted or rejected, leaves the
classifier with `trained = false` and both sub-model collections empty. -/
theorem setters_clear_trained_state (s : HMM α DM CM) (x : Nat) :
    ((setHMMType s x).2.trained = false ∧ (setHMMType s x).2.discreteModels = [] ∧
      (setHMMType s x).2.continuousModels = []) ∧
    ((setModelType s x).2.trained = false ∧ (setModelType s x).2.discreteModels = [] ∧
      (setModelType s x).2.continuousModels = []) ∧
    ((setDelta s x).2.trained = false ∧ (setDelta s x).2.discreteModels = [] ∧
      (setDelta s x).2.continuousModels = []) ∧
    ((setDownsampleFactor s x).2.trained = false ∧ (setDownsampleFactor s x).2.discreteModels = [] ∧
      (setDownsampleFactor s x).2.continuousModels = []) ∧
    ((setNumStates s x).2.trained = false ∧ (setNumStates s x).2.discreteModels = [] ∧
      (setNumStates s x).2.continuousModels = []) ∧
    ((setNumSymbols s x).2.trained = false ∧ (setNumSymbols s x).2.discreteModels = [] ∧
      (setNumSymbols s x).2.continuousModels = []) := by
  refine ⟨?_, ?_, ?_, ?_, ?_, ?_⟩
  · unfold setHMMType; dsimp only; split_ifs <;> exact ⟨rfl, rfl, rfl⟩
  · unfold setModelType; dsimp only; split_ifs <;> exact ⟨rfl, rfl, rfl⟩
  · unfold setDelta; dsimp only; split_ifs <;> exact ⟨rfl, rfl, rfl⟩
  · unfold setDownsampleFactor; dsimp only; split_ifs <;> exact ⟨rfl, rfl, rfl⟩
  · unfold setNumStates; dsimp only; split_ifs <;> exact ⟨rfl, rfl, rfl⟩
  · unfold setNumSymbols; dsimp only; split_ifs <;> exact ⟨rfl, rfl, rfl⟩

/-! ## The trained flag after training -/

/-- C9: after `train_discrete` or `train_continuous` returns, the trained flag
equals the returned flag: it is true exactly when the call succeeded, and
every failing call leaves it false. -/
theorem trained_iff_training_succeeded (E : Collaborators α DM CM) (s : HMM α DM CM)
    (d : TimeSeriesClassificationData α) :
    ((train_discrete E s d).2.trained = true ↔ (train_discrete E s d).1 = true) ∧
    ((train_continuous E s d).2.trained = true ↔ (train_continuous E s d).1 = true) ∧
    ((train_discrete E s d).1 = false ↔ (train_discrete E s d).2.trained = false) ∧
    ((train_continuous E s d).1 = false ↔ (train_continuous E s d).2.trained = false) := by
  rw [train_discrete_trained_eq, train_continuous_trained_eq]
  exact ⟨Iff.rfl, Iff.rfl, Iff.rfl, Iff.rfl⟩

/-! ## Failure of a sub-model fit -/

theorem resize_length {β : Type} (v : List β) (n : Nat) (x : β) : (resize v n x).length = n := by
  unfold resize
  simp only [List.length_append, List.length_take, List.length_replicate]
  omega

theorem resize_nil_getElem? {β : Type} (n : Nat) (x : β) (i : Nat) (h : i < n) :
    (resize ([] : List β) n x)[i]? = some x := by
  simp [resize, List.getElem?_replicate, h]

/-- The pointwise effect of a loop that overwrites element `k` with a function
of `k` and of the old element. -/
theorem forLoop_set_getElem? {β : Type} (g : Nat → β → β) (d : β) (n : Nat) (l : List β)
    (i : Nat) :
    (forLoop n (fun k l => l.set k (g k (l.getD k d))) l)[i]? =
      if i < n then (l[i]?).map (g i) else l[i]? := by
  induction n with
  | zero => simp [forLoop_zero]
  | succ n ih =>
    rw [forLoop_succ]
    by_cases hin : n = i
    · subst hin
      rw [List.getElem?_set, if_pos rfl, if_pos (Nat.lt_succ_self _)]
      rw [List.getD_eq_getElem?_getD, ih, if_neg (Nat.lt_irrefl _)]
      by_cases hl : n < (forLoop n (fun k l => l.set k (g k (l.getD k d))) l).length
      · rw [if_pos hl]
        have h2 := List.getElem?_eq_getElem hl
        rw [ih, if_neg (Nat.lt_irrefl _)] at h2
        rw [h2]
        rfl
      · rw [if_neg hl]
        have h2 := List.getElem?_eq_none (Nat.le_of_not_lt hl)
        rw [ih, if_neg (Nat.lt_irrefl _)] at h2
        rw [h2]
        rfl
    · rw [List.getElem?_set_ne hin, ih]
      by_cases h1 : i < n
      · rw [if_pos h1, if_pos (Nat.lt_succ_of_lt h1)]
      · have h2 : ¬ i < n + 1 := by omega
        rw [if_neg h1, if_neg h2]

theorem forLoop_set_length {β : Type} (g : Nat → List β → β) (n : Nat) (l : List β) :
    (forLoop n (fun k l => l.set k (g k l)) l).length = l.length := by
  induction n with
  | zero => rfl
  | succ n ih => rw [forLoop_succ, List.length_set, ih]

theorem initDiscreteModels_length (E : Collaborators α DM CM) (s : HMM α DM CM) (l : List DM) :
    (initDiscreteModels E s l).length = l.length := by
  unfold initDiscreteModels
  exact forLoop_set_length _ _ _

theorem initDiscreteModels_getElem? (E : Collaborators α DM CM) (s : HMM α DM CM) (k : Nat)
    (h : k < s.numClasses) :
    (initDiscreteModels E s (resize [] s.numClasses E.dNew))[k]? =
      some (configuredDiscreteModel E s) := by
  unfold initDiscreteModels
  have := forLoop_set_getElem?
    (fun (_ : Nat) (m : DM) =>
      E.dSetMinChange
        (E.dSetMaxNumEpochs (E.dResetModel m s.numStates s.numSymbols s.modelType s.delta)
          s.maxNumEpochs) s.minChange)
    E.dNew s.numClasses (resize [] s.numClasses E.dNew) k
  rw [if_pos h, resize_nil_getElem? _ _ _ h] at this
  exact this

/-- A loop with early exit returns `false` when its body fails at an index of
the loop, given a property that the body keeps at the other indices and that
forces the failure. -/
theorem forLoopE_false_of_mem {σ : Type} (P : σ → Prop) (body : Nat → σ → Bool × σ) (k : Nat)
    (hkeep : ∀ j st, j ≠ k → P st → P (body j st).2)
    (hfail : ∀ st, P st → (body k st).1 = false) :
    ∀ (ks : List Nat) (st : σ), k ∈ ks → P st → (forLoopE ks body st).1 = false := by
  intro ks
  induction ks with
  | nil => intro st hk; simp at hk
  | cons j ks ih =>
    intro st hk hst
    unfold forLoopE
    by_cases hjk : j = k
    · subst hjk
      have hf := hfail st hst
      rcases hb : body j st with ⟨b, st1⟩
      rw [hb] at hf
      dsimp only at hf
      subst hf
      rfl
    · have hk2 : k ∈ ks := by
        rcases List.mem_cons.mp hk with h | h
        · exact absurd h.symm hjk
        · exact h
      have hp := hkeep j st hjk hst
      rcases hb : body j st with ⟨b, st1⟩
      rw [hb] at hp
      cases b
      · rfl
      · exact ih st1 hk2 hp

/-- The same fact for a loop known to have run to its end: impossible. -/
theorem forLoopE_ne_true_of_mem {σ : Type} {body : Nat → σ → Bool × σ} {ks : List Nat}
    {st st1 : σ} (hr : forLoopE ks body st = (true, st1)) (P : σ → Prop) (k : Nat)
    (hk : k ∈ ks) (hst : P st)
    (hkeep : ∀ j st, j ≠ k → P st → P (body j st).2)
    (hfail : ∀ st, P st → (body k st).1 = false) : False := by
  have h3 := forLoopE_false_of_mem P body k hkeep hfail ks st hk hst
  rw [hr] at h3
  exact Bool.noConfusion h3

theorem convertDataToObservationSequence_congr (E : Collaborators α DM CM) {s1 s2 : HMM α DM CM}
    (h : s1.numSymbols = s2.numSymbols) (cd : TimeSeriesClassificationData α)
    (o : List (List Nat)) :
    convertDataToObservationSequence E s1 cd o = convertDataToObservationSequence E s2 cd o := by
  unfold convertDataToObservationSequence
  rw [h]

theorem trainDiscreteModel_numSymbols (E : Collaborators α DM CM)
    (d : TimeSeriesClassificationData α) (k : Nat) (s : HMM α DM CM) :
    (trainDiscreteModel E d k s).2.numSymbols = s.numSymbols := by
  unfold trainDiscreteModel
  dsimp only
  split
  · rfl
  · split <;> rfl

theorem trainDiscreteModel_getElem?_ne (E : Collaborators α DM CM)
    (d : TimeSeriesClassificationData α) {j k : Nat} (hjk : j ≠ k) (s : HMM α DM CM) :
    (trainDiscreteModel E d j s).2.discreteModels[k]? = s.discreteModels[k]? := by
  unfold trainDiscreteModel
  dsimp only
  split
  · rfl
  · split <;> exact List.getElem?_set_ne hjk

/-- The body of the fitting loop returns `false` at a class whose fit fails,
when started on the configured model. -/
theorem trainDiscreteModel_fails (E : Collaborators α DM CM) (s0 : HMM α DM CM)
    (d : TimeSeriesClassificationData α) (k : Nat) (hf : discreteFitFails E s0 d k)
    (s : HMM α DM CM) (hn : s.numSymbols = s0.numSymbols)
    (hm : s.discreteModels[k]? = some (configuredDiscreteModel E s0)) :
    (trainDiscreteModel E d k s).1 = false := by
  obtain ⟨_, hconv, hfit⟩ := hf
  unfold trainDiscreteModel
  dsimp only
  have hc : convertDataToObservationSequence E
      { s with classLabels := s.classLabels.set k (d.classLabelAt k) }
      (d.getClassData (d.classLabelAt k)) []
      = convertDataToObservationSequence E s0 (d.getClassData (d.classLabelAt k)) [] :=
    convertDataToObservationSequence_congr E hn _ _
  rw [hc]
  rcases hr : convertDataToObservationSequence E s0 (d.getClassData (d.classLabelAt k)) []
    with ⟨b, obs⟩
  rw [hr] at hconv hfit
  dsimp only at hconv hfit
  subst hconv
  dsimp only
  have hg : s.discreteModels.getD k E.dNew = configuredDiscreteModel E s0 := by
    rw [List.getD_eq_getElem?_getD, hm]
    rfl
  rw [hg]
  rcases hr2 : E.dTrain (configuredDiscreteModel E s0) obs with ⟨b2, m⟩
  rw [hr2] at hfit
  dsimp only at hfit
  subst hfit
  rfl

/-- When the fit of some class fails, `train_discrete` returns failure with
the trained flag false, no continuous model, and the `numClasses` discrete
models it has built so far still in `discreteModels`. -/
theorem train_discrete_fit_failure (E : Collaborators α DM CM) (s : HMM α DM CM)
    (d : TimeSeriesClassificationData α) (k : Nat) (h1 : d.getNumSamples ≠ 0)
    (h2 : d.getNumDimensions = 1) (hf : discreteFitFails E s d k) :
    (train_discrete E s d).1 = false ∧ (train_discrete E s d).2.trained = false ∧
    (train_discrete E s d).2.continuousModels = [] ∧
    (train_discrete E s d).2.discreteModels.length = d.getNumClasses := by
  have hret : (train_discrete E s d).1 = false ∧
      (train_discrete E s d).2.continuousModels = [] ∧
      (train_discrete E s d).2.discreteModels.length = d.getNumClasses := by
    unfold train_discrete
    dsimp only
    rw [if_neg h1, if_neg (not_not.mpr h2)]
    split
    · next s1 hr =>
      refine ⟨rfl, ?_, ?_⟩
      · exact forLoopE_proj_eq (fun x : HMM α DM CM => x.continuousModels) _
          (trainDiscreteModel_continuousModels E d) hr
      · have h3 := forLoopE_proj_eq (fun x : HMM α DM CM => x.discreteModels.length) _
          (trainDiscreteModel_length E d) hr
        dsimp only at h3
        rw [h3, initDiscreteModels_length, resize_length]
    · next s1 hr =>
      exfalso
      exact forLoopE_ne_true_of_mem hr
        (fun st : HMM α DM CM => st.numSymbols = s.numSymbols ∧
          st.discreteModels[k]? = some (configuredDiscreteModel E s))
        k (List.mem_range.mpr hf.1)
        ⟨rfl, initDiscreteModels_getElem? E _ k hf.1⟩
        (fun j st hjk hst =>
          ⟨(trainDiscreteModel_numSymbols E d j st).trans hst.1,
           (trainDiscreteModel_getElem?_ne E d hjk st).trans hst.2⟩)
        (fun st hst => trainDiscreteModel_fails E s d k hf st hst.1 hst.2)
  refine ⟨hret.1, ?_, hret.2.1, hret.2.2⟩
  rw [train_discrete_trained_eq]
  exact hret.1

theorem scaleData_getNumSamples (E : Collaborators α DM CM) (d : TimeSeriesClassificationData α)
    (a b : α) : (scaleData E d a b).getNumSamples = d.getNumSamples := by
  simp [scaleData, TimeSeriesClassificationData.getNumSamples]

theorem trainContinuousModel_getElem?_ne (E : Collaborators α DM CM)
    (d : TimeSeriesClassificationData α) {j k : Nat} (hjk : j ≠ k) (s : HMM α DM CM) :
    (trainContinuousModel E d j s).2.continuousModels[k]? = s.continuousModels[k]? := by
  unfold trainContinuousModel
  dsimp only
  split <;> exact List.getElem?_set_ne hjk

theorem trainContinuousModel_configured (E : Collaborators α DM CM)
    (d : TimeSeriesClassificationData α) (k : Nat) (s : HMM α DM CM) :
    configuredContinuousModel E (trainContinuousModel E d k s).2 = configuredContinuousModel E s := by
  unfold trainContinuousModel
  dsimp only
  split <;> rfl

theorem trainContinuousModel_fails (E : Collaborators α DM CM) (s0 : HMM α DM CM)
    (d : TimeSeriesClassificationData α) (k : Nat)
    (hf : (E.cTrain (configuredContinuousModel E s0) (d.sampleAt k)).1 = false)
    (s : HMM α DM CM) (hn : configuredContinuousModel E s = configuredContinuousModel E s0)
    (hm : s.continuousModels[k]? = some E.cNew) :
    (trainContinuousModel E d k s).1 = false := by
  unfold trainContinuousModel
  dsimp only
  have hg : s.continuousModels.getD k E.cNew = E.cNew := by
    rw [List.getD_eq_getElem?_getD, hm]
    rfl
  rw [hg]
  have hn2 : E.cEnableScaling
      (E.cSetDelta (E.cSetModelType (E.cSetDownsampleFactor E.cNew s.downsampleFactor) s.modelType)
        s.delta) false = configuredContinuousModel E s0 := hn
  rw [hn2]
  rcases hr2 : E.cTrain (configuredContinuousModel E s0) (d.sampleAt k) with ⟨b2, m⟩
  rw [hr2] at hf
  dsimp only at hf
  subst hf
  rfl

/-- When the fit of some exemplar fails, `train_continuous` returns failure
with the trained flag false, no discrete model, and one (partly unfitted)
exemplar model per training sample still in `continuousModels`. -/
theorem train_continuous_fit_failure (E : Collaborators α DM CM) (s : HMM α DM CM)
    (d : TimeSeriesClassificationData α) (k : Nat) (hf : continuousFitFails E s d k) :
    (train_continuous E s d).1 = false ∧ (train_continuous E s d).2.trained = false ∧
    (train_continuous E s d).2.discreteModels = [] ∧
    (train_continuous E s d).2.continuousModels.length = d.getNumSamples := by
  have h1 : d.getNumSamples ≠ 0 := Nat.not_eq_zero_of_lt hf.1
  have hlen : (if s.useScaling then scaleData E d 0 1 else d).getNumSamples = d.getNumSamples := by
    split_ifs
    · exact scaleData_getNumSamples E d 0 1
    · rfl
  have hret : (train_continuous E s d).1 = false ∧
      (train_continuous E s d).2.discreteModels = [] ∧
      (train_continuous E s d).2.continuousModels.length = d.getNumSamples := by
    unfold train_continuous
    dsimp only
    rw [if_neg h1]
    split
    · next s1 hr =>
      refine ⟨rfl, ?_, ?_⟩
      · exact forLoopE_proj_eq (fun x : HMM α DM CM => x.discreteModels) _
          (trainContinuousModel_discreteModels E _) hr
      · have h3 := forLoopE_proj_eq (fun x : HMM α DM CM => x.continuousModels.length) _
          (trainContinuousModel_length E _) hr
        dsimp only at h3
        rw [h3, resize_length]
        exact hlen
    · next s1 hr =>
      exfalso
      exact forLoopE_ne_true_of_mem hr
        (fun st : HMM α DM CM =>
          configuredContinuousModel E st = configuredContinuousModel E s ∧
          st.continuousModels[k]? = some E.cNew)
        k (List.mem_range.mpr (hlen.symm ▸ hf.1))
        ⟨rfl, resize_nil_getElem? _ _ k (hlen.symm ▸ hf.1)⟩
        (fun j st hjk hst =>
          ⟨(trainContinuousModel_configured E _ j st).trans hst.1,
           (trainContinuousModel_getElem?_ne E _ hjk st).trans hst.2⟩)
        (fun st hst => trainContinuousModel_fails E s _ k hf.2 st hst.1 hst.2)
  refine ⟨hret.1, ?_, hret.2.1, hret.2.2⟩
  rw [train_continuous_trained_eq]
  exact hret.1

/-- C10, as stated, fails: with collaborators whose every fit fails, training
a fresh classifier on `exampleData` meets a fit failure at class 0 (exemplar
0), and afterwards the sub-model collection under construction is not empty. -/
theorem fit_failure_leaves_models_counterexample :
    (discreteFitFails (tableCollaborators id false)
        (new HMM_DISCRETE HMM_ERGODIC 1 false false : HMM ℚ (List ℚ) (Nat × ℚ)) exampleData 0 ∧
      ¬ ((train_discrete (tableCollaborators id false)
            (new HMM_DISCRETE HMM_ERGODIC 1 false false : HMM ℚ (List ℚ) (Nat × ℚ))
            exampleData).1 = false ∧
         (train_discrete (tableCollaborators id false)
            (new HMM_DISCRETE HMM_ERGODIC 1 false false : HMM ℚ (List ℚ) (Nat × ℚ))
            exampleData).2.discreteModels = [] ∧
         (train_discrete (tableCollaborators id false)
            (new HMM_DISCRETE HMM_ERGODIC 1 false false : HMM ℚ (List ℚ) (Nat × ℚ))
            exampleData).2.continuousModels = [])) ∧
    (continuousFitFails (tableCollaborators id false)
        (new HMM_CONTINUOUS HMM_ERGODIC 1 false false : HMM ℚ (List ℚ) (Nat × ℚ)) exampleData 0 ∧
      ¬ ((train_continuous (tableCollaborators id false)
            (new HMM_CONTINUOUS HMM_ERGODIC 1 false false : HMM ℚ (List ℚ) (Nat × ℚ))
            exampleData).1 = false ∧
         (train_continuous (tableCollaborators id false)
            (new HMM_CONTINUOUS HMM_ERGODIC 1 false false : HMM ℚ (List ℚ) (Nat × ℚ))
            exampleData).2.discreteModels = [] ∧
         (train_continuous (tableCollaborators id false)
            (new HMM_CONTINUOUS HMM_ERGODIC 1 false false : HMM ℚ (List ℚ) (Nat × ℚ))
            exampleData).2.continuousModels = [])) := by
  unfold discreteFitFails continuousFitFails
  decide!

/-- C10, amended: if a sub-model fit fails during training (the model of some
class in `train_discrete` on a non-empty one-dimensional dataset, the model of
some exemplar in `train_continuous`), the call returns failure with the
trained flag false and the collection of the other mode empty, while the
collection under construction keeps its entries: `discreteModels` has one
entry per class, `continuousModels` one entry per training sample. -/
theorem fit_failure_aborts_training (E : Collaborators α DM CM) (s : HMM α DM CM)
    (d : TimeSeriesClassificationData α) (k : Nat) :
    (d.getNumSamples ≠ 0 → d.getNumDimensions = 1 → discreteFitFails E s d k →
      (train_discrete E s d).1 = false ∧ (train_discrete E s d).2.trained = false ∧
      (train_discrete E s d).2.continuousModels = [] ∧
      (train_discrete E s d).2.discreteModels.length = d.getNumClasses) ∧
    (continuousFitFails E s d k →
      (train_continuous E s d).1 = false ∧ (train_continuous E s d).2.trained = false ∧
      (train_continuous E s d).2.discreteModels = [] ∧
      (train_continuous E s d).2.continuousModels.length = d.getNumSamples) :=
  ⟨train_discrete_fit_failure E s d k, train_continuous_fit_failure E s d k⟩

/-- Witness for C10 (amended): collaborators whose every fit fails, a fresh
classifier and `exampleData`; the fit of class 0 and of exemplar 0 fails. -/
theorem fit_failure_aborts_training_witness :
    ((train_discrete (tableCollaborators id false)
        (new HMM_DISCRETE HMM_ERGODIC 1 false false : HMM ℚ (List ℚ) (Nat × ℚ))
        exampleData).1 = false ∧
      (train_discrete (tableCollaborators id false)
        (new HMM_DISCRETE HMM_ERGODIC 1 false false : HMM ℚ (List ℚ) (Nat × ℚ))
        exampleData).2.trained = false ∧
      (train_discrete (tableCollaborators id false)
        (new HMM_DISCRETE HMM_ERGODIC 1 false false : HMM ℚ (List ℚ) (Nat × ℚ))
        exampleData).2.continuousModels = [] ∧
      (train_discrete (tableCollaborators id false)
        (new HMM_DISCRETE HMM_ERGODIC 1 false false : HMM ℚ (List ℚ) (Nat × ℚ))
        exampleData).2.discreteModels.length
        = (exampleData : TimeSeriesClassificationData ℚ).getNumClasses) ∧
    ((train_continuous (tableCollaborators id false)
        (new HMM_DISCRETE HMM_ERGODIC 1 false false : HMM ℚ (List ℚ) (Nat × ℚ))
        exampleData).1 = false ∧
      (train_continuous (tableCollaborators id false)
        (new HMM_DISCRETE HMM_ERGODIC 1 false false : HMM ℚ (List ℚ) (Nat × ℚ))
        exampleData).2.trained = false ∧
      (train_continuous (tableCollaborators id false)
        (new HMM_DISCRETE HMM_ERGODIC 1 false false : HMM ℚ (List ℚ) (Nat × ℚ))
        exampleData).2.discreteModels = [] ∧
      (train_continuous (tableCollaborators id false)
        (new HMM_DISCRETE HMM_ERGODIC 1 false false : HMM ℚ (List ℚ) (Nat × ℚ))
        exampleData).2.continuousModels.length
        = (exampleData : TimeSeriesClassificationData ℚ).getNumSamples) :=
  ⟨(fit_failure_aborts_training (tableCollaborators id false)
      (new HMM_DISCRETE HMM_ERGODIC 1 false false) exampleData 0).1
      (by decide!) (by decide!) (by unfold discreteFitFails; decide!),
   (fit_failure_aborts_training (tableCollaborators id false)
      (new HMM_DISCRETE HMM_ERGODIC 1 false false) exampleData 0).2
      (by unfold continuousFitFails; decide!)⟩

/-! ## Acceptance conditions of the discrete prediction -/

/-- A loop keeps every property its body keeps. -/
theorem forLoop_inv {σ : Type} (P : σ → Prop) (body : Nat → σ → σ)
    (h : ∀ k st, P st → P (body k st)) (n : Nat) (init : σ) (h0 : P init) :
    P (forLoop n body init) := by
  induction n with
  | zero => exact h0
  | succ n ih => rw [forLoop_succ]; exact h n _ ih

/-- The flag of a loop with early exit, when the flag of the body at index `k`
is decided by a condition `c k` on states that satisfy an invariant. -/
theorem forLoopE_true_iff {σ : Type} (P : σ → Prop) (c : Nat → Prop)
    (body : Nat → σ → Bool × σ) :
    ∀ (ks : List Nat) (st : σ),
      (∀ k st, k ∈ ks → P st → ((body k st).1 = true ↔ c k) ∧ P (body k st).2) →
      P st → ((forLoopE ks body st).1 = true ↔ ∀ k ∈ ks, c k) := by
  intro ks
  induction ks with
  | nil => intro st _ _; simp [forLoopE]
  | cons j ks ih =>
    intro st hb hst
    have hj := hb j st (List.mem_cons_self j ks) hst
    unfold forLoopE
    rcases hr : body j st with ⟨b, st1⟩
    rw [hr] at hj
    cases b
    · have hcj : ¬ c j := fun hc => Bool.noConfusion (hj.1.mpr hc)
      constructor
      · intro h; exact Bool.noConfusion h
      · intro h; exact absurd (h j (List.mem_cons_self j ks)) hcj
    · have hcj : c j := hj.1.mp rfl
      have ih2 := ih st1 (fun k st hk => hb k st (List.mem_cons_of_mem j hk)) hj.2
      dsimp only
      rw [ih2]
      constructor
      · intro h k hk
        rcases List.mem_cons.mp hk with h1 | h1
        · rw [h1]; exact hcj
        · exact h k h1
      · intro h k hk
        exact h k (List.mem_cons_of_mem j hk)

theorem discreteDecision_fst (E : Collaborators α DM CM) (score : DM → α) (s : HMM α DM CM) :
    (discreteDecision E score s).1 = true := rfl

theorem continuousDecision_fst (E : Collaborators α DM CM) (score : CM → α) (s : HMM α DM CM) :
    (continuousDecision E score s).1 = true := rfl

theorem resizeBuffers_numSymbols (s : HMM α DM CM) :
    (resizeBuffers s).numSymbols = s.numSymbols := by
  unfold resizeBuffers
  dsimp only
  split_ifs <;> rfl

/-- The vector overload succeeds exactly under its three checks. -/
theorem predict_discrete_fst (E : Collaborators α DM CM) (s : HMM α DM CM) (v : List α) :
    (predict_discrete E s v).1 = true ↔
      s.trained = true ∧ v.length = s.numInputDimensions ∧
      E.toUINT (v.getD 0 0) < s.numSymbols := by
  unfold predict_discrete
  dsimp only
  split_ifs with h1 h2 h3
  · have h4 : s.trained = false := by simpa using h1
    exact ⟨fun h => h.elim, fun h => Bool.noConfusion (h4.symm.trans h.1)⟩
  · exact ⟨fun h => h.elim, fun h => absurd h.2.1 h2⟩
  · rw [resizeBuffers_numSymbols] at h3
    exact ⟨fun h => h.elim, fun h => absurd h.2.2 (Nat.not_lt.mpr h3)⟩
  · rw [resizeBuffers_numSymbols] at h3
    have h4 : s.trained = true := by simpa using h1
    have h5 : v.length = s.numInputDimensions := not_not.mp h2
    rw [discreteDecision_fst]
    exact ⟨fun _ => ⟨h4, h5, Nat.not_le.mp h3⟩, fun _ => rfl⟩

/-- The conversion loop of the time-series overload succeeds exactly when every
row's symbol is below `numSymbols`. -/
theorem toObservationSequence_fst (E : Collaborators α DM CM) (s : HMM α DM CM)
    (ts : MatrixDouble α) :
    (toObservationSequence E s ts).1 = true ↔
      ∀ i, i < ts.getNumRows → E.toUINT (ts.elem i 0) < s.numSymbols := by
  unfold toObservationSequence
  have h := forLoopE_true_iff (fun obs : List Nat => obs.length = ts.getNumRows)
    (fun i => E.toUINT (ts.elem i 0) < s.numSymbols)
    (fun i obs =>
      let obs := obs.set i (E.toUINT (ts.elem i 0))
      if obs.getD i 0 ≥ s.numSymbols then (false, obs) else (true, obs))
    (List.range ts.getNumRows) (List.replicate ts.getNumRows 0)
    (by
      intro k st hk hst
      have hk2 : k < st.length := by rw [hst]; exact List.mem_range.mp hk
      have hg : (st.set k (E.toUINT (ts.elem k 0))).getD k 0 = E.toUINT (ts.elem k 0) := by
        rw [List.getD_eq_getElem?_getD, List.getElem?_set_self hk2]
        rfl
      dsimp only
      rw [hg]
      by_cases hc : E.toUINT (ts.elem k 0) ≥ s.numSymbols
      · rw [if_pos hc]
        exact ⟨⟨fun h => Bool.noConfusion h, fun h => absurd hc (Nat.not_le.mpr h)⟩,
          by simpa using hst⟩
      · rw [if_neg hc]
        exact ⟨⟨fun _ => Nat.not_le.mp hc, fun _ => rfl⟩, by simpa using hst⟩)
    (by simp)
  rw [h]
  constructor
  · intro h2 i hi; exact h2 i (List.mem_range.mpr hi)
  · intro h2 i hi; exact h2 i (List.mem_range.mp hi)

/-- The time-series overload succeeds exactly under its three checks. -/
theorem predict_discrete_timeseries_fst (E : Collaborators α DM CM) (s : HMM α DM CM)
    (ts : MatrixDouble α) :
    (predict_discrete_timeseries E s ts).1 = true ↔
      s.trained = true ∧ ts.getNumCols = 1 ∧
      ∀ i, i < ts.getNumRows → E.toUINT (ts.elem i 0) < s.numSymbols := by
  rw [← toObservationSequence_fst]
  unfold predict_discrete_timeseries
  by_cases ht : s.trained = true
  · by_cases hl : ts.getNumCols = 1
    · rcases hr : toObservationSequence E s ts with ⟨b, obs⟩
      cases b
      · simp [ht, hl]
      · simp [ht, hl, discreteDecision_fst]
    · simp [ht, hl]
  · simp [ht]

/-- C2: `predict_discrete` on a vector succeeds if and only if the classifier
is trained, the vector has `numInputDimensions` elements and the symbol (the
first element converted to `UINT`) is below `numSymbols`; so on a trained
model with an input of the right size the symbol `numSymbols` is rejected and
the symbol `numSymbols - 1` is accepted.  The time-series overload fails
exactly when the classifier is untrained, the column count is not 1, or some
row's symbol is `>= numSymbols`.  (For an empty vector or row the "first
element" is the value the embedding gives to the out-of-range read.) -/
theorem predict_discrete_accepts_iff (E : Collaborators α DM CM) (s : HMM α DM CM) (v : List α)
    (ts : MatrixDouble α) :
    ((predict_discrete E s v).1 = true ↔
      s.trained = true ∧ v.length = s.numInputDimensions ∧
      E.toUINT (v.getD 0 0) < s.numSymbols) ∧
    (s.trained = true → v.length = s.numInputDimensions →
      E.toUINT (v.getD 0 0) = s.numSymbols → (predict_discrete E s v).1 = false) ∧
    (s.trained = true → v.length = s.numInputDimensions → 0 < s.numSymbols →
      E.toUINT (v.getD 0 0) = s.numSymbols - 1 → (predict_discrete E s v).1 = true) ∧
    ((predict_discrete_timeseries E s ts).1 = false ↔
      s.trained = false ∨ ts.getNumCols ≠ 1 ∨
      ∃ i, i < ts.getNumRows ∧ s.numSymbols ≤ E.toUINT (ts.elem i 0)) := by
  refine ⟨predict_discrete_fst E s v, ?_, ?_, ?_⟩
  · intro _ _ h3
    rcases hb : (predict_discrete E s v).1 with _ | _
    · rfl
    · have := ((predict_discrete_fst E s v).mp hb).2.2
      omega
  · intro h1 h2 h3 h4
    exact (predict_discrete_fst E s v).mpr ⟨h1, h2, by omega⟩
  · have h := predict_discrete_timeseries_fst E s ts
    constructor
    · intro hf
      by_contra hc
      push_neg at hc
      have ht : s.trained = true := by
        rcases hb : s.trained with _ | _
        · exact absurd hb hc.1
        · rfl
      have := h.mpr ⟨ht, hc.2.1, fun i hi => hc.2.2 i hi⟩
      rw [hf] at this
      exact Bool.noConfusion this
    · intro hf
      rcases hb : (predict_discrete_timeseries E s ts).1 with _ | _
      · rfl
      · exfalso
        obtain ⟨ht, hcol, hall⟩ := h.mp hb
        rcases hf with hf | hf | ⟨i, hi, hs⟩
        · rw [ht] at hf; exact Bool.noConfusion hf
        · exact hf hcol
        · exact absurd (hall i hi) (Nat.not_lt.mpr hs)

/-- Witness for C2: the classifier trained on `exampleData` has
`numSymbols = 20`; the symbol 20 is rejected and the symbol 19 is accepted. -/
theorem predict_discrete_accepts_iff_witness :
    exampleDiscrete.trained = true ∧ exampleDiscrete.numSymbols = 20 ∧
    (predict_discrete (tableCollaborators id true) exampleDiscrete [20]).1 = false ∧
    (predict_discrete (tableCollaborators id true) exampleDiscrete [19]).1 = true :=
  ⟨by decide!, by decide!,
   (predict_discrete_accepts_iff (tableCollaborators id true) exampleDiscrete [20]
      ⟨1, [[20]]⟩).2.1 (by decide!) (by decide!) (by decide!),
   (predict_discrete_accepts_iff (tableCollaborators id true) exampleDiscrete [19]
      ⟨1, [[19]]⟩).2.2.1 (by decide!) (by decide!) (by decide!) (by decide!)⟩

/-! ## Normalisation of the likelihoods -/

theorem sum_map_div (l : List α) (c : α) : (l.map (fun x => x / c)).sum = l.sum / c := by
  induction l with
  | nil => simp
  | cons a l ih => simp [ih, add_div]

theorem sum_map_div_self (l : List α) (h : l.sum ≠ 0) :
    (l.map (fun x => x / l.sum)).sum = 1 := by
  rw [sum_map_div, div_self h]

/-- One step of a loop that overwrites the elements in index order. -/
theorem set_step_getElem? {β γ : Type} (g : Nat → γ) (w : γ → β) (k : Nat) (l0 l : List β)
    (h : ∀ i, l[i]? = if i < k then (l0[i]?).map (fun _ => w (g i)) else l0[i]?) (i : Nat) :
    (l.set k (w (g k)))[i]? =
      if i < k + 1 then (l0[i]?).map (fun _ => w (g i)) else l0[i]? := by
  by_cases hik : k = i
  · subst hik
    rw [List.getElem?_set, if_pos rfl, if_pos (Nat.lt_succ_self _)]
    have hk := h k
    rw [if_neg (Nat.lt_irrefl _)] at hk
    by_cases hl : k < l.length
    · rw [if_pos hl]
      have h2 := List.getElem?_eq_getElem hl
      rw [hk] at h2
      rw [h2]
      rfl
    · rw [if_neg hl]
      have h2 := List.getElem?_eq_none (Nat.le_of_not_lt hl)
      rw [hk] at h2
      rw [h2]
      rfl
  · rw [List.getElem?_set_ne hik, h]
    by_cases h1 : i < k
    · rw [if_pos h1, if_pos (Nat.lt_succ_of_lt h1)]
    · have h2 : ¬ i < k + 1 := by omega
      rw [if_neg h1, if_neg h2]

/-- A list of length `n` all of whose elements were overwritten in index
order is the tabulated list. -/
theorem eq_map_range_of_getElem? {β γ : Type} (g : Nat → γ) (w : γ → β) (n : Nat) (l0 l : List β)
    (hl : l0.length = n)
    (h : ∀ i, l[i]? = if i < n then (l0[i]?).map (fun _ => w (g i)) else l0[i]?) :
    l = (List.range n).map (fun i => w (g i)) := by
  apply List.ext_getElem?
  intro i
  rw [h i, List.getElem?_map]
  by_cases hi : i < n
  · rw [if_pos hi, List.getElem?_range hi, List.getElem?_eq_getElem (hl.symm ▸ hi)]
    rfl
  · rw [if_neg hi, List.getElem?_eq_none (by omega),
      List.getElem?_eq_none (by rw [List.length_range]; omega)]
    rfl

theorem map_range_getD {β γ : Type} (w : β → γ) (d : β) (l : List β) :
    (List.range l.length).map (fun i => w (l.getD i d)) = l.map w := by
  apply List.ext_getElem?
  intro i
  rw [List.getElem?_map, List.getElem?_map]
  by_cases hi : i < l.length
  · rw [List.getElem?_range hi, List.getElem?_eq_getElem hi]
    simp [List.getD_eq_getElem?_getD, List.getElem?_eq_getElem hi]
  · rw [List.getElem?_eq_none (by rw [List.length_range]; omega),
      List.getElem?_eq_none (by omega)]
    rfl

theorem normaliseLikelihoods_eq_map (n : Nat) (cl : List α) (sum : α) (h : cl.length = n) :
    normaliseLikelihoods n cl sum = cl.map (fun x => x / sum) := by
  unfold normaliseLikelihoods
  subst h
  rw [← map_range_getD (fun x => x / sum) 0 cl]
  apply List.ext_getElem?
  intro i
  rw [forLoop_set_getElem? (fun _ x => x / sum) 0 cl.length cl i, List.getElem?_map]
  by_cases hi : i < cl.length
  · rw [if_pos hi, List.getElem?_range hi, List.getElem?_eq_getElem hi]
    simp [List.getD_eq_getElem?_getD, List.getElem?_eq_getElem hi]
  · rw [if_neg hi, List.getElem?_eq_none (by omega),
      List.getElem?_eq_none (by rw [List.length_range]; omega)]
    rfl

theorem distancesToLikelihoods_eq_map (n : Nat) (cd cl : List α) (sum : α) (h1 : cd.length = n)
    (h2 : cl.length = n) :
    distancesToLikelihoods n cd sum cl = cd.map (fun x => x / sum) := by
  unfold distancesToLikelihoods
  subst h1
  rw [← map_range_getD (fun x => x / sum) 0 cd]
  apply List.ext_getElem?
  intro i
  rw [forLoop_set_getElem? (fun k _ => cd.getD k 0 / sum) 0 cd.length cl i, List.getElem?_map]
  by_cases hi : i < cd.length
  · rw [if_pos hi, List.getElem?_range hi, List.getElem?_eq_getElem (h2.symm ▸ hi)]
    rfl
  · rw [if_neg hi, List.getElem?_eq_none (by omega),
      List.getElem?_eq_none (by rw [List.length_range]; omega)]
    rfl

theorem resizeBuffers_numClasses (s : HMM α DM CM) :
    (resizeBuffers s).numClasses = s.numClasses := by
  unfold resizeBuffers
  dsimp only
  split_ifs <;> rfl

theorem resizeBuffers_classLikelihoods_length (s : HMM α DM CM) :
    (resizeBuffers s).classLikelihoods.length = s.numClasses := by
  unfold resizeBuffers
  dsimp only
  split_ifs with h1 h2 h2
  · exact resize_length _ _ _
  · exact resize_length _ _ _
  · exact not_not.mp h1
  · exact not_not.mp h1

theorem resizeBuffers_classDistances_length (s : HMM α DM CM) :
    (resizeBuffers s).classDistances.length = s.numClasses := by
  unfold resizeBuffers
  dsimp only
  split_ifs with h1 h2 h2
  · exact resize_length _ _ _
  · exact not_not.mp h2
  · exact resize_length _ _ _
  · exact not_not.mp h2

theorem committeeVote_length (s : HMM α DM CM) (results : List (IndexedDouble α)) (minValue : α)
    (cd : List α) : (committeeVote s results minValue cd).length = cd.length := by
  unfold committeeVote
  exact forLoop_inv (fun l : List α => l.length = cd.length) _
    (fun k l hl => by simpa using hl) _ _ rfl

/-- After the continuous decision the likelihoods are the accumulated
distances divided by their sum, one per class. -/
theorem continuousDecision_likelihoods (E : Collaborators α DM CM) (score : CM → α)
    (s : HMM α DM CM) :
    (continuousDecision E score s).2.classLikelihoods =
      (continuousDecision E score s).2.classDistances.map
        (fun x => x / Util_sum (continuousDecision E score s).2.classDistances) ∧
    (continuousDecision E score s).2.classDistances.length = s.numClasses := by
  unfold continuousDecision
  dsimp only
  have hcd : (committeeVote
      { resizeBuffers s with
        classDistances := (resizeBuffers s).classDistances.map (fun _ => 0)
        bestDistance := -1000 }
      (sortResults (continuousScoreLoop E score
        { resizeBuffers s with
          classDistances := (resizeBuffers s).classDistances.map (fun _ => 0)
          bestDistance := -1000 }).1)
      (continuousScoreLoop E score
        { resizeBuffers s with
          classDistances := (resizeBuffers s).classDistances.map (fun _ => 0)
          bestDistance := -1000 }).2
      ((resizeBuffers s).classDistances.map (fun _ => 0))).length = s.numClasses := by
    rw [committeeVote_length, List.length_map, resizeBuffers_classDistances_length]
  refine ⟨?_, hcd⟩
  apply distancesToLikelihoods_eq_map
  · rw [resizeBuffers_numClasses]; exact hcd
  · rw [resizeBuffers_numClasses]; exact resizeBuffers_classLikelihoods_length s

/-- A successful `predict_continuous` has run the decision part. -/
theorem predict_continuous_eq (E : Collaborators α DM CM) (s : HMM α DM CM) (v : List α)
    (h : (predict_continuous E s v).1 = true) :
    ∃ score : CM → α, predict_continuous E s v = continuousDecision E score s := by
  unfold predict_continuous at h ⊢
  dsimp only at h ⊢
  by_cases h1 : (!s.trained) = true
  · rw [if_pos h1] at h
    exact Bool.noConfusion h
  · by_cases h2 : v.length ≠ s.numInputDimensions
    · rw [if_neg h1, if_pos h2] at h
      exact Bool.noConfusion h
    · rw [if_neg h1, if_neg h2]
      exact ⟨_, rfl⟩

/-- A successful `predict_continuous` on a time series has run the decision
part. -/
theorem predict_continuous_timeseries_eq (E : Collaborators α DM CM) (s : HMM α DM CM)
    (ts : MatrixDouble α) (h : (predict_continuous_timeseries E s ts).1 = true) :
    ∃ score : CM → α, predict_continuous_timeseries E s ts = continuousDecision E score s := by
  unfold predict_continuous_timeseries at h ⊢
  dsimp only at h ⊢
  by_cases h1 : (!s.trained) = true
  · rw [if_pos h1] at h
    exact Bool.noConfusion h
  · by_cases h2 : ts.getNumCols ≠ s.numInputDimensions
    · rw [if_neg h1, if_pos h2] at h
      exact Bool.noConfusion h
    · rw [if_neg h1, if_neg h2]
      exact ⟨_, rfl⟩

theorem getD_map_div (cd : List α) (c : α) (k : Nat) (h : k < cd.length) :
    (cd.map (fun x => x / c)).getD k 0 = cd.getD k 0 / c := by
  simp [List.getD_eq_getElem?_getD, List.getElem?_eq_getElem h]

theorem continuousDecision_normalised (E : Collaborators α DM CM) (score : CM → α)
    (s : HMM α DM CM)
    (h : Util_sum (continuousDecision E score s).2.classDistances ≠ 0) :
    (∀ k, k < s.numClasses →
      (continuousDecision E score s).2.classLikelihoods.getD k 0 =
        (continuousDecision E score s).2.classDistances.getD k 0 /
          Util_sum (continuousDecision E score s).2.classDistances) ∧
    (continuousDecision E score s).2.classLikelihoods.sum = 1 := by
  obtain ⟨h1, h2⟩ := continuousDecision_likelihoods E score s
  constructor
  · intro k hk
    rw [h1]
    exact getD_map_div _ _ k (h2.symm ▸ hk)
  · rw [h1]
    exact sum_map_div_self _ h

/-- C5: after a successful `predict_continuous` (vector or time-series
input) whose committee lies within the exemplar list and has no member that
scores 0 (so that every vote `1 / (score / minValue)` of line 391 is a finite
number), whenever the sum of the per-class accumulated votes `classDistances`
is non-zero, every `classLikelihoods[k]` is `classDistances[k]` divided by that
sum, and the `classLikelihoods` sum to 1. -/
theorem continuous_likelihoods_normalised (E : Collaborators α DM CM) (s : HMM α DM CM)
    (v : List α) (ts : MatrixDouble α) :
    ((predict_continuous E s v).1 = true →
      s.committeeSize ≤ s.continuousModels.length →
      (∀ m, m ∈ committee E (vectorScore E s v) s → m.value ≠ 0) →
      Util_sum (predict_continuous E s v).2.classDistances ≠ 0 →
      (∀ k, k < s.numClasses →
        (predict_continuous E s v).2.classLikelihoods.getD k 0 =
          (predict_continuous E s v).2.classDistances.getD k 0 /
            Util_sum (predict_continuous E s v).2.classDistances) ∧
      (predict_continuous E s v).2.classLikelihoods.sum = 1) ∧
    ((predict_continuous_timeseries E s ts).1 = true →
      s.committeeSize ≤ s.continuousModels.length →
      (∀ m, m ∈ committee E (timeseriesScore E s ts) s → m.value ≠ 0) →
      Util_sum (predict_continuous_timeseries E s ts).2.classDistances ≠ 0 →
      (∀ k, k < s.numClasses →
        (predict_continuous_timeseries E s ts).2.classLikelihoods.getD k 0 =
          (predict_continuous_timeseries E s ts).2.classDistances.getD k 0 /
            Util_sum (predict_continuous_timeseries E s ts).2.classDistances) ∧
      (predict_continuous_timeseries E s ts).2.classLikelihoods.sum = 1) := by
  constructor
  · intro h _ _
    obtain ⟨score, hs⟩ := predict_continuous_eq E s v h
    rw [hs]
    exact continuousDecision_normalised E score s
  · intro h _ _
    obtain ⟨score, hs⟩ := predict_continuous_timeseries_eq E s ts h
    rw [hs]
    exact continuousDecision_normalised E score s

/-- Witness for C5: the classifier `exampleContinuous` (three exemplars, a
committee of 2) on the vector `[1]` and on a one-row time series; the
committee members score -2 and -3, the votes accumulate to `[2500/3, 0]` and
the likelihoods are `[1, 0]`. -/
theorem continuous_likelihoods_normalised_witness :
    (committee (tableCollaborators id true)
      (vectorScore (tableCollaborators id true) exampleContinuous [1]) exampleContinuous).map
      (fun m => m.value) = [-2, -3] ∧
    (predict_continuous (tableCollaborators id true) exampleContinuous [1]).2.classDistances
      = [2500 / 3, 0] ∧
    (predict_continuous (tableCollaborators id true) exampleContinuous [1]).2.classLikelihoods.sum
      = 1 ∧
    (predict_continuous_timeseries (tableCollaborators id true) exampleContinuous
      ⟨1, [[1]]⟩).2.classLikelihoods.sum = 1 :=
  ⟨by decide!, by decide!,
   ((continuous_likelihoods_normalised (tableCollaborators id true) exampleContinuous [1]
      ⟨1, [[1]]⟩).1 (by decide!) (by decide!) (by decide!) (by unfold Util_sum; decide!)).2,
   ((continuous_likelihoods_normalised (tableCollaborators id true) exampleContinuous [1]
      ⟨1, [[1]]⟩).2 (by decide!) (by decide!) (by decide!) (by unfold Util_sum; decide!)).2⟩

/-! ## The discrete scoring loop -/

theorem discreteScoreBody_classDistances (E : Collaborators α DM CM) (score : DM → α)
    (s : HMM α DM CM) (k : Nat) (st : ScoreState α) :
    (discreteScoreBody E score s k st).classDistances =
      st.classDistances.set k (score (s.discreteModels.getD k E.dNew)) := by
  unfold discreteScoreBody
  dsimp only
  split_ifs <;> rfl

theorem discreteScoreBody_classLikelihoods (E : Collaborators α DM CM) (score : DM → α)
    (s : HMM α DM CM) (k : Nat) (st : ScoreState α) :
    (discreteScoreBody E score s k st).classLikelihoods =
      st.classLikelihoods.set k (E.antilog (score (s.discreteModels.getD k E.dNew))) := by
  unfold discreteScoreBody
  dsimp only
  split_ifs <;> rfl

theorem discreteScoreBody_sum (E : Collaborators α DM CM) (score : DM → α)
    (s : HMM α DM CM) (k : Nat) (st : ScoreState α) :
    (discreteScoreBody E score s k st).sum =
      st.sum + E.antilog (score (s.discreteModels.getD k E.dNew)) := by
  unfold discreteScoreBody
  dsimp only
  split_ifs <;> rfl

/-- The state of the scoring loop after `k` iterations: the first `k`
distances and raw likelihoods are written and `sum` has accumulated the raw
likelihoods. -/
theorem discreteScoreLoop_partial (E : Collaborators α DM CM) (score : DM → α)
    (s : HMM α DM CM) (init : ScoreState α) (k : Nat) :
    (∀ i, (forLoop k (discreteScoreBody E score s) init).classDistances[i]? =
      if i < k then (init.classDistances[i]?).map
        (fun _ => score (s.discreteModels.getD i E.dNew))
      else init.classDistances[i]?) ∧
    (∀ i, (forLoop k (discreteScoreBody E score s) init).classLikelihoods[i]? =
      if i < k then (init.classLikelihoods[i]?).map
        (fun _ => E.antilog (score (s.discreteModels.getD i E.dNew)))
      else init.classLikelihoods[i]?) ∧
    (forLoop k (discreteScoreBody E score s) init).sum =
      init.sum + ((List.range k).map
        (fun i => E.antilog (score (s.discreteModels.getD i E.dNew)))).sum := by
  induction k with
  | zero => simp [forLoop_zero]
  | succ k ih =>
    obtain ⟨h1, h2, h3⟩ := ih
    rw [forLoop_succ]
    refine ⟨?_, ?_, ?_⟩
    · intro i
      rw [discreteScoreBody_classDistances]
      exact set_step_getElem? (fun i => score (s.discreteModels.getD i E.dNew)) id k _ _ h1 i
    · intro i
      rw [discreteScoreBody_classLikelihoods]
      exact set_step_getElem? (fun i => score (s.discreteModels.getD i E.dNew)) E.antilog k
        _ _ h2 i
    · rw [discreteScoreBody_sum, h3, List.range_succ, List.map_append, List.sum_append]
      simp [add_assoc]

/-- The result of the scoring loop on buffers of `numClasses` elements. -/
theorem discreteScoreLoop_spec (E : Collaborators α DM CM) (score : DM → α) (s : HMM α DM CM)
    (hd : s.classDistances.length = s.numClasses)
    (hl : s.classLikelihoods.length = s.numClasses) :
    (discreteScoreLoop E score s).classDistances =
      (List.range s.numClasses).map (fun i => score (s.discreteModels.getD i E.dNew)) ∧
    (discreteScoreLoop E score s).classLikelihoods =
      (List.range s.numClasses).map
        (fun i => E.antilog (score (s.discreteModels.getD i E.dNew))) ∧
    (discreteScoreLoop E score s).sum =
      ((List.range s.numClasses).map
        (fun i => E.antilog (score (s.discreteModels.getD i E.dNew)))).sum := by
  unfold discreteScoreLoop
  obtain ⟨h1, h2, h3⟩ := discreteScoreLoop_partial E score s
    { classDistances := s.classDistances
      classLikelihoods := s.classLikelihoods
      bestDistance := s.bestDistance
      bestIndex := 0
      sum := 0 } s.numClasses
  refine ⟨?_, ?_, ?_⟩
  · exact eq_map_range_of_getElem? (fun i => score (s.discreteModels.getD i E.dNew)) id
      s.numClasses s.classDistances _ hd h1
  · exact eq_map_range_of_getElem? (fun i => score (s.discreteModels.getD i E.dNew)) E.antilog
      s.numClasses s.classLikelihoods _ hl h2
  · rw [h3]
    simp

theorem discreteDecision_classDistances (E : Collaborators α DM CM) (score : DM → α)
    (s : HMM α DM CM) :
    (discreteDecision E score s).2.classDistances = (discreteScoreLoop E score s).classDistances := by
  unfold discreteDecision
  dsimp only
  split_ifs <;> rfl

theorem discreteDecision_classLikelihoods (E : Collaborators α DM CM) (score : DM → α)
    (s : HMM α DM CM) :
    (discreteDecision E score s).2.classLikelihoods =
      normaliseLikelihoods s.numClasses (discreteScoreLoop E score s).classLikelihoods
        (discreteScoreLoop E score s).sum := by
  unfold discreteDecision
  dsimp only
  split_ifs <;> rfl

/-- After the discrete decision on buffers of `numClasses` elements, each
likelihood is the antilog of the class's distance divided by the sum of the
antilogs of all distances. -/
theorem discreteDecision_likelihoods (E : Collaborators α DM CM) (score : DM → α)
    (s : HMM α DM CM) (hd : s.classDistances.length = s.numClasses)
    (hl : s.classLikelihoods.length = s.numClasses) :
    (discreteDecision E score s).2.classLikelihoods =
      (discreteDecision E score s).2.classDistances.map
        (fun d => E.antilog d /
          ((discreteDecision E score s).2.classDistances.map E.antilog).sum) ∧
    (discreteDecision E score s).2.classDistances.length = s.numClasses := by
  obtain ⟨h1, h2, h3⟩ := discreteScoreLoop_spec E score s hd hl
  rw [discreteDecision_classDistances, discreteDecision_classLikelihoods, h1, h3]
  constructor
  · rw [normaliseLikelihoods_eq_map _ _ _ (by rw [h2, List.length_map, List.length_range]), h2]
    simp only [List.map_map]
    rfl
  · rw [List.length_map, List.length_range]

/-- With a positive antilog and at least one class the likelihoods of the
discrete decision sum to 1. -/
theorem discreteDecision_sum_one (E : Collaborators α DM CM) (score : DM → α)
    (s : HMM α DM CM) (hd : s.classDistances.length = s.numClasses)
    (hl : s.classLikelihoods.length = s.numClasses) (hn : 0 < s.numClasses)
    (hpos : ∀ x, 0 < E.antilog x) :
    (discreteDecision E score s).2.classLikelihoods.sum = 1 := by
  obtain ⟨h1, h2⟩ := discreteDecision_likelihoods E score s hd hl
  rw [h1]
  have hne : (discreteDecision E score s).2.classDistances.map E.antilog ≠ [] := by
    intro h0
    have := congrArg List.length h0
    rw [List.length_map, h2] at this
    simp at this
    omega
  have hsum : 0 < ((discreteDecision E score s).2.classDistances.map E.antilog).sum :=
    List.sum_pos _ (fun x hx => by
      obtain ⟨y, _, hy⟩ := List.mem_map.mp hx
      rw [← hy]
      exact hpos y) hne
  have := sum_map_div_self _ (ne_of_gt hsum)
  rw [List.map_map] at this
  exact this

/-- A successful `predict_discrete` has run the decision part on buffers of
`numClasses` elements. -/
theorem predict_discrete_eq (E : Collaborators α DM CM) (s : HMM α DM CM) (v : List α)
    (h : (predict_discrete E s v).1 = true) :
    ∃ (score : DM → α) (s1 : HMM α DM CM),
      predict_discrete E s v = discreteDecision E score s1 ∧ s1.numClasses = s.numClasses ∧
      s1.classDistances.length = s.numClasses ∧ s1.classLikelihoods.length = s.numClasses := by
  unfold predict_discrete at h ⊢
  dsimp only at h ⊢
  by_cases h1 : (!s.trained) = true
  · rw [if_pos h1] at h
    exact Bool.noConfusion h
  · by_cases h2 : v.length ≠ s.numInputDimensions
    · rw [if_neg h1, if_pos h2] at h
      exact Bool.noConfusion h
    · rw [if_neg h1, if_neg h2] at h ⊢
      split_ifs at h ⊢ with h3
      · exact ⟨_, _, rfl, resizeBuffers_numClasses _, resizeBuffers_classDistances_length _,
          resizeBuffers_classLikelihoods_length _⟩

/-- A successful `predict_discrete` on a time series has run the decision part
on buffers of `numClasses` elements. -/
theorem predict_discrete_timeseries_eq (E : Collaborators α DM CM) (s : HMM α DM CM)
    (ts : MatrixDouble α) (h : (predict_discrete_timeseries E s ts).1 = true) :
    ∃ (score : DM → α) (s1 : HMM α DM CM),
      predict_discrete_timeseries E s ts = discreteDecision E score s1 ∧
      s1.numClasses = s.numClasses ∧
      s1.classDistances.length = s.numClasses ∧ s1.classLikelihoods.length = s.numClasses := by
  unfold predict_discrete_timeseries at h ⊢
  dsimp only at h ⊢
  by_cases h1 : (!s.trained) = true
  · rw [if_pos h1] at h
    exact Bool.noConfusion h
  · by_cases h2 : ts.getNumCols ≠ 1
    · rw [if_neg h1, if_pos h2] at h
      exact Bool.noConfusion h
    · rw [if_neg h1, if_neg h2] at h ⊢
      rcases hr : toObservationSequence E s ts with ⟨b, obs⟩
      rw [hr] at h
      cases b
      · exact Bool.noConfusion h
      · exact ⟨_, _, rfl, resizeBuffers_numClasses _, resizeBuffers_classDistances_length _,
          resizeBuffers_classLikelihoods_length _⟩

/-- C1: with `antilog` the real exponential and at least one class, after every
successful discrete prediction (on a single symbol or on a symbol sequence)
the `classLikelihoods` sum to 1, and each entry is the exponential of the
class's distance divided by the sum of the exponentials of all distances. -/
theorem discrete_likelihoods_sum_to_one {DM CM : Type} (E : Collaborators ℝ DM CM)
    (s : HMM ℝ DM CM) (v : List ℝ) (ts : MatrixDouble ℝ) (hexp : E.antilog = Real.exp)
    (hn : 0 < s.numClasses) :
    ((predict_discrete E s v).1 = true →
      (predict_discrete E s v).2.classLikelihoods.sum = 1 ∧
      (predict_discrete E s v).2.classLikelihoods =
        (predict_discrete E s v).2.classDistances.map
          (fun d => Real.exp d / ((predict_discrete E s v).2.classDistances.map Real.exp).sum)) ∧
    ((predict_discrete_timeseries E s ts).1 = true →
      (predict_discrete_timeseries E s ts).2.classLikelihoods.sum = 1 ∧
      (predict_discrete_timeseries E s ts).2.classLikelihoods =
        (predict_discrete_timeseries E s ts).2.classDistances.map
          (fun d => Real.exp d /
            ((predict_discrete_timeseries E s ts).2.classDistances.map Real.exp).sum)) := by
  have hpos : ∀ x, 0 < E.antilog x := fun x => by rw [hexp]; exact Real.exp_pos x
  constructor
  · intro h
    obtain ⟨score, s1, hs, hc, hd, hl⟩ := predict_discrete_eq E s v h
    rw [hs]
    refine ⟨discreteDecision_sum_one E score s1 (hc ▸ hd) (hc ▸ hl) (hc ▸ hn) hpos, ?_⟩
    have := (discreteDecision_likelihoods E score s1 (hc ▸ hd) (hc ▸ hl)).1
    rw [hexp] at this
    exact this
  · intro h
    obtain ⟨score, s1, hs, hc, hd, hl⟩ := predict_discrete_timeseries_eq E s ts h
    rw [hs]
    refine ⟨discreteDecision_sum_one E score s1 (hc ▸ hd) (hc ▸ hl) (hc ▸ hn) hpos, ?_⟩
    have := (discreteDecision_likelihoods E score s1 (hc ▸ hd) (hc ▸ hl)).1
    rw [hexp] at this
    exact this

/-- Witness for C1: the two-class classifier `exampleDiscreteState` over the
reals with the real exponential as antilog, on the symbol 0 and on the
one-symbol sequence 0. -/
theorem discrete_likelihoods_sum_to_one_witness :
    (predict_discrete (tableCollaborators Real.exp true) exampleDiscreteState [0]).1 = true ∧
    (predict_discrete (tableCollaborators Real.exp true) exampleDiscreteState
      [0]).2.classLikelihoods.sum = 1 ∧
    (predict_discrete_timeseries (tableCollaborators Real.exp true) exampleDiscreteState
      ⟨1, [[0]]⟩).2.classLikelihoods.sum = 1 :=
  have h1 : (predict_discrete (tableCollaborators Real.exp true) exampleDiscreteState
      [(0 : ℝ)]).1 = true :=
    (predict_discrete_fst _ _ _).mpr
      ⟨rfl, rfl, by simp [tableCollaborators, exampleDiscreteState, new]⟩
  have h2 : (predict_discrete_timeseries (tableCollaborators Real.exp true) exampleDiscreteState
      ⟨1, [[(0 : ℝ)]]⟩).1 = true :=
    (predict_discrete_timeseries_fst _ _ _).mpr
      ⟨rfl, rfl, fun i hi => by
        have hi0 : i = 0 := by
          simp [MatrixDouble.getNumRows] at hi
          exact hi
        subst hi0
        simp [tableCollaborators, exampleDiscreteState, new, MatrixDouble.elem]⟩
  ⟨h1,
   ((discrete_likelihoods_sum_to_one (tableCollaborators Real.exp true) exampleDiscreteState
      [0] ⟨1, [[0]]⟩ rfl (by decide)).1 h1).1,
   ((discrete_likelihoods_sum_to_one (tableCollaborators Real.exp true) exampleDiscreteState
      [0] ⟨1, [[0]]⟩ rfl (by decide)).2 h2).1⟩

/-! ## The committee vote -/

/-- The head of the sorted results is an element of greatest value. -/
theorem sortResults_head (l : List (IndexedDouble α)) (hne : l ≠ []) :
    ∃ b, (sortResults l)[0]? = some b ∧ b ∈ l ∧ ∀ r ∈ l, r.value ≤ b.value := by
  induction l with
  | nil => exact absurd rfl hne
  | cons a l ih =>
    by_cases hl : l = []
    · subst hl
      exact ⟨a, rfl, List.mem_singleton.mpr rfl, fun r hr => by
        rw [List.mem_singleton.mp hr]⟩
    · obtain ⟨b, hb, hbl, hmax⟩ := ih hl
      have hs : sortResults (a :: l) =
          List.orderedInsert sortIndexedDoubleByValueDescending a (sortResults l) := rfl
      rcases hsl : sortResults l with _ | ⟨b1, tl⟩
      · rw [hsl] at hb
        exact absurd hb (by simp)
      · rw [hsl] at hb
        have hb1 : b1 = b := by simpa using hb
        subst hb1
        rw [hs, hsl]
        by_cases hab : sortIndexedDoubleByValueDescending a b1
        · refine ⟨a, ?_, List.mem_cons_self a l, ?_⟩
          · simp [List.orderedInsert, hab]
          · intro r hr
            rcases List.mem_cons.mp hr with h | h
            · rw [h]
            · exact le_of_lt (lt_of_le_of_lt (hmax r h) hab)
        · refine ⟨b1, ?_, List.mem_cons_of_mem a hbl, ?_⟩
          · simp [List.orderedInsert, hab]
          · intro r hr
            rcases List.mem_cons.mp hr with h | h
            · rw [h]
              exact not_lt.mp hab
            · exact hmax r h

/-- The state of the exemplar scoring loop after `k` iterations. -/
theorem continuousScoreLoop_partial (E : Collaborators α DM CM) (score : CM → α)
    (s : HMM α DM CM) (init : List (IndexedDouble α)) (k : Nat) :
    (∀ i, (forLoop k
        (fun i (st : List (IndexedDouble α) × α) =>
          let m := s.continuousModels.getD i E.cNew
          let results := st.1.set i { index := E.cGetClassLabel m, value := score m }
          let minValue := if score m < st.2 then score m else st.2
          (results, minValue))
        (init, -1000)).1[i]? =
      if i < k then (init[i]?).map
        (fun _ => ({ index := E.cGetClassLabel (s.continuousModels.getD i E.cNew),
                     value := score (s.continuousModels.getD i E.cNew) } : IndexedDouble α))
      else init[i]?) ∧
    (forLoop k
        (fun i (st : List (IndexedDouble α) × α) =>
          let m := s.continuousModels.getD i E.cNew
          let results := st.1.set i { index := E.cGetClassLabel m, value := score m }
          let minValue := if score m < st.2 then score m else st.2
          (results, minValue))
        (init, -1000)).2 ≤ -1000 := by
  induction k with
  | zero => simp [forLoop_zero]
  | succ k ih =>
    obtain ⟨h1, h2⟩ := ih
    rw [forLoop_succ]
    dsimp only
    refine ⟨?_, ?_⟩
    · intro i
      exact set_step_getElem? (fun i => s.continuousModels.getD i E.cNew)
        (fun m => ({ index := E.cGetClassLabel m, value := score m } : IndexedDouble α))
        k _ _ h1 i
    · split_ifs with h3
      · exact le_trans (le_of_lt h3) h2
      · exact h2

/-- The exemplar scoring loop fills `results` with the (label, score) pairs of
the models and leaves `minValue` at most `-1000`. -/
theorem continuousScoreLoop_spec (E : Collaborators α DM CM) (score : CM → α)
    (s : HMM α DM CM) :
    (continuousScoreLoop E score s).1 = exemplarResults E score s ∧
    (continuousScoreLoop E score s).2 ≤ -1000 := by
  unfold continuousScoreLoop
  dsimp only
  obtain ⟨h1, h2⟩ := continuousScoreLoop_partial E score s
    (List.replicate s.continuousModels.length ⟨0, 0⟩) s.continuousModels.length
  refine ⟨?_, h2⟩
  have h3 := eq_map_range_of_getElem? (fun i => s.continuousModels.getD i E.cNew)
    (fun m => ({ index := E.cGetClassLabel m, value := score m } : IndexedDouble α))
    s.continuousModels.length (List.replicate s.continuousModels.length ⟨0, 0⟩) _
    (List.length_replicate _ _) h1
  rw [h3]
  unfold exemplarResults
  exact map_range_getD
    (fun m => ({ index := E.cGetClassLabel m, value := score m } : IndexedDouble α)) E.cNew
    s.continuousModels

/-- The maximum search returns the index of an element that is strictly
greater than the start value and than every other element. -/
theorem findMaximumLabel_unique_max (n : Nat) (cd : List α) (bd0 : α) (c : Nat) (hc : c < n)
    (hgt : bd0 < cd.getD c 0)
    (hlt : ∀ j, j < n → j ≠ c → cd.getD j 0 < cd.getD c 0) :
    findMaximumLabel n cd bd0 = (cd.getD c 0, c) := by
  unfold findMaximumLabel
  have key : ∀ k, k ≤ n →
      (c < k → forLoop k
        (fun k (st : α × Nat) =>
          if cd.getD k 0 > st.1 then (cd.getD k 0, k) else st) (bd0, 0) = (cd.getD c 0, c)) ∧
      (¬ c < k → (forLoop k
        (fun k (st : α × Nat) =>
          if cd.getD k 0 > st.1 then (cd.getD k 0, k) else st) (bd0, 0)).1 < cd.getD c 0) := by
    intro k
    induction k with
    | zero =>
      intro _
      exact ⟨fun h => absurd h (Nat.not_lt_zero c), fun _ => hgt⟩
    | succ k ih =>
      intro hk
      obtain ⟨ih1, ih2⟩ := ih (Nat.le_of_succ_le hk)
      rw [forLoop_succ]
      constructor
      · intro hck
        by_cases hc2 : c < k
        · rw [ih1 hc2]
          have hne : k ≠ c := by omega
          have := hlt k (by omega) hne
          rw [if_neg (not_lt.mpr (le_of_lt this))]
        · have hkc : k = c := by omega
          subst hkc
          rw [if_pos (ih2 hc2)]
      · intro hck
        have hc2 : ¬ c < k := by omega
        have hne : k ≠ c := by omega
        have h1 := hlt k (by omega) hne
        split_ifs
        · exact h1
        · exact ih2 hc2
  exact (key n (Nat.le_refl n)).1 hc

theorem resizeBuffers_continuousModels (s : HMM α DM CM) :
    (resizeBuffers s).continuousModels = s.continuousModels := by
  unfold resizeBuffers
  dsimp only
  split_ifs <;> rfl

theorem resizeBuffers_classLabels (s : HMM α DM CM) :
    (resizeBuffers s).classLabels = s.classLabels := by
  unfold resizeBuffers
  dsimp only
  split_ifs <;> rfl

theorem resizeBuffers_committeeSize (s : HMM α DM CM) :
    (resizeBuffers s).committeeSize = s.committeeSize := by
  unfold resizeBuffers
  dsimp only
  split_ifs <;> rfl

theorem continuousScoreLoop_congr (E : Collaborators α DM CM) (score : CM → α)
    (s1 s2 : HMM α DM CM) (h : s1.continuousModels = s2.continuousModels) :
    continuousScoreLoop E score s1 = continuousScoreLoop E score s2 := by
  unfold continuousScoreLoop
  rw [h]

theorem committeeVote_congr (s1 s2 : HMM α DM CM) (h1 : s1.committeeSize = s2.committeeSize)
    (h2 : s1.classLabels = s2.classLabels) (results : List (IndexedDouble α)) (minValue : α)
    (cd : List α) : committeeVote s1 results minValue cd = committeeVote s2 results minValue cd := by
  unfold committeeVote getClassLabelIndexValue
  rw [h1, h2]

theorem continuousStart_classDistances (s : HMM α DM CM) :
    (continuousStart s).classDistances = List.replicate s.numClasses 0 := by
  unfold continuousStart
  dsimp only
  rw [List.map_const', resizeBuffers_classDistances_length]

/-- The accumulated distances after the continuous decision: the committee
vote over the sorted exemplar results, started from zeros. -/
theorem continuousDecision_classDistances (E : Collaborators α DM CM) (score : CM → α)
    (s : HMM α DM CM) :
    (continuousDecision E score s).2.classDistances =
      committeeVote s (sortResults (exemplarResults E score s))
        (continuousScoreLoop E score s).2 (List.replicate s.numClasses 0) := by
  have h0 : (continuousDecision E score s).2.classDistances =
      committeeVote (continuousStart s)
        (sortResults (continuousScoreLoop E score (continuousStart s)).1)
        (continuousScoreLoop E score (continuousStart s)).2
        (continuousStart s).classDistances := rfl
  rw [h0, continuousStart_classDistances,
    continuousScoreLoop_congr E score (continuousStart s) s (resizeBuffers_continuousModels s),
    committeeVote_congr (continuousStart s) s (resizeBuffers_committeeSize s)
      (resizeBuffers_classLabels s),
    (continuousScoreLoop_spec E score s).1]

/-- The predicted label after the continuous decision: the label at the index
found by the maximum search over the accumulated distances. -/
theorem continuousDecision_predictedClassLabel (E : Collaborators α DM CM) (score : CM → α)
    (s : HMM α DM CM) :
    (continuousDecision E score s).2.predictedClassLabel =
      s.classLabels.getD
        (findMaximumLabel s.numClasses (continuousDecision E score s).2.classDistances
          (-1000)).2 0 := by
  have h0 : (continuousDecision E score s).2.predictedClassLabel =
      (continuousStart s).classLabels.getD
        (findMaximumLabel (continuousStart s).numClasses
          (continuousDecision E score s).2.classDistances (-1000)).2 0 := rfl
  rw [h0]
  have h1 : (continuousStart s).classLabels = s.classLabels := resizeBuffers_classLabels s
  have h2 : (continuousStart s).numClasses = s.numClasses := resizeBuffers_numClasses s
  rw [h1, h2]

theorem getD_replicate_zero (n i : Nat) : (List.replicate n (0 : α)).getD i 0 = 0 := by
  rw [List.getD_eq_getElem?_getD, List.getElem?_replicate]
  split_ifs <;> rfl

theorem getD_set_self {β : Type} (l : List β) (i : Nat) (x d : β) (h : i < l.length) :
    (l.set i x).getD i d = x := by
  rw [List.getD_eq_getElem?_getD, List.getElem?_set_self h]
  rfl

theorem getD_set_ne {β : Type} (l : List β) (i j : Nat) (x d : β) (h : i ≠ j) :
    (l.set i x).getD j d = l.getD j d := by
  rw [List.getD_eq_getElem?_getD, List.getElem?_set_ne h, List.getD_eq_getElem?_getD]

theorem getClassLabelIndexValue_spec (s : HMM α DM CM) (label : Nat)
    (h : label ∈ s.classLabels) :
    s.getClassLabelIndexValue label < s.classLabels.length ∧
    s.classLabels.getD (s.getClassLabelIndexValue label) 0 = label := by
  unfold getClassLabelIndexValue
  rw [if_pos h]
  have hlt : s.classLabels.indexOf label < s.classLabels.length := List.indexOf_lt_length.mpr h
  refine ⟨hlt, ?_⟩
  rw [List.getD_eq_getElem _ _ hlt]
  exact List.getElem_indexOf hlt

/-- With a committee of one, a best exemplar of negative score and a label
known to the classifier, the continuous decision predicts that label. -/
theorem continuousDecision_committee_one (E : Collaborators α DM CM) (score : CM → α)
    (s : HMM α DM CM) (hc : s.committeeSize = 1) (hlab : s.classLabels.length = s.numClasses)
    (hneg : (bestExemplar E score s).value < 0)
    (hmem : (bestExemplar E score s).index ∈ s.classLabels) :
    (continuousDecision E score s).2.predictedClassLabel = (bestExemplar E score s).index := by
  obtain ⟨hlt, hget⟩ := getClassLabelIndexValue_spec s _ hmem
  rw [hlab] at hlt
  have hmin : (continuousScoreLoop E score s).2 < 0 :=
    lt_of_le_of_lt (continuousScoreLoop_spec E score s).2 (by norm_num)
  have hvote : 0 < 1 / ((bestExemplar E score s).value / (continuousScoreLoop E score s).2) :=
    one_div_pos.mpr (div_pos_of_neg_of_neg hneg hmin)
  have hcd : (continuousDecision E score s).2.classDistances =
      (List.replicate s.numClasses 0).set
        (s.getClassLabelIndexValue (bestExemplar E score s).index)
        (0 + 1 / ((bestExemplar E score s).value / (continuousScoreLoop E score s).2)) := by
    rw [continuousDecision_classDistances]
    unfold committeeVote
    rw [hc, forLoop_succ, forLoop_zero]
    dsimp only
    rw [getD_replicate_zero]
    rfl
  rw [continuousDecision_predictedClassLabel, hcd]
  have hlen : s.getClassLabelIndexValue (bestExemplar E score s).index <
      (List.replicate s.numClasses (0 : α)).length := by
    rw [List.length_replicate]; exact hlt
  rw [findMaximumLabel_unique_max s.numClasses _ (-1000)
    (s.getClassLabelIndexValue (bestExemplar E score s).index) hlt]
  · exact hget
  · rw [getD_set_self _ _ _ _ hlen, zero_add]
    exact lt_trans (by norm_num) hvote
  · intro j _ hj
    rw [getD_set_self _ _ _ _ hlen, getD_set_ne _ _ _ _ _ (Ne.symm hj), getD_replicate_zero,
      zero_add]
    exact hvote

/-- The best exemplar is one of the exemplars and no exemplar scores higher. -/
theorem bestExemplar_spec (E : Collaborators α DM CM) (score : CM → α) (s : HMM α DM CM)
    (hm : s.continuousModels ≠ []) :
    bestExemplar E score s ∈ exemplarResults E score s ∧
    ∀ r ∈ exemplarResults E score s, r.value ≤ (bestExemplar E score s).value := by
  have hne : exemplarResults E score s ≠ [] := by
    unfold exemplarResults
    intro h
    exact hm (List.map_eq_nil_iff.mp h)
  obtain ⟨b, hb, hbl, hmax⟩ := sortResults_head (exemplarResults E score s) hne
  have hbe : bestExemplar E score s = b := by
    unfold bestExemplar
    rw [List.getD_eq_getElem?_getD, hb]
    rfl
  rw [hbe]
  exact ⟨hbl, hmax⟩

theorem predict_continuous_eq_vectorScore (E : Collaborators α DM CM) (s : HMM α DM CM)
    (v : List α) (h : (predict_continuous E s v).1 = true) :
    predict_continuous E s v = continuousDecision E (vectorScore E s v) s := by
  unfold predict_continuous at h ⊢
  dsimp only at h ⊢
  by_cases h1 : (!s.trained) = true
  · rw [if_pos h1] at h
    exact Bool.noConfusion h
  · by_cases h2 : v.length ≠ s.numInputDimensions
    · rw [if_neg h1, if_pos h2] at h
      exact Bool.noConfusion h
    · rw [if_neg h1, if_neg h2]
      rfl

theorem predict_continuous_timeseries_eq_timeseriesScore (E : Collaborators α DM CM)
    (s : HMM α DM CM) (ts : MatrixDouble α)
    (h : (predict_continuous_timeseries E s ts).1 = true) :
    predict_continuous_timeseries E s ts = continuousDecision E (timeseriesScore E s ts) s := by
  unfold predict_continuous_timeseries at h ⊢
  dsimp only at h ⊢
  by_cases h1 : (!s.trained) = true
  · rw [if_pos h1] at h
    exact Bool.noConfusion h
  · by_cases h2 : ts.getNumCols ≠ s.numInputDimensions
    · rw [if_neg h1, if_pos h2] at h
      exact Bool.noConfusion h
    · rw [if_neg h1, if_neg h2]
      rfl

/-- C4, as stated, fails: `positiveScoreClassifier` has a committee of one and
two exemplars; its best-scoring exemplar has the positive score 500 and the
class label 2, its vote `1 / (500 / -1000) = -2` is negative, and the
successful prediction returns the label 1. -/
theorem committee_of_one_counterexample :
    positiveScoreClassifier.committeeSize = 1 ∧
    positiveScoreClassifier.continuousModels ≠ [] ∧
    (predict_continuous (tableCollaborators id true) positiveScoreClassifier [1]).1 = true ∧
    bestExemplar (tableCollaborators id true)
      (vectorScore (tableCollaborators id true) positiveScoreClassifier [1])
      positiveScoreClassifier = ⟨2, 500⟩ ∧
    (predict_continuous (tableCollaborators id true) positiveScoreClassifier
      [1]).2.classDistances = [0, -2] ∧
    ¬ ((predict_continuous (tableCollaborators id true) positiveScoreClassifier
        [1]).2.predictedClassLabel =
      (bestExemplar (tableCollaborators id true)
        (vectorScore (tableCollaborators id true) positiveScoreClassifier [1])
        positiveScoreClassifier).index) := by
  decide!

/-- C4, amended: with `committeeSize = 1`, at least one exemplar model and a
label list of `numClasses` entries, the first element of the sorted results
is an exemplar of greatest score, and a successful `predict_continuous`
(vector or time series) sets `predictedClassLabel` to that exemplar's class
label whenever its score is negative and its label occurs in `classLabels`. -/
theorem committee_of_one_predicts_best_exemplar (E : Collaborators α DM CM) (s : HMM α DM CM)
    (v : List α) (ts : MatrixDouble α) (hc : s.committeeSize = 1)
    (hm : s.continuousModels ≠ []) (hlab : s.classLabels.length = s.numClasses) :
    ((predict_continuous E s v).1 = true →
      bestExemplar E (vectorScore E s v) s ∈ exemplarResults E (vectorScore E s v) s ∧
      (∀ r ∈ exemplarResults E (vectorScore E s v) s,
        r.value ≤ (bestExemplar E (vectorScore E s v) s).value) ∧
      ((bestExemplar E (vectorScore E s v) s).value < 0 →
        (bestExemplar E (vectorScore E s v) s).index ∈ s.classLabels →
        (predict_continuous E s v).2.predictedClassLabel =
          (bestExemplar E (vectorScore E s v) s).index)) ∧
    ((predict_continuous_timeseries E s ts).1 = true →
      bestExemplar E (timeseriesScore E s ts) s ∈ exemplarResults E (timeseriesScore E s ts) s ∧
      (∀ r ∈ exemplarResults E (timeseriesScore E s ts) s,
        r.value ≤ (bestExemplar E (timeseriesScore E s ts) s).value) ∧
      ((bestExemplar E (timeseriesScore E s ts) s).value < 0 →
        (bestExemplar E (timeseriesScore E s ts) s).index ∈ s.classLabels →
        (predict_continuous_timeseries E s ts).2.predictedClassLabel =
          (bestExemplar E (timeseriesScore E s ts) s).index)) := by
  constructor
  · intro h
    refine ⟨(bestExemplar_spec E _ s hm).1, (bestExemplar_spec E _ s hm).2, ?_⟩
    intro hneg hmem
    rw [predict_continuous_eq_vectorScore E s v h]
    exact continuousDecision_committee_one E _ s hc hlab hneg hmem
  · intro h
    refine ⟨(bestExemplar_spec E _ s hm).1, (bestExemplar_spec E _ s hm).2, ?_⟩
    intro hneg hmem
    rw [predict_continuous_timeseries_eq_timeseriesScore E s ts h]
    exact continuousDecision_committee_one E _ s hc hlab hneg hmem

/-- Witness for C4 (amended): `nearestExemplarClassifier` has a committee of
one and the exemplars (7, -2), (9, -4), (7, -3); the best exemplar is (7, -2)
and the predicted label is 7, for the vector `[1]` and the time series `[[1]]`. -/
theorem committee_of_one_predicts_best_exemplar_witness :
    bestExemplar (tableCollaborators id true)
      (vectorScore (tableCollaborators id true) nearestExemplarClassifier [1])
      nearestExemplarClassifier = ⟨7, -2⟩ ∧
    (predict_continuous (tableCollaborators id true) nearestExemplarClassifier
      [1]).2.predictedClassLabel =
      (bestExemplar (tableCollaborators id true)
        (vectorScore (tableCollaborators id true) nearestExemplarClassifier [1])
        nearestExemplarClassifier).index ∧
    (predict_continuous_timeseries (tableCollaborators id true) nearestExemplarClassifier
      ⟨1, [[1]]⟩).2.predictedClassLabel =
      (bestExemplar (tableCollaborators id true)
        (timeseriesScore (tableCollaborators id true) nearestExemplarClassifier ⟨1, [[1]]⟩)
        nearestExemplarClassifier).index :=
  ⟨by decide!,
   ((committee_of_one_predicts_best_exemplar (tableCollaborators id true)
      nearestExemplarClassifier [1] ⟨1, [[1]]⟩ (by decide!) (by decide!) (by decide!)).1
      (by decide!)).2.2 (by decide!) (by decide!),
   ((committee_of_one_predicts_best_exemplar (tableCollaborators id true)
      nearestExemplarClassifier [1] ⟨1, [[1]]⟩ (by decide!) (by decide!) (by decide!)).2
      (by decide!)).2.2 (by decide!) (by decide!)⟩

/-- The classifier trained on `exampleData` is the state written out in
`exampleDiscreteState`. -/
theorem exampleDiscrete_eq : exampleDiscrete = exampleDiscreteState := by
  decide!

/-! ## The dispatchers on an unknown type -/

/-- C19: if the configured `hmmType` is neither `HMM_DISCRETE` nor
`HMM_CONTINUOUS`, then `train_` and both `predict_` overloads return failure
and the whole classifier object is unchanged. -/
theorem unknown_type_no_effect (E : Collaborators α DM CM) (s : HMM α DM CM)
    (d : TimeSeriesClassificationData α) (v : List α) (ts : MatrixDouble α)
    (h1 : s.hmmType ≠ HMM_DISCRETE) (h2 : s.hmmType ≠ HMM_CONTINUOUS) :
    train_ E s d = (false, s) ∧ predict_ E s v = (false, s) ∧
    predict_timeseries E s ts = (false, s) := by
  unfold train_ predict_ predict_timeseries
  rw [if_neg h1, if_neg h2, if_neg h1, if_neg h2, if_neg h1, if_neg h2]
  exact ⟨rfl, rfl, rfl⟩

/-- Witness for C19: a classifier constructed with `hmmType = 2`. -/
theorem unknown_type_no_effect_witness :
    unknownTypeClassifier.hmmType ≠ HMM_DISCRETE ∧
    unknownTypeClassifier.hmmType ≠ HMM_CONTINUOUS ∧
    train_ (tableCollaborators id true) unknownTypeClassifier exampleData
      = (false, unknownTypeClassifier) ∧
    predict_ (tableCollaborators id true) unknownTypeClassifier [1]
      = (false, unknownTypeClassifier) ∧
    predict_timeseries (tableCollaborators id true) unknownTypeClassifier ⟨1, [[1]]⟩
      = (false, unknownTypeClassifier) :=
  ⟨by decide!, by decide!,
   unknown_type_no_effect (tableCollaborators id true) unknownTypeClassifier exampleData [1]
     ⟨1, [[1]]⟩ (by decide!) (by decide!)⟩

/-! ## Prediction and the persistent state -/

theorem resizeBuffers_persistentState (s : HMM α DM CM) :
    persistentState (resizeBuffers s) = persistentState s := by
  unfold resizeBuffers
  dsimp only
  split_ifs <;> rfl

theorem discreteDecision_persistentState (E : Collaborators α DM CM) (score : DM → α)
    (s : HMM α DM CM) :
    persistentState (discreteDecision E score s).2 = persistentState s := by
  unfold discreteDecision
  dsimp only
  split_ifs <;> rfl

theorem continuousDecision_persistentState (E : Collaborators α DM CM) (score : CM → α)
    (s : HMM α DM CM) :
    persistentState (continuousDecision E score s).2 = persistentState s := by
  have h0 : persistentState (continuousDecision E score s).2 =
      persistentState (resizeBuffers s) := rfl
  rw [h0, resizeBuffers_persistentState]

theorem predict_discrete_persistentState (E : Collaborators α DM CM) (s : HMM α DM CM)
    (v : List α) : persistentState (predict_discrete E s v).2 = persistentState s := by
  unfold predict_discrete
  dsimp only
  split_ifs
  · rfl
  · rfl
  · exact resizeBuffers_persistentState
      { s with predictedClassLabel := 0, maxLikelihood := -10000 }
  · rw [discreteDecision_persistentState]
    exact resizeBuffers_persistentState
      { s with predictedClassLabel := 0, maxLikelihood := -10000 }

theorem predict_discrete_timeseries_persistentState (E : Collaborators α DM CM)
    (s : HMM α DM CM) (ts : MatrixDouble α) :
    persistentState (predict_discrete_timeseries E s ts).2 = persistentState s := by
  unfold predict_discrete_timeseries
  dsimp only
  split_ifs
  · rfl
  · rfl
  · split
    · rfl
    · rw [discreteDecision_persistentState]
      exact resizeBuffers_persistentState s

theorem predict_continuous_persistentState (E : Collaborators α DM CM) (s : HMM α DM CM)
    (v : List α) : persistentState (predict_continuous E s v).2 = persistentState s := by
  unfold predict_continuous
  dsimp only
  by_cases h1 : (!s.trained) = true
  · rw [if_pos h1]
  · by_cases h2 : v.length ≠ s.numInputDimensions
    · rw [if_neg h1, if_pos h2]
    · rw [if_neg h1, if_neg h2]
      exact continuousDecision_persistentState E _ s

theorem predict_continuous_timeseries_persistentState (E : Collaborators α DM CM)
    (s : HMM α DM CM) (ts : MatrixDouble α) :
    persistentState (predict_continuous_timeseries E s ts).2 = persistentState s := by
  unfold predict_continuous_timeseries
  dsimp only
  by_cases h1 : (!s.trained) = true
  · rw [if_pos h1]
  · by_cases h2 : ts.getNumCols ≠ s.numInputDimensions
    · rw [if_neg h1, if_pos h2]
    · rw [if_neg h1, if_neg h2]
      exact continuousDecision_persistentState E _ s

/-- C14: every prediction call, successful or not, leaves the persistent state
unchanged: the configuration fields, the trained flag, the dimensions,
`classLabels`, `nullRejectionThresholds`, `ranges`, `discreteModels` and
`continuousModels` are the same after the call as before, for both overloads
of `predict_discrete` and of `predict_continuous` and for both dispatchers;
only the transient prediction buffers can differ. -/
theorem prediction_keeps_persistent_state (E : Collaborators α DM CM) (s : HMM α DM CM)
    (v : List α) (ts : MatrixDouble α) :
    persistentState (predict_discrete E s v).2 = persistentState s ∧
    persistentState (predict_discrete_timeseries E s ts).2 = persistentState s ∧
    persistentState (predict_continuous E s v).2 = persistentState s ∧
    persistentState (predict_continuous_timeseries E s ts).2 = persistentState s ∧
    persistentState (predict_ E s v).2 = persistentState s ∧
    persistentState (predict_timeseries E s ts).2 = persistentState s := by
  refine ⟨predict_discrete_persistentState E s v,
    predict_discrete_timeseries_persistentState E s ts,
    predict_continuous_persistentState E s v,
    predict_continuous_timeseries_persistentState E s ts, ?_, ?_⟩
  · unfold predict_
    split_ifs
    · exact predict_discrete_persistentState E s v
    · exact predict_continuous_persistentState E s v
    · rfl
  · unfold predict_timeseries
    split_ifs
    · exact predict_discrete_timeseries_persistentState E s ts
    · exact predict_continuous_timeseries_persistentState E s ts
    · rfl

/-! ## Null rejection and the continuous path -/

theorem resizeBuffers_setNullRejection (s : HMM α DM CM) (b : Bool) (t : List α) :
    resizeBuffers { s with useNullRejection := b, nullRejectionThresholds := t } =
      { resizeBuffers s with useNullRejection := b, nullRejectionThresholds := t } := by
  unfold resizeBuffers
  dsimp only
  split_ifs <;> rfl

/-- The continuous decision commutes with a change of `useNullRejection` and
`nullRejectionThresholds`: it neither reads nor writes them. -/
theorem continuousDecision_setNullRejection (E : Collaborators α DM CM) (score : CM → α)
    (s : HMM α DM CM) (b : Bool) (t : List α) :
    continuousDecision E score { s with useNullRejection := b, nullRejectionThresholds := t } =
      ((continuousDecision E score s).1,
        { (continuousDecision E score s).2 with
          useNullRejection := b, nullRejectionThresholds := t }) := by
  unfold continuousDecision
  dsimp only
  rw [resizeBuffers_setNullRejection]
  rfl

theorem predict_continuous_setNullRejection (E : Collaborators α DM CM) (s : HMM α DM CM)
    (v : List α) (b : Bool) (t : List α) :
    predict_continuous E { s with useNullRejection := b, nullRejectionThresholds := t } v =
      ((predict_continuous E s v).1,
        { (predict_continuous E s v).2 with
          useNullRejection := b, nullRejectionThresholds := t }) := by
  unfold predict_continuous
  dsimp only
  by_cases h1 : (!s.trained) = true
  · rw [if_pos h1, if_pos h1]
  · by_cases h2 : v.length ≠ s.numInputDimensions
    · rw [if_neg h1, if_pos h2, if_neg h1, if_pos h2]
    · rw [if_neg h1, if_neg h2, if_neg h1, if_neg h2]
      exact continuousDecision_setNullRejection E _ s b t

theorem predict_continuous_timeseries_setNullRejection (E : Collaborators α DM CM)
    (s : HMM α DM CM) (ts : MatrixDouble α) (b : Bool) (t : List α) :
    predict_continuous_timeseries E
        { s with useNullRejection := b, nullRejectionThresholds := t } ts =
      ((predict_continuous_timeseries E s ts).1,
        { (predict_continuous_timeseries E s ts).2 with
          useNullRejection := b, nullRejectionThresholds := t }) := by
  unfold predict_continuous_timeseries
  dsimp only
  by_cases h1 : (!s.trained) = true
  · rw [if_pos h1, if_pos h1]
  · by_cases h2 : ts.getNumCols ≠ s.numInputDimensions
    · rw [if_neg h1, if_pos h2, if_neg h1, if_pos h2]
    · rw [if_neg h1, if_neg h2, if_neg h1, if_neg h2]
      exact continuousDecision_setNullRejection E _ s b t

/-- C18: no null-rejection thresholding is applied in the continuous path.
Changing `useNullRejection` and the contents of `nullRejectionThresholds` to
arbitrary values changes neither the return value nor `predictedClassLabel`,
`maxLikelihood`, `classLikelihoods`, `classDistances` of `predict_continuous`
(vector or time series) on the same input, and after a successful call the
predicted label is `classLabels[bestIndex]`, `bestIndex` being the index found
by the maximum search over the accumulated distances. -/
theorem continuous_ignores_null_rejection (E : Collaborators α DM CM) (s : HMM α DM CM)
    (v : List α) (ts : MatrixDouble α) (b : Bool) (t : List α) :
    ((predict_continuous E { s with useNullRejection := b, nullRejectionThresholds := t } v).1
        = (predict_continuous E s v).1 ∧
      (predict_continuous E { s with useNullRejection := b, nullRejectionThresholds := t }
        v).2.predictedClassLabel = (predict_continuous E s v).2.predictedClassLabel ∧
      (predict_continuous E { s with useNullRejection := b, nullRejectionThresholds := t }
        v).2.maxLikelihood = (predict_continuous E s v).2.maxLikelihood ∧
      (predict_continuous E { s with useNullRejection := b, nullRejectionThresholds := t }
        v).2.classLikelihoods = (predict_continuous E s v).2.classLikelihoods ∧
      (predict_continuous E { s with useNullRejection := b, nullRejectionThresholds := t }
        v).2.classDistances = (predict_continuous E s v).2.classDistances) ∧
    ((predict_continuous_timeseries E
        { s with useNullRejection := b, nullRejectionThresholds := t } ts).1
        = (predict_continuous_timeseries E s ts).1 ∧
      (predict_continuous_timeseries E
        { s with useNullRejection := b, nullRejectionThresholds := t }
        ts).2.predictedClassLabel = (predict_continuous_timeseries E s ts).2.predictedClassLabel ∧
      (predict_continuous_timeseries E
        { s with useNullRejection := b, nullRejectionThresholds := t }
        ts).2.maxLikelihood = (predict_continuous_timeseries E s ts).2.maxLikelihood ∧
      (predict_continuous_timeseries E
        { s with useNullRejection := b, nullRejectionThresholds := t }
        ts).2.classLikelihoods = (predict_continuous_timeseries E s ts).2.classLikelihoods ∧
      (predict_continuous_timeseries E
        { s with useNullRejection := b, nullRejectionThresholds := t }
        ts).2.classDistances = (predict_continuous_timeseries E s ts).2.classDistances) ∧
    ((predict_continuous E s v).1 = true →
      (predict_continuous E s v).2.predictedClassLabel =
        s.classLabels.getD
          (findMaximumLabel s.numClasses (predict_continuous E s v).2.classDistances
            (-1000)).2 0) ∧
    ((predict_continuous_timeseries E s ts).1 = true →
      (predict_continuous_timeseries E s ts).2.predictedClassLabel =
        s.classLabels.getD
          (findMaximumLabel s.numClasses (predict_continuous_timeseries E s ts).2.classDistances
            (-1000)).2 0) := by
  refine ⟨?_, ?_, ?_, ?_⟩
  · rw [predict_continuous_setNullRejection]
    exact ⟨rfl, rfl, rfl, rfl, rfl⟩
  · rw [predict_continuous_timeseries_setNullRejection]
    exact ⟨rfl, rfl, rfl, rfl, rfl⟩
  · intro h
    rw [predict_continuous_eq_vectorScore E s v h]
    exact continuousDecision_predictedClassLabel E _ s
  · intro h
    rw [predict_continuous_timeseries_eq_timeseriesScore E s ts h]
    exact continuousDecision_predictedClassLabel E _ s

/-- Witness for C18: `exampleContinuous` with null rejection switched on and
the thresholds `[1000, 1000]`, which no likelihood exceeds, predicts the same
label 7 as without null rejection. -/
theorem continuous_ignores_null_rejection_witness :
    (predict_continuous (tableCollaborators id true) exampleContinuous [1]).1 = true ∧
    (predict_continuous (tableCollaborators id true)
      { exampleContinuous with useNullRejection := true, nullRejectionThresholds := [1000, 1000] }
      [1]).2.predictedClassLabel = 7 ∧
    (predict_continuous (tableCollaborators id true) exampleContinuous [1]).2.predictedClassLabel =
      exampleContinuous.classLabels.getD
        (findMaximumLabel exampleContinuous.numClasses
          (predict_continuous (tableCollaborators id true) exampleContinuous [1]).2.classDistances
          (-1000)).2 0 :=
  ⟨by decide!, by decide!,
   (continuous_ignores_null_rejection (tableCollaborators id true) exampleContinuous [1]
     ⟨1, [[1]]⟩ true [1000, 1000]).2.2.1 (by decide!)⟩

/-! ## The best class of the discrete prediction -/

theorem predict_discrete_eq_decision (E : Collaborators α DM CM) (s : HMM α DM CM) (v : List α)
    (h : (predict_discrete E s v).1 = true) :
    predict_discrete E s v =
      discreteDecision E (symbolScore E v)
        (discreteStart { s with predictedClassLabel := 0, maxLikelihood := -10000 }) := by
  unfold predict_discrete at h ⊢
  dsimp only at h ⊢
  by_cases h1 : (!s.trained) = true
  · rw [if_pos h1] at h
    exact Bool.noConfusion h
  · by_cases h2 : v.length ≠ s.numInputDimensions
    · rw [if_neg h1, if_pos h2] at h
      exact Bool.noConfusion h
    · rw [if_neg h1, if_neg h2] at h ⊢
      split_ifs at h ⊢ with h3
      · rfl

theorem predict_discrete_timeseries_eq_decision (E : Collaborators α DM CM) (s : HMM α DM CM)
    (ts : MatrixDouble α) (h : (predict_discrete_timeseries E s ts).1 = true) :
    predict_discrete_timeseries E s ts =
      discreteDecision E (sequenceScore E s ts) (discreteStart s) := by
  unfold predict_discrete_timeseries at h ⊢
  dsimp only at h ⊢
  by_cases h1 : (!s.trained) = true
  · rw [if_pos h1] at h
    exact Bool.noConfusion h
  · by_cases h2 : ts.getNumCols ≠ 1
    · rw [if_neg h1, if_pos h2] at h
      exact Bool.noConfusion h
    · rw [if_neg h1, if_neg h2] at h ⊢
      unfold sequenceScore
      rcases hr : toObservationSequence E s ts with ⟨b, obs⟩
      rw [hr] at h
      cases b
      · exact Bool.noConfusion h
      · rfl

/-- The label the discrete decision predicts, in terms of the `bestIndex` of
the scoring loop. -/
theorem discreteDecision_label (E : Collaborators α DM CM) (score : DM → α) (s : HMM α DM CM) :
    (discreteDecision E score s).2.maxLikelihood =
      (discreteDecision E score s).2.classLikelihoods.getD
        (discreteScoreLoop E score s).bestIndex 0 ∧
    (discreteDecision E score s).2.predictedClassLabel =
      if s.useNullRejection = true then
        if (discreteDecision E score s).2.maxLikelihood >
            s.nullRejectionThresholds.getD (discreteScoreLoop E score s).bestIndex 0 then
          s.classLabels.getD (discreteScoreLoop E score s).bestIndex 0
        else GRT_DEFAULT_NULL_CLASS_LABEL
      else s.classLabels.getD (discreteScoreLoop E score s).bestIndex 0 := by
  unfold discreteDecision
  dsimp only
  split_ifs <;> exact ⟨rfl, rfl⟩

theorem resizeBuffers_useNullRejection (s : HMM α DM CM) :
    (resizeBuffers s).useNullRejection = s.useNullRejection := by
  unfold resizeBuffers
  dsimp only
  split_ifs <;> rfl

theorem resizeBuffers_nullRejectionThresholds (s : HMM α DM CM) :
    (resizeBuffers s).nullRejectionThresholds = s.nullRejectionThresholds := by
  unfold resizeBuffers
  dsimp only
  split_ifs <;> rfl

theorem resizeBuffers_discreteModels (s : HMM α DM CM) :
    (resizeBuffers s).discreteModels = s.discreteModels := by
  unfold resizeBuffers
  dsimp only
  split_ifs <;> rfl

theorem discreteDecision_label_start (E : Collaborators α DM CM) (score : DM → α)
    (s0 s : HMM α DM CM) (h1 : s0.useNullRejection = s.useNullRejection)
    (h2 : s0.nullRejectionThresholds = s.nullRejectionThresholds)
    (h3 : s0.classLabels = s.classLabels) :
    (discreteDecision E score (discreteStart s0)).2.maxLikelihood =
      (discreteDecision E score (discreteStart s0)).2.classLikelihoods.getD
        (discreteScoreLoop E score (discreteStart s0)).bestIndex 0 ∧
    (discreteDecision E score (discreteStart s0)).2.predictedClassLabel =
      if s.useNullRejection = true then
        if (discreteDecision E score (discreteStart s0)).2.maxLikelihood >
            s.nullRejectionThresholds.getD
              (discreteScoreLoop E score (discreteStart s0)).bestIndex 0 then
          s.classLabels.getD (discreteScoreLoop E score (discreteStart s0)).bestIndex 0
        else GRT_DEFAULT_NULL_CLASS_LABEL
      else s.classLabels.getD (discreteScoreLoop E score (discreteStart s0)).bestIndex 0 := by
  have h := discreteDecision_label E score (discreteStart s0)
  have e1 : (discreteStart s0).useNullRejection = s.useNullRejection :=
    (resizeBuffers_useNullRejection s0).trans h1
  have e2 : (discreteStart s0).nullRejectionThresholds = s.nullRejectionThresholds :=
    (resizeBuffers_nullRejectionThresholds s0).trans h2
  have e3 : (discreteStart s0).classLabels = s.classLabels :=
    (resizeBuffers_classLabels s0).trans h3
  rw [e1, e2, e3] at h
  exact h

/-- C13: in a successful discrete prediction (vector or time series),
`maxLikelihood` is the normalised likelihood of the best class; with null
rejection enabled `predictedClassLabel` is `classLabels[bestIndex]` if that
likelihood is strictly greater than `nullRejectionThresholds[bestIndex]` and
the reserved null label otherwise; with null rejection disabled it is
`classLabels[bestIndex]`. -/
theorem discrete_null_rejection (E : Collaborators α DM CM) (s : HMM α DM CM) (v : List α)
    (ts : MatrixDouble α) :
    ((predict_discrete E s v).1 = true →
      (predict_discrete E s v).2.maxLikelihood =
        (predict_discrete E s v).2.classLikelihoods.getD (vectorBestIndex E s v) 0 ∧
      (predict_discrete E s v).2.predictedClassLabel =
        if s.useNullRejection = true then
          if (predict_discrete E s v).2.maxLikelihood >
              s.nullRejectionThresholds.getD (vectorBestIndex E s v) 0 then
            s.classLabels.getD (vectorBestIndex E s v) 0
          else GRT_DEFAULT_NULL_CLASS_LABEL
        else s.classLabels.getD (vectorBestIndex E s v) 0) ∧
    ((predict_discrete_timeseries E s ts).1 = true →
      (predict_discrete_timeseries E s ts).2.maxLikelihood =
        (predict_discrete_timeseries E s ts).2.classLikelihoods.getD
          (timeseriesBestIndex E s ts) 0 ∧
      (predict_discrete_timeseries E s ts).2.predictedClassLabel =
        if s.useNullRejection = true then
          if (predict_discrete_timeseries E s ts).2.maxLikelihood >
              s.nullRejectionThresholds.getD (timeseriesBestIndex E s ts) 0 then
            s.classLabels.getD (timeseriesBestIndex E s ts) 0
          else GRT_DEFAULT_NULL_CLASS_LABEL
        else s.classLabels.getD (timeseriesBestIndex E s ts) 0) := by
  constructor
  · intro h
    rw [predict_discrete_eq_decision E s v h]
    exact discreteDecision_label_start E (symbolScore E v)
      { s with predictedClassLabel := 0, maxLikelihood := -10000 } s rfl rfl rfl
  · intro h
    rw [predict_discrete_timeseries_eq_decision E s ts h]
    exact discreteDecision_label_start E (sequenceScore E s ts) s s rfl rfl rfl

/-- Witness for C13: the classifier `exampleDiscrete` on the symbol 0 with the
antilog `1 / (1 - x)`: the best class is index 1 with likelihood `3/4`; the
label 9 is predicted without null rejection and with the trained thresholds,
and the null label with the thresholds `[2, 2]`. -/
theorem discrete_null_rejection_witness :
    (predict_discrete (tableCollaborators (fun x => 1 / (1 - x)) true) exampleDiscrete
      [0]).1 = true ∧
    vectorBestIndex (tableCollaborators (fun x => 1 / (1 - x)) true) exampleDiscrete [0] = 1 ∧
    (predict_discrete (tableCollaborators (fun x => 1 / (1 - x)) true) exampleDiscrete
      [0]).2.predictedClassLabel = 9 ∧
    (predict_discrete (tableCollaborators (fun x => 1 / (1 - x)) true)
      { exampleDiscrete with useNullRejection := true } [0]).2.predictedClassLabel = 9 ∧
    (predict_discrete (tableCollaborators (fun x => 1 / (1 - x)) true)
      { exampleDiscrete with useNullRejection := true, nullRejectionThresholds := [2, 2] }
      [0]).2.predictedClassLabel = GRT_DEFAULT_NULL_CLASS_LABEL ∧
    (predict_discrete (tableCollaborators (fun x => 1 / (1 - x)) true) exampleDiscrete
      [0]).2.maxLikelihood =
      (predict_discrete (tableCollaborators (fun x => 1 / (1 - x)) true) exampleDiscrete
        [0]).2.classLikelihoods.getD
        (vectorBestIndex (tableCollaborators (fun x => 1 / (1 - x)) true) exampleDiscrete [0]) 0 :=
  ⟨by decide!, by decide!, by decide!, by decide!, by decide!,
   ((discrete_null_rejection (tableCollaborators (fun x => 1 / (1 - x)) true) exampleDiscrete
      [0] ⟨1, [[0]]⟩).1 (by decide!)).1⟩

theorem discreteScoreBody_bestDistance (E : Collaborators α DM CM) (score : DM → α)
    (s : HMM α DM CM) (k : Nat) (st : ScoreState α) :
    (discreteScoreBody E score s k st).bestDistance =
      if score (s.discreteModels.getD k E.dNew) > st.bestDistance then
        score (s.discreteModels.getD k E.dNew)
      else st.bestDistance := by
  unfold discreteScoreBody
  dsimp only
  split_ifs <;> rfl

theorem discreteScoreBody_bestIndex (E : Collaborators α DM CM) (score : DM → α)
    (s : HMM α DM CM) (k : Nat) (st : ScoreState α) :
    (discreteScoreBody E score s k st).bestIndex =
      if score (s.discreteModels.getD k E.dNew) > st.bestDistance then k else st.bestIndex := by
  unfold discreteScoreBody
  dsimp only
  split_ifs <;> rfl

/-- The running maximum of the scoring loop after `k` iterations, for the
scores `f 0, f 1, ...` and the start value `bd0` of `bestDistance`: either no
score so far exceeds `bd0` and nothing has been recorded, or the recorded
index is the first index of the greatest score so far. -/
theorem runningMaximum_partial (f : Nat → α) (bd0 : α) (body : Nat → ScoreState α → ScoreState α)
    (hbd : ∀ k st, (body k st).bestDistance =
      if f k > st.bestDistance then f k else st.bestDistance)
    (hbi : ∀ k st, (body k st).bestIndex = if f k > st.bestDistance then k else st.bestIndex)
    (init : ScoreState α) (h0 : init.bestDistance = bd0) (hi0 : init.bestIndex = 0) (k : Nat) :
    ((∀ i, i < k → f i ≤ bd0) →
      (forLoop k body init).bestDistance = bd0 ∧ (forLoop k body init).bestIndex = 0) ∧
    ((∃ i, i < k ∧ bd0 < f i) →
      (forLoop k body init).bestIndex < k ∧
      (forLoop k body init).bestDistance = f (forLoop k body init).bestIndex ∧
      bd0 < f (forLoop k body init).bestIndex ∧
      (∀ i, i < k → f i ≤ f (forLoop k body init).bestIndex) ∧
      (∀ i, i < (forLoop k body init).bestIndex → f i < f (forLoop k body init).bestIndex)) := by
  induction k with
  | zero =>
    refine ⟨fun _ => ⟨h0, hi0⟩, ?_⟩
    rintro ⟨i, hi, _⟩
    exact absurd hi (Nat.not_lt_zero i)
  | succ k ih =>
    obtain ⟨ihA, ihB⟩ := ih
    rw [forLoop_succ, hbd, hbi]
    by_cases hA : ∀ i, i < k → f i ≤ bd0
    · obtain ⟨e1, e2⟩ := ihA hA
      rw [e1, e2]
      by_cases hx : f k > bd0
      · rw [if_pos hx, if_pos hx]
        constructor
        · intro hall
          exact absurd (hall k (Nat.lt_succ_self k)) (not_le.mpr hx)
        · intro _
          refine ⟨Nat.lt_succ_self k, rfl, hx, ?_, ?_⟩
          · intro i hi
            rcases Nat.lt_succ_iff_lt_or_eq.mp hi with h | h
            · exact le_trans (hA i h) (le_of_lt hx)
            · rw [h]
          · intro i hi
            exact lt_of_le_of_lt (hA i hi) hx
      · rw [if_neg hx, if_neg hx]
        constructor
        · intro _
          exact ⟨rfl, rfl⟩
        · rintro ⟨i, hi, hgt⟩
          exfalso
          rcases Nat.lt_succ_iff_lt_or_eq.mp hi with h | h
          · exact absurd (hA i h) (not_le.mpr hgt)
          · rw [h] at hgt
            exact hx hgt
    · have hB : ∃ i, i < k ∧ bd0 < f i := by
        push_neg at hA
        exact hA
      obtain ⟨b1, b2, b3, b4, b5⟩ := ihB hB
      have hnotA : ¬ ∀ i, i < k + 1 → f i ≤ bd0 := by
        intro hall
        obtain ⟨i, hi, hgt⟩ := hB
        exact absurd (hall i (Nat.lt_succ_of_lt hi)) (not_le.mpr hgt)
      refine ⟨fun hall => absurd hall hnotA, fun _ => ?_⟩
      rw [b2]
      by_cases hx : f k > f (forLoop k body init).bestIndex
      · rw [if_pos hx, if_pos hx]
        refine ⟨Nat.lt_succ_self k, rfl, lt_trans b3 hx, ?_, ?_⟩
        · intro i hi
          rcases Nat.lt_succ_iff_lt_or_eq.mp hi with h | h
          · exact le_trans (b4 i h) (le_of_lt hx)
          · rw [h]
        · intro i hi
          exact lt_of_le_of_lt (b4 i hi) hx
      · rw [if_neg hx, if_neg hx]
        refine ⟨Nat.lt_succ_of_lt b1, rfl, b3, ?_, b5⟩
        intro i hi
        rcases Nat.lt_succ_iff_lt_or_eq.mp hi with h | h
        · exact b4 i h
        · rw [h]
          exact not_lt.mp hx

theorem getD_map_range (f : Nat → α) (n i : Nat) (h : i < n) :
    ((List.range n).map f).getD i 0 = f i := by
  rw [List.getD_eq_getElem?_getD, List.getElem?_map, List.getElem?_range h]
  rfl

theorem discreteDecision_bestDistance (E : Collaborators α DM CM) (score : DM → α)
    (s : HMM α DM CM) :
    (discreteDecision E score s).2.bestDistance = (discreteScoreLoop E score s).bestDistance := by
  unfold discreteDecision
  dsimp only
  split_ifs <;> rfl

/-- The best class of the discrete decision on buffers of `numClasses`
elements: if some distance exceeds the start value of `bestDistance`, the
recorded index is the first index of the greatest distance and `bestDistance`
is that distance; otherwise the index is 0 and `bestDistance` keeps its start
value. -/
theorem discreteDecision_best (E : Collaborators α DM CM) (score : DM → α) (s : HMM α DM CM)
    (hd : s.classDistances.length = s.numClasses)
    (hl : s.classLikelihoods.length = s.numClasses) :
    ((∃ k, k < s.numClasses ∧
        s.bestDistance < (discreteDecision E score s).2.classDistances.getD k 0) →
      isFirstMaxIndex (discreteDecision E score s).2.classDistances
        (discreteScoreLoop E score s).bestIndex ∧
      (discreteDecision E score s).2.bestDistance =
        (discreteDecision E score s).2.classDistances.getD
          (discreteScoreLoop E score s).bestIndex 0) ∧
    ((∀ k, k < s.numClasses →
        (discreteDecision E score s).2.classDistances.getD k 0 ≤ s.bestDistance) →
      (discreteScoreLoop E score s).bestIndex = 0 ∧
      (discreteDecision E score s).2.bestDistance = s.bestDistance) := by
  have hcd : (discreteDecision E score s).2.classDistances =
      (List.range s.numClasses).map (fun i => score (s.discreteModels.getD i E.dNew)) := by
    rw [discreteDecision_classDistances]
    exact (discreteScoreLoop_spec E score s hd hl).1
  have hmax := runningMaximum_partial (fun i => score (s.discreteModels.getD i E.dNew))
    s.bestDistance (discreteScoreBody E score s)
    (discreteScoreBody_bestDistance E score s) (discreteScoreBody_bestIndex E score s)
    { classDistances := s.classDistances
      classLikelihoods := s.classLikelihoods
      bestDistance := s.bestDistance
      bestIndex := 0
      sum := 0 } rfl rfl s.numClasses
  have hloop : forLoop s.numClasses (discreteScoreBody E score s)
      { classDistances := s.classDistances
        classLikelihoods := s.classLikelihoods
        bestDistance := s.bestDistance
        bestIndex := 0
        sum := 0 } = discreteScoreLoop E score s := rfl
  rw [hloop] at hmax
  obtain ⟨hA, hB⟩ := hmax
  rw [discreteDecision_bestDistance, hcd]
  constructor
  · rintro ⟨k, hk, hgt⟩
    rw [getD_map_range _ _ _ hk] at hgt
    obtain ⟨b1, b2, _, b4, b5⟩ := hB ⟨k, hk, hgt⟩
    refine ⟨⟨?_, ?_, ?_⟩, ?_⟩
    · rw [List.length_map, List.length_range]
      exact b1
    · intro i hi
      rw [List.length_map, List.length_range] at hi
      rw [getD_map_range _ _ _ hi, getD_map_range _ _ _ b1]
      exact b4 i hi
    · intro i hi
      rw [getD_map_range _ _ _ (lt_trans hi b1), getD_map_range _ _ _ b1]
      exact b5 i hi
    · rw [getD_map_range _ _ _ b1]
      exact b2
  · intro hall
    exact (hA (fun i hi => by
      have := hall i hi
      rw [getD_map_range _ _ _ hi] at this
      exact this)).symm

theorem discreteDecision_best_start (E : Collaborators α DM CM) (score : DM → α)
    (s0 : HMM α DM CM) :
    ((∃ k, k < s0.numClasses ∧
        -(99 * 10 ^ 99) <
          (discreteDecision E score (discreteStart s0)).2.classDistances.getD k 0) →
      isFirstMaxIndex (discreteDecision E score (discreteStart s0)).2.classDistances
        (discreteScoreLoop E score (discreteStart s0)).bestIndex ∧
      (discreteDecision E score (discreteStart s0)).2.bestDistance =
        (discreteDecision E score (discreteStart s0)).2.classDistances.getD
          (discreteScoreLoop E score (discreteStart s0)).bestIndex 0) ∧
    ((∀ k, k < s0.numClasses →
        (discreteDecision E score (discreteStart s0)).2.classDistances.getD k 0
          ≤ -(99 * 10 ^ 99)) →
      (discreteScoreLoop E score (discreteStart s0)).bestIndex = 0 ∧
      (discreteDecision E score (discreteStart s0)).2.bestDistance = -(99 * 10 ^ 99)) := by
  have hn : (discreteStart s0).numClasses = s0.numClasses := resizeBuffers_numClasses s0
  have hd : (discreteStart s0).classDistances.length = (discreteStart s0).numClasses := by
    rw [hn]; exact resizeBuffers_classDistances_length s0
  have hl : (discreteStart s0).classLikelihoods.length = (discreteStart s0).numClasses := by
    rw [hn]; exact resizeBuffers_classLikelihoods_length s0
  have h := discreteDecision_best E score (discreteStart s0) hd hl
  rw [hn] at h
  exact h

/-- C20, as stated, fails: in `belowSentinelClassifier` the two classes score
the symbol 0 with `-10^102` and `-10^101`; the greatest distance is at index 1,
but no distance exceeds the start value `-99e+99`, so the successful
prediction leaves `bestIndex` at 0 (the label of class 0 is predicted) and
`bestDistance` at `-99e+99`. -/
theorem best_index_counterexample :
    (predict_discrete (tableCollaborators id true) belowSentinelClassifier [0]).1 = true ∧
    (predict_discrete (tableCollaborators id true) belowSentinelClassifier [0]).2.classDistances
      = [-(10 ^ 102), -(10 ^ 101)] ∧
    vectorBestIndex (tableCollaborators id true) belowSentinelClassifier [0] = 0 ∧
    (predict_discrete (tableCollaborators id true) belowSentinelClassifier
      [0]).2.predictedClassLabel = 7 ∧
    (predict_discrete (tableCollaborators id true) belowSentinelClassifier [0]).2.bestDistance
      = -(99 * 10 ^ 99) ∧
    ¬ (isFirstMaxIndex
        (predict_discrete (tableCollaborators id true) belowSentinelClassifier
          [0]).2.classDistances
        (vectorBestIndex (tableCollaborators id true) belowSentinelClassifier [0]) ∧
      (predict_discrete (tableCollaborators id true) belowSentinelClassifier [0]).2.bestDistance
        = (predict_discrete (tableCollaborators id true) belowSentinelClassifier
            [0]).2.classDistances.getD
            (vectorBestIndex (tableCollaborators id true) belowSentinelClassifier [0]) 0) := by
  unfold isFirstMaxIndex
  decide!

/-- C20, amended: in a successful discrete prediction (vector or time series)
in which the distance of at least one class exceeds `-99e+99`, the start value
of `bestDistance`, the best class index is the smallest index whose distance
`classDistances[k]` is the maximum over all classes, and `bestDistance` equals
that maximum; if no distance exceeds the start value, the index is 0 and
`bestDistance` keeps the start value. -/
theorem best_index_is_first_maximum (E : Collaborators α DM CM) (s : HMM α DM CM) (v : List α)
    (ts : MatrixDouble α) :
    ((predict_discrete E s v).1 = true →
      ((∃ k, k < s.numClasses ∧
          -(99 * 10 ^ 99) < (predict_discrete E s v).2.classDistances.getD k 0) →
        isFirstMaxIndex (predict_discrete E s v).2.classDistances (vectorBestIndex E s v) ∧
        (predict_discrete E s v).2.bestDistance =
          (predict_discrete E s v).2.classDistances.getD (vectorBestIndex E s v) 0) ∧
      ((∀ k, k < s.numClasses →
          (predict_discrete E s v).2.classDistances.getD k 0 ≤ -(99 * 10 ^ 99)) →
        vectorBestIndex E s v = 0 ∧
        (predict_discrete E s v).2.bestDistance = -(99 * 10 ^ 99))) ∧
    ((predict_discrete_timeseries E s ts).1 = true →
      ((∃ k, k < s.numClasses ∧
          -(99 * 10 ^ 99) < (predict_discrete_timeseries E s ts).2.classDistances.getD k 0) →
        isFirstMaxIndex (predict_discrete_timeseries E s ts).2.classDistances
          (timeseriesBestIndex E s ts) ∧
        (predict_discrete_timeseries E s ts).2.bestDistance =
          (predict_discrete_timeseries E s ts).2.classDistances.getD
            (timeseriesBestIndex E s ts) 0) ∧
      ((∀ k, k < s.numClasses →
          (predict_discrete_timeseries E s ts).2.classDistances.getD k 0 ≤ -(99 * 10 ^ 99)) →
        timeseriesBestIndex E s ts = 0 ∧
        (predict_discrete_timeseries E s ts).2.bestDistance = -(99 * 10 ^ 99))) := by
  constructor
  · intro h
    rw [predict_discrete_eq_decision E s v h]
    exact discreteDecision_best_start E (symbolScore E v)
      { s with predictedClassLabel := 0, maxLikelihood := -10000 }
  · intro h
    rw [predict_discrete_timeseries_eq_decision E s ts h]
    exact discreteDecision_best_start E (sequenceScore E s ts) s

/-- Witness for C20 (amended): `exampleDiscrete` scores the symbol 1 with the
distances `[-1, 0]`; the best index is 1, the first index of the maximum 0. -/
theorem best_index_is_first_maximum_witness :
    (predict_discrete (tableCollaborators id true) exampleDiscrete [1]).2.classDistances
      = [-1, 0] ∧
    vectorBestIndex (tableCollaborators id true) exampleDiscrete [1] = 1 ∧
    (isFirstMaxIndex
        (predict_discrete (tableCollaborators id true) exampleDiscrete [1]).2.classDistances
        (vectorBestIndex (tableCollaborators id true) exampleDiscrete [1]) ∧
      (predict_discrete (tableCollaborators id true) exampleDiscrete [1]).2.bestDistance =
        (predict_discrete (tableCollaborators id true) exampleDiscrete
          [1]).2.classDistances.getD
          (vectorBestIndex (tableCollaborators id true) exampleDiscrete [1]) 0) :=
  ⟨by decide!, by decide!,
   ((best_index_is_first_maximum (tableCollaborators id true) exampleDiscrete [1]
      ⟨1, [[1]]⟩).1 (by decide!)).1 ⟨1, by decide!, by decide!⟩⟩

/-! ## The conversion to observation sequences -/

theorem convertDataToObservationSequence_eq (E : Collaborators α DM CM) (s : HMM α DM CM)
    (cd : TimeSeriesClassificationData α) (o : List (List Nat)) :
    convertDataToObservationSequence E s cd o =
      forLoopE (List.range cd.getNumSamples) (convertSample E s cd)
        (resize o cd.getNumSamples []) := rfl

/-- The state of a loop with early exit that ran to its end is the state of
the loop without exit checks. -/
theorem forLoopE_eq_foldl {σ : Type} (body : Nat → σ → Bool × σ) :
    ∀ (ks : List Nat) (st st1 : σ), forLoopE ks body st = (true, st1) →
      st1 = ks.foldl (fun st k => (body k st).2) st := by
  intro ks
  induction ks with
  | nil =>
    intro st st1 h
    simp only [forLoopE, Prod.mk.injEq, true_and] at h
    rw [List.foldl_nil]
    exact h.symm
  | cons k ks ih =>
    intro st st1 h
    unfold forLoopE at h
    rcases hb : body k st with ⟨b, st2⟩
    rw [hb] at h
    cases b
    · exact absurd (congrArg Prod.fst h) (by simp)
    · rw [List.foldl_cons, hb]
      exact ih st2 st1 h

theorem forLoopE_range_eq_forLoop {σ : Type} (body : Nat → σ → Bool × σ) (n : Nat) (st st1 : σ)
    (h : forLoopE (List.range n) body st = (true, st1)) :
    st1 = forLoop n (fun k st => (body k st).2) st :=
  forLoopE_eq_foldl body (List.range n) st st1 h

/-- Two loop bodies that agree on the indices of the loop and on the states
of an invariant give the same loop. -/
theorem forLoop_congr_inv {σ : Type} (P : σ → Prop) (b1 b2 : Nat → σ → σ) (n : Nat)
    (hP : ∀ k st, k < n → P st → P (b2 k st))
    (h : ∀ k st, k < n → P st → b1 k st = b2 k st) (init : σ) (h0 : P init) :
    forLoop n b1 init = forLoop n b2 init ∧ P (forLoop n b2 init) := by
  induction n with
  | zero => exact ⟨rfl, h0⟩
  | succ n ih =>
    obtain ⟨e, p⟩ := ih (fun k st hk => hP k st (Nat.lt_succ_of_lt hk))
      (fun k st hk => h k st (Nat.lt_succ_of_lt hk))
    rw [forLoop_succ, forLoop_succ, e]
    exact ⟨h n _ (Nat.lt_succ_self n) p, hP n _ (Nat.lt_succ_self n) p⟩

theorem convertValue_fst (E : Collaborators α DM CM) (s : HMM α DM CM) (ts : MatrixDouble α)
    (i j : Nat) (obs : List (List Nat)) :
    (convertValue E s ts i j obs).1 = true ↔ ts.elem j 0 < (s.numSymbols : α) := by
  unfold convertValue
  split_ifs with h
  · exact ⟨fun h1 => absurd h1 (by simp), fun h1 => absurd h (not_le.mpr h1)⟩
  · exact ⟨fun _ => not_le.mp h, fun _ => rfl⟩

theorem convertValue_length (E : Collaborators α DM CM) (s : HMM α DM CM) (ts : MatrixDouble α)
    (i j : Nat) (obs : List (List Nat)) :
    (convertValue E s ts i j obs).2.length = obs.length := by
  unfold convertValue
  split_ifs
  · rfl
  · exact List.length_set _ _ _

theorem convertSample_fst (E : Collaborators α DM CM) (s : HMM α DM CM)
    (cd : TimeSeriesClassificationData α) (i : Nat) (obs : List (List Nat)) :
    (convertSample E s cd i obs).1 = true ↔
      ∀ j, j < (cd.sampleAt i).data.getNumRows →
        (cd.sampleAt i).data.elem j 0 < (s.numSymbols : α) := by
  unfold convertSample
  rw [forLoopE_true_iff (fun _ => True)
    (fun j => (cd.sampleAt i).data.elem j 0 < (s.numSymbols : α))
    (convertValue E s (cd.sampleAt i).data i) _ _
    (fun k st _ _ => ⟨convertValue_fst E s _ i k st, trivial⟩) trivial]
  constructor
  · intro h j hj; exact h j (List.mem_range.mpr hj)
  · intro h j hj; exact h j (List.mem_range.mp hj)

theorem convertSample_length (E : Collaborators α DM CM) (s : HMM α DM CM)
    (cd : TimeSeriesClassificationData α) (i : Nat) (obs : List (List Nat)) :
    (convertSample E s cd i obs).2.length = obs.length := by
  unfold convertSample
  rw [forLoopE_proj (fun o : List (List Nat) => o.length) _
    (convertValue_length E s (cd.sampleAt i).data i)]
  exact List.length_set _ _ _

/-- The loop that stores the symbols of one sequence, in terms of the row. -/
theorem rowLoop_eq (w : Nat → Nat) (i : Nat) (obs : List (List Nat)) (hi : i < obs.length)
    (k : Nat) :
    forLoop k (fun j (o : List (List Nat)) => o.set i ((o.getD i []).set j (w j))) obs =
      obs.set i (forLoop k (fun j (row : List Nat) => row.set j (w j)) (obs.getD i [])) := by
  induction k with
  | zero =>
    rw [forLoop_zero, forLoop_zero]
    apply List.ext_getElem?
    intro n
    by_cases hn : i = n
    · subst hn
      rw [List.getElem?_set_self hi, List.getD_eq_getElem?_getD, List.getElem?_eq_getElem hi]
      rfl
    · rw [List.getElem?_set_ne hn]
  | succ k ih =>
    rw [forLoop_succ, forLoop_succ, ih, getD_set_self _ _ _ _ hi, List.set_set]

theorem forLoop_set_const {β : Type} (w : Nat → β) (n : Nat) (l : List β) (h : l.length = n) :
    forLoop n (fun j (row : List β) => row.set j (w j)) l = (List.range n).map w := by
  have hp : ∀ i, (forLoop n (fun j (row : List β) => row.set j (w j)) l)[i]? =
      if i < n then (l[i]?).map (fun _ => w i) else l[i]? := by
    intro i
    induction n generalizing l with
    | zero => simp [forLoop_zero]
    | succ n _ =>
      cases l with
      | nil => simp at h
      | cons a l =>
        exact forLoop_set_getElem? (fun j _ => w j) a (n + 1) (a :: l) i
  exact eq_map_range_of_getElem? (fun i => i) w n l _ h hp

theorem convertSample_snd (E : Collaborators α DM CM) (s : HMM α DM CM)
    (cd : TimeSeriesClassificationData α) (i : Nat) (obs : List (List Nat))
    (hi : i < obs.length) (h : (convertSample E s cd i obs).1 = true) :
    (convertSample E s cd i obs).2 = obs.set i (symbolsOf E (cd.sampleAt i).data) := by
  have hc := (convertSample_fst E s cd i obs).mp h
  unfold convertSample at h ⊢
  rcases hr : forLoopE (List.range (cd.sampleAt i).data.getNumRows)
      (convertValue E s (cd.sampleAt i).data i)
      (obs.set i (resize (obs.getD i []) (cd.sampleAt i).data.getNumRows 0)) with ⟨b, o1⟩
  rw [hr] at h
  dsimp only at h ⊢
  subst h
  rw [forLoopE_range_eq_forLoop _ _ _ _ hr]
  have hcongr := (forLoop_congr_inv (fun _ : List (List Nat) => True)
    (fun k st => (convertValue E s (cd.sampleAt i).data i k st).2)
    (fun j o => o.set i ((o.getD i []).set j (E.toUINT ((cd.sampleAt i).data.elem j 0))))
    (cd.sampleAt i).data.getNumRows (fun _ _ _ _ => trivial)
    (fun k st hk _ => by
      unfold convertValue
      dsimp only
      rw [if_neg (not_le.mpr (hc k hk))])
    (obs.set i (resize (obs.getD i []) (cd.sampleAt i).data.getNumRows 0)) trivial).1
  rw [hcongr]
  have hi2 : i < (obs.set i (resize (obs.getD i []) (cd.sampleAt i).data.getNumRows 0)).length := by
    rw [List.length_set]; exact hi
  rw [rowLoop_eq (fun j => E.toUINT ((cd.sampleAt i).data.elem j 0)) i _ hi2,
    getD_set_self _ _ _ _ hi, List.set_set,
    forLoop_set_const _ _ _ (resize_length _ _ _)]
  rfl

theorem sampleAt_forall (cd : TimeSeriesClassificationData α)
    (Q : TimeSeriesClassificationSample α → Prop) :
    (∀ i, i < cd.getNumSamples → Q (cd.sampleAt i)) ↔ ∀ x, x ∈ cd.data → Q x := by
  unfold TimeSeriesClassificationData.getNumSamples TimeSeriesClassificationData.sampleAt
  constructor
  · intro h x hx
    obtain ⟨i, hi, hxi⟩ := List.getElem_of_mem hx
    have := h i hi
    rw [List.getD_eq_getElem _ _ hi, hxi] at this
    exact this
  · intro h i hi
    rw [List.getD_eq_getElem _ _ hi]
    exact h _ (List.getElem_mem hi)

/-- The conversion succeeds exactly when every value of every sample is below
`numSymbols`. -/
theorem convertDataToObservationSequence_fst (E : Collaborators α DM CM) (s : HMM α DM CM)
    (cd : TimeSeriesClassificationData α) (o : List (List Nat)) :
    (convertDataToObservationSequence E s cd o).1 = true ↔
      ∀ x, x ∈ cd.data → ∀ j, j < x.data.getNumRows → x.data.elem j 0 < (s.numSymbols : α) := by
  rw [convertDataToObservationSequence_eq,
    forLoopE_true_iff (fun _ => True)
      (fun i => ∀ j, j < (cd.sampleAt i).data.getNumRows →
        (cd.sampleAt i).data.elem j 0 < (s.numSymbols : α))
      (convertSample E s cd) _ _
      (fun k st _ _ => ⟨convertSample_fst E s cd k st, trivial⟩) trivial,
    ← sampleAt_forall cd
      (fun x => ∀ j, j < x.data.getNumRows → x.data.elem j 0 < (s.numSymbols : α))]
  constructor
  · intro h i hi; exact h i (List.mem_range.mpr hi)
  · intro h i hi; exact h i (List.mem_range.mp hi)

/-- Whatever the result, the output parameter has one entry per sample when
the conversion returns. -/
theorem convertDataToObservationSequence_length (E : Collaborators α DM CM) (s : HMM α DM CM)
    (cd : TimeSeriesClassificationData α) (o : List (List Nat)) :
    (convertDataToObservationSequence E s cd o).2.length = cd.getNumSamples := by
  rw [convertDataToObservationSequence_eq,
    forLoopE_proj (fun o : List (List Nat) => o.length) _ (convertSample_length E s cd)]
  exact resize_length _ _ _

/-- The output of a successful conversion. -/
theorem convertDataToObservationSequence_snd (E : Collaborators α DM CM) (s : HMM α DM CM)
    (cd : TimeSeriesClassificationData α) (o : List (List Nat))
    (h : (convertDataToObservationSequence E s cd o).1 = true) :
    (convertDataToObservationSequence E s cd o).2 = observationSequencesOf E cd := by
  have hc := (convertDataToObservationSequence_fst E s cd o).mp h
  have hc2 := (sampleAt_forall cd
    (fun x => ∀ j, j < x.data.getNumRows → x.data.elem j 0 < (s.numSymbols : α))).mpr hc
  rw [convertDataToObservationSequence_eq] at h ⊢
  rcases hr : forLoopE (List.range cd.getNumSamples) (convertSample E s cd)
      (resize o cd.getNumSamples []) with ⟨b, o1⟩
  rw [hr] at h
  dsimp only at h ⊢
  subst h
  rw [forLoopE_range_eq_forLoop _ _ _ _ hr]
  have hcongr := (forLoop_congr_inv (fun st : List (List Nat) => st.length = cd.getNumSamples)
    (fun k st => (convertSample E s cd k st).2)
    (fun i st => st.set i (symbolsOf E (cd.sampleAt i).data))
    cd.getNumSamples
    (fun k st _ hst => by dsimp only at hst ⊢; rw [List.length_set]; exact hst)
    (fun k st hk hst =>
      convertSample_snd E s cd k st (by dsimp only at hst; rw [hst]; exact hk)
        ((convertSample_fst E s cd k st).mpr (hc2 k hk)))
    (resize o cd.getNumSamples []) (resize_length _ _ _)).1
  rw [hcongr, forLoop_set_const _ _ _ (resize_length _ _ _)]
  unfold observationSequencesOf TimeSeriesClassificationData.getNumSamples
    TimeSeriesClassificationData.sampleAt
  exact map_range_getD (fun x : TimeSeriesClassificationSample α => symbolsOf E x.data) _ cd.data

/-- The symbols of a successful conversion are below `numSymbols` when the
conversion to `UINT` truncates and the values are not negative. -/
theorem observationSequencesOf_lt (E : Collaborators α DM CM) (s : HMM α DM CM)
    (cd : TimeSeriesClassificationData α) (o : List (List Nat))
    (h : (convertDataToObservationSequence E s cd o).1 = true)
    (htrunc : ∀ x : α, 0 ≤ x → (E.toUINT x : α) ≤ x)
    (hnn : ∀ x, x ∈ cd.data → ∀ j, j < x.data.getNumRows → 0 ≤ x.data.elem j 0) :
    ∀ q, q ∈ observationSequencesOf E cd → ∀ y, y ∈ q → y < s.numSymbols := by
  have hc := (convertDataToObservationSequence_fst E s cd o).mp h
  intro q hq y hy
  unfold observationSequencesOf at hq
  obtain ⟨x, hx, hxq⟩ := List.mem_map.mp hq
  subst hxq
  unfold symbolsOf at hy
  obtain ⟨j, hj, hjy⟩ := List.mem_map.mp hy
  subst hjy
  have hj2 := List.mem_range.mp hj
  have h1 := htrunc _ (hnn x hx j hj2)
  have h2 := hc x hx j hj2
  exact Nat.cast_lt.mp (lt_of_le_of_lt h1 h2)

/-- C15, as stated, fails: converting `outOfRangeData`, whose only value 25 is
not below `numSymbols = 20`, into an empty `observationSequences` returns
failure and leaves the partial output `[[0]]` in the caller's vector. -/
theorem convert_partial_output_counterexample :
    (convertDataToObservationSequence (tableCollaborators id true)
      (new HMM_DISCRETE HMM_ERGODIC 1 false false : HMM ℚ (List ℚ) (Nat × ℚ))
      outOfRangeData []).1 = false ∧
    (convertDataToObservationSequence (tableCollaborators id true)
      (new HMM_DISCRETE HMM_ERGODIC 1 false false : HMM ℚ (List ℚ) (Nat × ℚ))
      outOfRangeData []).2 = [[0]] ∧
    ¬ ((convertDataToObservationSequence (tableCollaborators id true)
      (new HMM_DISCRETE HMM_ERGODIC 1 false false : HMM ℚ (List ℚ) (Nat × ℚ))
      outOfRangeData []).2 = []) := by
  decide!

/-- C15, amended: `convertDataToObservationSequence` returns failure if and
only if some value of the class data is `>= numSymbols`; whatever it returns,
the caller's `observationSequences` has been resized to one entry per sample
(on failure it holds the partial output); on success it holds one sequence
per sample, of the sample's length, whose `j`-th symbol is the `j`-th value
converted to `UINT`, and every symbol is `< numSymbols` when the conversion
truncates non-negative values and no value is negative. -/
theorem convert_observation_sequences (E : Collaborators α DM CM) (s : HMM α DM CM)
    (cd : TimeSeriesClassificationData α) (o : List (List Nat)) :
    ((convertDataToObservationSequence E s cd o).1 = false ↔ hasValueOutOfRange s cd) ∧
    (convertDataToObservationSequence E s cd o).2.length = cd.getNumSamples ∧
    ((convertDataToObservationSequence E s cd o).1 = true →
      (convertDataToObservationSequence E s cd o).2 = observationSequencesOf E cd ∧
      ((∀ x : α, 0 ≤ x → (E.toUINT x : α) ≤ x) →
        (∀ x, x ∈ cd.data → ∀ j, j < x.data.getNumRows → 0 ≤ x.data.elem j 0) →
        ∀ q, q ∈ observationSequencesOf E cd → ∀ y, y ∈ q → y < s.numSymbols)) := by
  refine ⟨?_, convertDataToObservationSequence_length E s cd o, fun h =>
    ⟨convertDataToObservationSequence_snd E s cd o h, observationSequencesOf_lt E s cd o h⟩⟩
  have h := convertDataToObservationSequence_fst E s cd o
  unfold hasValueOutOfRange
  constructor
  · intro hf
    by_contra hc
    push_neg at hc
    have := h.mpr hc
    rw [hf] at this
    exact Bool.noConfusion this
  · rintro ⟨x, hx, j, hj, hge⟩
    rcases hb : (convertDataToObservationSequence E s cd o).1 with _ | _
    · rfl
    · exact absurd (h.mp hb x hx j hj) (not_lt.mpr hge)

/-- The conversion to `UINT` of the concrete collaborators truncates
non-negative values. -/
theorem tableCollaborators_truncates {β : Type} [LinearOrderedField β] [FloorRing β]
    (antilog : β → β) (fitOk : Bool) (x : β) (hx : 0 ≤ x) :
    (((tableCollaborators antilog fitOk).toUINT x : Nat) : β) ≤ x := by
  have h1 : ((⌊x⌋.toNat : ℤ)) = ⌊x⌋ := Int.toNat_of_nonneg (Int.floor_nonneg.mpr hx)
  have h2 : ((⌊x⌋.toNat : Nat) : β) = ((⌊x⌋ : ℤ) : β) := by
    rw [← h1]
    exact (Int.cast_natCast _).symm
  show ((⌊x⌋.toNat : Nat) : β) ≤ x
  rw [h2]
  exact Int.floor_le x

/-- Witness for C15 (amended): the data of class 7 of `exampleData`, the one
sample with the values 0, 1, 0, converts to the sequence `[0, 1, 0]`. -/
theorem convert_observation_sequences_witness :
    (convertDataToObservationSequence (tableCollaborators id true)
      (new HMM_DISCRETE HMM_ERGODIC 1 false false : HMM ℚ (List ℚ) (Nat × ℚ))
      (exampleData.getClassData 7) []).1 = true ∧
    (convertDataToObservationSequence (tableCollaborators id true)
      (new HMM_DISCRETE HMM_ERGODIC 1 false false : HMM ℚ (List ℚ) (Nat × ℚ))
      (exampleData.getClassData 7) []).2 = [[0, 1, 0]] ∧
    (convertDataToObservationSequence (tableCollaborators id true)
      (new HMM_DISCRETE HMM_ERGODIC 1 false false : HMM ℚ (List ℚ) (Nat × ℚ))
      (exampleData.getClassData 7) []).2 =
      observationSequencesOf (tableCollaborators id true)
        ((exampleData : TimeSeriesClassificationData ℚ).getClassData 7) ∧
    1 < (new HMM_DISCRETE HMM_ERGODIC 1 false false : HMM ℚ (List ℚ) (Nat × ℚ)).numSymbols :=
  ⟨by decide!, by decide!,
   ((convert_observation_sequences (tableCollaborators id true)
      (new HMM_DISCRETE HMM_ERGODIC 1 false false : HMM ℚ (List ℚ) (Nat × ℚ))
      (exampleData.getClassData 7) []).2.2 (by decide!)).1,
   ((convert_observation_sequences (tableCollaborators id true)
      (new HMM_DISCRETE HMM_ERGODIC 1 false false : HMM ℚ (List ℚ) (Nat × ℚ))
      (exampleData.getClassData 7) []).2.2 (by decide!)).2
      (tableCollaborators_truncates id true) (by decide!) [0, 1, 0] (by decide!) 1
      (by decide!)⟩

/-! ## The null-rejection thresholds of the discrete training -/

theorem train_discrete_eq (E : Collaborators α DM CM) (s : HMM α DM CM)
    (d : TimeSeriesClassificationData α) (h1 : d.getNumSamples ≠ 0)
    (h2 : d.getNumDimensions = 1) :
    train_discrete E s d =
      match forLoopE (List.range d.getNumClasses) (trainDiscreteModel E d)
          (discreteTrainingStart E s d) with
      | (false, s1) => (false, s1)
      | (true, s1) =>
        match forLoopE (List.range s1.numClasses) (computeThreshold E d)
            { s1 with
              nullRejectionThresholds := resize s1.nullRejectionThresholds s1.numClasses 0 } with
        | (false, s2) => (false, s2)
        | (true, s2) => (true, { s2 with trained := true }) := by
  unfold train_discrete
  dsimp only
  rw [if_neg h1, if_neg (not_not.mpr h2)]
  rfl

/-- A successful `train_discrete` ran both loops to their end. -/
theorem train_discrete_success (E : Collaborators α DM CM) (s : HMM α DM CM)
    (d : TimeSeriesClassificationData α) (h : (train_discrete E s d).1 = true) :
    ∃ s1 s2 : HMM α DM CM,
      forLoopE (List.range d.getNumClasses) (trainDiscreteModel E d)
        (discreteTrainingStart E s d) = (true, s1) ∧
      forLoopE (List.range s1.numClasses) (computeThreshold E d)
        { s1 with nullRejectionThresholds := resize s1.nullRejectionThresholds s1.numClasses 0 }
        = (true, s2) ∧
      train_discrete E s d = (true, { s2 with trained := true }) := by
  by_cases h1 : d.getNumSamples = 0
  · rw [train_discrete_empty E s d h1] at h
    exact Bool.noConfusion h
  · by_cases h2 : d.getNumDimensions = 1
    · rw [train_discrete_eq E s d h1 h2] at h ⊢
      rcases hr1 : forLoopE (List.range d.getNumClasses) (trainDiscreteModel E d)
          (discreteTrainingStart E s d) with ⟨b1, s1⟩
      rw [hr1] at h
      cases b1
      · exact Bool.noConfusion h
      · dsimp only at h ⊢
        rcases hr2 : forLoopE (List.range s1.numClasses) (computeThreshold E d)
            { s1 with
              nullRejectionThresholds := resize s1.nullRejectionThresholds s1.numClasses 0 }
            with ⟨b2, s2⟩
        rw [hr2] at h
        cases b2
        · exact Bool.noConfusion h
        · exact ⟨s1, s2, rfl, hr2, rfl⟩
    · exfalso
      unfold train_discrete at h
      dsimp only at h
      rw [if_neg h1, if_pos h2] at h
      exact Bool.noConfusion h

/-- A loop with early exit keeps every property that its body keeps at the
indices of the loop. -/
theorem forLoopE_inv_mem {σ : Type} (R : σ → Prop) (body : Nat → σ → Bool × σ) :
    ∀ (ks : List Nat) (st : σ), (∀ k, k ∈ ks → ∀ st, R st → R (body k st).2) → R st →
      R (forLoopE ks body st).2 := by
  intro ks
  induction ks with
  | nil => intro st _ hst; exact hst
  | cons k ks ih =>
    intro st h hst
    have hk := h k (List.mem_cons_self k ks) st hst
    unfold forLoopE
    rcases hb : body k st with ⟨b, st1⟩
    rw [hb] at hk
    cases b
    · exact hk
    · exact ih st1 (fun j hj => h j (List.mem_cons_of_mem k hj)) hk

/-- After a loop over distinct indices that ran to its end, every index has
the property its iteration establishes, provided the other iterations keep
it. -/
theorem forLoopE_forall {σ : Type} (P : σ → Prop) (Q : Nat → σ → Prop)
    (body : Nat → σ → Bool × σ)
    (hP : ∀ k st, P st → P (body k st).2)
    (hQ : ∀ k st, P st → (body k st).1 = true → Q k (body k st).2)
    (hkeep : ∀ j k st, j ≠ k → P st → Q j st → Q j (body k st).2) :
    ∀ (ks : List Nat) (st st1 : σ), ks.Nodup → P st → forLoopE ks body st = (true, st1) →
      ∀ k, k ∈ ks → Q k st1 := by
  intro ks
  induction ks with
  | nil => intro st st1 _ _ _ k hk; simp at hk
  | cons j ks ih =>
    intro st st1 hnd hst h k hk
    have hj : j ∉ ks := (List.nodup_cons.mp hnd).1
    have hnd2 : ks.Nodup := (List.nodup_cons.mp hnd).2
    unfold forLoopE at h
    have hP2 := hP j st hst
    have hQ2 := hQ j st hst
    rcases hb : body j st with ⟨b, st2⟩
    rw [hb] at h hP2 hQ2
    cases b
    · exact absurd (congrArg Prod.fst h) (by simp)
    · dsimp only at h hP2 hQ2
      rcases List.mem_cons.mp hk with hkj | hkj
      · subst hkj
        have hR := forLoopE_inv_mem (fun x => P x ∧ Q k x) body ks st2
          (fun i hi x hx =>
            ⟨hP i x hx.1, hkeep k i x (fun e => hj (e ▸ hi)) hx.1 hx.2⟩)
          ⟨hP2, hQ2 rfl⟩
        rw [h] at hR
        exact hR.2
      · exact ih st2 st1 hnd2 hP2 h k hkj

theorem forLoop_sum (g : Nat → α) (n : Nat) (a : α) :
    forLoop n (fun i acc => acc + g i) a = a + ((List.range n).map g).sum := by
  induction n with
  | zero => simp [forLoop_zero]
  | succ n ih =>
    rw [forLoop_succ, ih, List.range_succ, List.map_append, List.sum_append]
    simp [add_assoc]

theorem sumAbsLoglikelihood_eq (E : Collaborators α DM CM) (m : DM) (seqs : List (List Nat)) :
    sumAbsLoglikelihood E m seqs = (seqs.map (fun q => |E.dPredictSeq m q|)).sum := by
  unfold sumAbsLoglikelihood
  rw [forLoop_sum (fun i => |E.dPredictSeq m (seqs.getD i [])|), zero_add]
  exact congrArg List.sum (map_range_getD (fun q => |E.dPredictSeq m q|) [] seqs)

theorem trainDiscreteModel_numClasses (E : Collaborators α DM CM)
    (d : TimeSeriesClassificationData α) (k : Nat) (s : HMM α DM CM) :
    (trainDiscreteModel E d k s).2.numClasses = s.numClasses := by
  unfold trainDiscreteModel
  dsimp only
  split
  · rfl
  · split <;> rfl

theorem trainDiscreteModel_nullRejectionThresholds (E : Collaborators α DM CM)
    (d : TimeSeriesClassificationData α) (k : Nat) (s : HMM α DM CM) :
    (trainDiscreteModel E d k s).2.nullRejectionThresholds = s.nullRejectionThresholds := by
  unfold trainDiscreteModel
  dsimp only
  split
  · rfl
  · split <;> rfl

theorem computeThreshold_numSymbols (E : Collaborators α DM CM)
    (d : TimeSeriesClassificationData α) (k : Nat) (s : HMM α DM CM) :
    (computeThreshold E d k s).2.numSymbols = s.numSymbols := by
  unfold computeThreshold
  dsimp only
  split <;> rfl

theorem computeThreshold_length (E : Collaborators α DM CM)
    (d : TimeSeriesClassificationData α) (k : Nat) (s : HMM α DM CM) :
    (computeThreshold E d k s).2.nullRejectionThresholds.length =
      s.nullRejectionThresholds.length := by
  unfold computeThreshold
  dsimp only
  split
  · rfl
  · exact List.length_set _ _ _

theorem computeThreshold_getElem?_ne (E : Collaborators α DM CM)
    (d : TimeSeriesClassificationData α) {j k : Nat} (hjk : k ≠ j) (s : HMM α DM CM) :
    (computeThreshold E d k s).2.nullRejectionThresholds[j]? = s.nullRejectionThresholds[j]? := by
  unfold computeThreshold
  dsimp only
  split
  · rfl
  · exact List.getElem?_set_ne hjk

/-- A successful iteration of the threshold loop stores the negated average of
the absolute scores of the class's training sequences. -/
theorem computeThreshold_value (E : Collaborators α DM CM) (d : TimeSeriesClassificationData α)
    (k : Nat) (s : HMM α DM CM) (hk : k < s.nullRejectionThresholds.length)
    (h : (computeThreshold E d k s).1 = true) :
    (computeThreshold E d k s).2.nullRejectionThresholds[k]? =
      some (-(averageAbsScore E (s.discreteModels.getD k E.dNew) (classSequences E d k))) := by
  unfold computeThreshold at h ⊢
  dsimp only at h ⊢
  rcases hr : convertDataToObservationSequence E
      { s with classLabels := s.classLabels.set k (d.classLabelAt k) }
      (d.getClassData (d.classLabelAt k)) [] with ⟨b, obs⟩
  rw [hr] at h
  cases b
  · exact Bool.noConfusion h
  · dsimp only
    have ho : obs = observationSequencesOf E (d.getClassData (d.classLabelAt k)) := by
      have := convertDataToObservationSequence_snd E
        { s with classLabels := s.classLabels.set k (d.classLabelAt k) }
        (d.getClassData (d.classLabelAt k)) [] (by rw [hr])
      rw [hr] at this
      exact this
    rw [List.getElem?_set_self hk, sumAbsLoglikelihood_eq, ho]
    rfl

/-- After a successful `train_discrete` the threshold of every class is the
negated average absolute score of the class's training sequences under the
class's fitted model. -/
theorem train_discrete_thresholds (E : Collaborators α DM CM) (s : HMM α DM CM)
    (d : TimeSeriesClassificationData α) (h : (train_discrete E s d).1 = true) (k : Nat)
    (hk : k < d.getNumClasses) :
    (train_discrete E s d).2.nullRejectionThresholds.getD k 0 =
      -(averageAbsScore E ((train_discrete E s d).2.discreteModels.getD k E.dNew)
          (classSequences E d k)) := by
  obtain ⟨s1, s2, hr1, hr2, he⟩ := train_discrete_success E s d h
  rw [he]
  dsimp only
  have hn : s1.numClasses = d.getNumClasses :=
    forLoopE_proj_eq (fun x : HMM α DM CM => x.numClasses) _
      (trainDiscreteModel_numClasses E d) hr1
  have hm := forLoopE_proj_eq (fun x : HMM α DM CM => x.discreteModels) _
    (computeThreshold_discreteModels E d) hr2
  dsimp only at hm
  have hall := forLoopE_forall
    (fun st : HMM α DM CM => st.discreteModels = s1.discreteModels ∧
      st.nullRejectionThresholds.length = s1.numClasses)
    (fun j (st : HMM α DM CM) => j < s1.numClasses →
      st.nullRejectionThresholds[j]? =
        some (-(averageAbsScore E (s1.discreteModels.getD j E.dNew) (classSequences E d j))))
    (computeThreshold E d)
    (fun j st hst =>
      ⟨(computeThreshold_discreteModels E d j st).trans hst.1,
       (computeThreshold_length E d j st).trans hst.2⟩)
    (fun j st hst hflag hlt => by
      have := computeThreshold_value E d j st (by rw [hst.2]; exact hlt) hflag
      rw [hst.1] at this
      exact this)
    (fun j i st hji _ hq hlt =>
      (computeThreshold_getElem?_ne E d (Ne.symm hji) st).trans (hq hlt))
    (List.range s1.numClasses)
    { s1 with nullRejectionThresholds := resize s1.nullRejectionThresholds s1.numClasses 0 }
    s2 (List.nodup_range _) ⟨rfl, resize_length _ _ _⟩ hr2 k
    (List.mem_range.mpr (hn.symm ▸ hk)) (hn.symm ▸ hk)
  rw [List.getD_eq_getElem?_getD, hall, hm]
  rfl

/-- C11: after a successful `train_discrete`, for every class index `k` whose
class has `n >= 1` training sequences, `nullRejectionThresholds[k]` is the
negation of the average of the absolute values of the log-likelihoods that the
fitted sub-model `k` returns for the training sequences of class `k`:
`-(sum_i |score_k(s_i)|) / n`. -/
theorem threshold_is_negated_average (E : Collaborators α DM CM) (s : HMM α DM CM)
    (d : TimeSeriesClassificationData α) (k : Nat)
    (h : (train_discrete E s d).1 = true) (hk : k < d.getNumClasses)
    (_hn : 0 < (classSequences E d k).length) :
    (train_discrete E s d).2.nullRejectionThresholds.getD k 0 =
      -(((classSequences E d k).map
          (fun q => |E.dPredictSeq ((train_discrete E s d).2.discreteModels.getD k E.dNew) q|)).sum
        / ((classSequences E d k).length : α)) ∧
    (train_discrete E s d).2.nullRejectionThresholds.length = d.getNumClasses := by
  refine ⟨train_discrete_thresholds E s d h k hk, ?_⟩
  obtain ⟨s1, s2, hr1, hr2, he⟩ := train_discrete_success E s d h
  rw [he]
  dsimp only
  have hn1 : s1.numClasses = d.getNumClasses :=
    forLoopE_proj_eq (fun x : HMM α DM CM => x.numClasses) _
      (trainDiscreteModel_numClasses E d) hr1
  have hl := forLoopE_proj_eq (fun x : HMM α DM CM => x.nullRejectionThresholds.length) _
    (computeThreshold_length E d) hr2
  dsimp only at hl
  rw [hl, resize_length, hn1]

/-- Witness for C11: training on `twoSequenceData`; the class has the two
sequences `[0]` and `[0, 1]`, the fitted model scores them -2 and -3, and the
threshold is `-(5/2)`. -/
theorem threshold_is_negated_average_witness :
    classSequences (tableCollaborators (id : ℚ → ℚ) true) twoSequenceData 0 = [[0], [0, 1]] ∧
    (train_discrete (tableCollaborators id true)
      (new HMM_DISCRETE HMM_ERGODIC 1 false false : HMM ℚ (List ℚ) (Nat × ℚ))
      twoSequenceData).2.nullRejectionThresholds = [-(5 / 2)] ∧
    (train_discrete (tableCollaborators id true)
      (new HMM_DISCRETE HMM_ERGODIC 1 false false : HMM ℚ (List ℚ) (Nat × ℚ))
      twoSequenceData).2.nullRejectionThresholds.getD 0 0 =
      -(((classSequences (tableCollaborators (id : ℚ → ℚ) true) twoSequenceData 0).map
          (fun q => |(tableCollaborators (id : ℚ → ℚ) true).dPredictSeq
            ((train_discrete (tableCollaborators id true)
              (new HMM_DISCRETE HMM_ERGODIC 1 false false : HMM ℚ (List ℚ) (Nat × ℚ))
              twoSequenceData).2.discreteModels.getD 0
              (tableCollaborators (id : ℚ → ℚ) true).dNew) q|)).sum
        / ((classSequences (tableCollaborators (id : ℚ → ℚ) true) twoSequenceData 0).length : ℚ)) :=
  ⟨by decide!, by decide!,
   (threshold_is_negated_average (tableCollaborators id true)
      (new HMM_DISCRETE HMM_ERGODIC 1 false false) twoSequenceData 0
      (by decide!) (by decide!) (by decide!)).1⟩

/-- The average of a non-empty list lies between two of its elements. -/
theorem exists_le_average {ι : Type} (l : List ι) (f : ι → α) (hl : l ≠ []) :
    (∃ x, x ∈ l ∧ f x ≤ (l.map f).sum / (l.length : α)) ∧
    (∃ x, x ∈ l ∧ (l.map f).sum / (l.length : α) ≤ f x) := by
  have hlen : (l.length : α) ≠ 0 := by
    have : l.length ≠ 0 := fun h0 => hl (List.length_eq_zero.mp h0)
    exact_mod_cast this
  have hsum : (l.map (fun _ => (l.map f).sum / (l.length : α))).sum = (l.map f).sum := by
    rw [List.map_const', List.sum_replicate, nsmul_eq_mul]
    field_simp
  constructor
  · obtain ⟨x, hx, hle⟩ := List.exists_le_of_sum_le hl f
      (fun _ => (l.map f).sum / (l.length : α)) (le_of_eq hsum.symm)
    exact ⟨x, hx, hle⟩
  · obtain ⟨x, hx, hle⟩ := List.exists_le_of_sum_le hl
      (fun _ => (l.map f).sum / (l.length : α)) f (le_of_eq hsum)
    exact ⟨x, hx, hle⟩

/-- When every element of a non-empty list is at most the average, every
element equals the average. -/
theorem eq_average_of_le {ι : Type} (l : List ι) (f : ι → α)
    (h : ∀ x, x ∈ l → f x ≤ (l.map f).sum / (l.length : α)) :
    ∀ x, x ∈ l → f x = (l.map f).sum / (l.length : α) := by
  intro x hx
  have hl : l ≠ [] := List.ne_nil_of_mem hx
  have hlen : (l.length : α) ≠ 0 := by
    have : l.length ≠ 0 := fun h0 => hl (List.length_eq_zero.mp h0)
    exact_mod_cast this
  have hsum : (l.map (fun _ => (l.map f).sum / (l.length : α))).sum = (l.map f).sum := by
    rw [List.map_const', List.sum_replicate, nsmul_eq_mul]
    field_simp
  by_contra hne
  have hlt : f x < (l.map f).sum / (l.length : α) := lt_of_le_of_ne (h x hx) hne
  have := List.sum_lt_sum f (fun _ => (l.map f).sum / (l.length : α)) h ⟨x, hx, hlt⟩
  rw [hsum] at this
  exact lt_irrefl _ this

/-- Counterexample for C12: training on `twoSequenceData` succeeds; the class
has the training sequences `[0]` and `[0, 1]`, which the fitted model scores -2
and -3. The threshold is `-(5/2)`, and the absolute score 3 of the training
sequence `[0, 1]` exceeds the average `5/2`. -/
theorem threshold_bound_counterexample :
    (train_discrete (tableCollaborators id true)
      (new HMM_DISCRETE HMM_ERGODIC 1 false false : HMM ℚ (List ℚ) (Nat × ℚ))
      twoSequenceData).1 = true ∧
    [0, 1] ∈ classSequences (tableCollaborators (id : ℚ → ℚ) true) twoSequenceData 0 ∧
    |(tableCollaborators (id : ℚ → ℚ) true).dPredictSeq
        ((train_discrete (tableCollaborators id true)
          (new HMM_DISCRETE HMM_ERGODIC 1 false false : HMM ℚ (List ℚ) (Nat × ℚ))
          twoSequenceData).2.discreteModels.getD 0
          (tableCollaborators (id : ℚ → ℚ) true).dNew) [0, 1]| = 3 ∧
    (train_discrete (tableCollaborators id true)
      (new HMM_DISCRETE HMM_ERGODIC 1 false false : HMM ℚ (List ℚ) (Nat × ℚ))
      twoSequenceData).2.nullRejectionThresholds.getD 0 0 = -(5 / 2) ∧
    ¬ (|(tableCollaborators (id : ℚ → ℚ) true).dPredictSeq
        ((train_discrete (tableCollaborators id true)
          (new HMM_DISCRETE HMM_ERGODIC 1 false false : HMM ℚ (List ℚ) (Nat × ℚ))
          twoSequenceData).2.discreteModels.getD 0
          (tableCollaborators (id : ℚ → ℚ) true).dNew) [0, 1]| ≤
      -((train_discrete (tableCollaborators id true)
        (new HMM_DISCRETE HMM_ERGODIC 1 false false : HMM ℚ (List ℚ) (Nat × ℚ))
        twoSequenceData).2.nullRejectionThresholds.getD 0 0)) := by
  decide!

/-- C12 (amended): after a successful `train_discrete`, for every class `k` with
at least one training sequence, the average absolute log-likelihood
`-nullRejectionThresholds[k]` lies between the absolute scores of the class's
training sequences: some training sequence has `|score_k(s)| <= -threshold` and
some has `|score_k(s)| >= -threshold`. Every training sequence satisfies
`|score_k(s)| <= -threshold` exactly when all of them have the same absolute
score, equal to `-threshold`. -/
theorem threshold_between_extremes (E : Collaborators α DM CM) (s : HMM α DM CM)
    (d : TimeSeriesClassificationData α) (k : Nat)
    (h : (train_discrete E s d).1 = true) (hk : k < d.getNumClasses)
    (hn : 0 < (classSequences E d k).length) :
    (∃ q, q ∈ classSequences E d k ∧
      |E.dPredictSeq ((train_discrete E s d).2.discreteModels.getD k E.dNew) q| ≤
        -((train_discrete E s d).2.nullRejectionThresholds.getD k 0)) ∧
    (∃ q, q ∈ classSequences E d k ∧
      -((train_discrete E s d).2.nullRejectionThresholds.getD k 0) ≤
        |E.dPredictSeq ((train_discrete E s d).2.discreteModels.getD k E.dNew) q|) ∧
    ((∀ q, q ∈ classSequences E d k →
      |E.dPredictSeq ((train_discrete E s d).2.discreteModels.getD k E.dNew) q| ≤
        -((train_discrete E s d).2.nullRejectionThresholds.getD k 0)) ↔
     (∀ q, q ∈ classSequences E d k →
      |E.dPredictSeq ((train_discrete E s d).2.discreteModels.getD k E.dNew) q| =
        -((train_discrete E s d).2.nullRejectionThresholds.getD k 0))) := by
  have hthr := train_discrete_thresholds E s d h k hk
  have hl : classSequences E d k ≠ [] := fun h0 => by
    rw [h0] at hn
    exact absurd hn (by simp)
  rw [hthr, neg_neg]
  unfold averageAbsScore
  obtain ⟨h1, h2⟩ := exists_le_average (classSequences E d k)
    (fun q => |E.dPredictSeq ((train_discrete E s d).2.discreteModels.getD k E.dNew) q|) hl
  refine ⟨h1, h2, ?_, ?_⟩
  · intro hall
    exact eq_average_of_le (classSequences E d k)
      (fun q => |E.dPredictSeq ((train_discrete E s d).2.discreteModels.getD k E.dNew) q|) hall
  · intro hall q hq
    exact le_of_eq (hall q hq)

/-- Witness for C12 (amended): training on `twoSequenceData`, class index 0:
the sequence `[0]` has absolute score 2, below the average `5/2`, and the
sequence `[0, 1]` has absolute score 3, above it. -/
theorem threshold_between_extremes_witness :
    ((train_discrete (tableCollaborators id true)
      (new HMM_DISCRETE HMM_ERGODIC 1 false false : HMM ℚ (List ℚ) (Nat × ℚ))
      twoSequenceData).1 = true ∧
     0 < (twoSequenceData : TimeSeriesClassificationData ℚ).getNumClasses ∧
     0 < (classSequences (tableCollaborators (id : ℚ → ℚ) true) twoSequenceData 0).length) ∧
    ∃ q, q ∈ classSequences (tableCollaborators (id : ℚ → ℚ) true) twoSequenceData 0 ∧
      |(tableCollaborators (id : ℚ → ℚ) true).dPredictSeq
        ((train_discrete (tableCollaborators id true)
          (new HMM_DISCRETE HMM_ERGODIC 1 false false : HMM ℚ (List ℚ) (Nat × ℚ))
          twoSequenceData).2.discreteModels.getD 0
          (tableCollaborators (id : ℚ → ℚ) true).dNew) q| ≤
      -((train_discrete (tableCollaborators id true)
        (new HMM_DISCRETE HMM_ERGODIC 1 false false : HMM ℚ (List ℚ) (Nat × ℚ))
        twoSequenceData).2.nullRejectionThresholds.getD 0 0) :=
  ⟨⟨by decide!, by decide!, by decide!⟩,
   (threshold_between_extremes (tableCollaborators id true)
      (new HMM_DISCRETE HMM_ERGODIC 1 false false) twoSequenceData 0
      (by decide!) (by decide!) (by decide!)).1⟩

/-- A bounds-checked reading loop whose count is within the table performs
the same updates as the unchecked loop. -/
theorem forLoopReading_eq_some {σ β : Type} (table : List β) (body : Nat → β → σ → σ)
    (init : σ) (dflt : β) :
    ∀ n, n ≤ table.length →
      forLoopReading n table body init =
        some (forLoop n (fun i x => body i (table.getD i dflt) x) init) := by
  intro n
  unfold forLoopReading
  induction n with
  | zero => intro _; rfl
  | succ m ih =>
    intro hm
    rw [forLoop_succ, ih (by omega), forLoop_succ]
    have hlt : m < table.length := by omega
    rw [List.getD_eq_getElem?_getD, List.getElem?_eq_getElem hlt]
    rfl

/-- A bounds-checked reading loop whose count exceeds the table reads out of
bounds. -/
theorem forLoopReading_eq_none {σ β : Type} (table : List β) (body : Nat → β → σ → σ)
    (init : σ) :
    ∀ n, table.length < n → forLoopReading n table body init = none := by
  intro n
  unfold forLoopReading
  induction n with
  | zero => intro h; exact absurd h (by omega)
  | succ m ih =>
    intro hm
    rw [forLoop_succ]
    by_cases hlt : table.length < m
    · rw [ih hlt]
      rfl
    · have hnone : table[m]? = none := List.getElem?_eq_none (by omega)
      cases forLoop m (fun i st => st.bind (fun x => (table[i]?).map (fun r => body i r x)))
          (some init) with
      | none => rfl
      | some x =>
        dsimp only [Option.bind]
        rw [hnone]
        rfl

/-- The reads of a bounds-checked reading loop are all in bounds exactly when
the count does not exceed the size of the table. -/
theorem forLoopReading_isSome_iff {σ β : Type} (table : List β) (body : Nat → β → σ → σ)
    (init : σ) (n : Nat) :
    (forLoopReading n table body init).isSome = true ↔ n ≤ table.length := by
  constructor
  · intro h
    by_contra hn
    rw [forLoopReading_eq_none table body init n (by omega)] at h
    exact absurd h (by simp)
  · intro h
    cases n with
    | zero => rfl
    | succ m =>
      have hlt : m < table.length := by omega
      rw [forLoopReading_eq_some table body init (table.get ⟨m, hlt⟩) _ h]
      rfl

/-- The `results` vector has one entry per exemplar model. -/
theorem sortedResults_length (E : Collaborators α DM CM) (score : CM → α) (s : HMM α DM CM) :
    (sortedResults E score s).length = s.continuousModels.length := by
  unfold sortedResults sortResults
  rw [List.length_insertionSort, (continuousScoreLoop_spec E score (continuousStart s)).1]
  unfold exemplarResults
  rw [List.length_map]
  have h0 : (continuousStart s).continuousModels = s.continuousModels := by
    unfold continuousStart resizeBuffers
    dsimp only
    split_ifs <;> rfl
  rw [h0]

/-- The buffers resized before the scoring loop leave the committee size as it is. -/
theorem continuousStart_committeeSize (s : HMM α DM CM) :
    (continuousStart s).committeeSize = s.committeeSize := by
  unfold continuousStart resizeBuffers
  dsimp only
  split_ifs <;> rfl

/-- A trained `predict_continuous` with an input of the right size runs the
scoring, sorting and committee code. -/
theorem predict_continuous_runs (E : Collaborators α DM CM) (s : HMM α DM CM) (v : List α)
    (ht : s.trained = true) (hv : v.length = s.numInputDimensions) :
    predict_continuous E s v = continuousDecision E (vectorScore E s v) s := by
  unfold predict_continuous
  dsimp only
  rw [if_neg (by rw [ht]; simp), if_neg (by rw [hv]; simp)]
  rfl

/-- A trained `predict_continuous(MatrixDouble&)` with an input of the right
width runs the scoring, sorting and committee code. -/
theorem predict_continuous_timeseries_runs (E : Collaborators α DM CM) (s : HMM α DM CM)
    (ts : MatrixDouble α) (ht : s.trained = true) (hts : ts.getNumCols = s.numInputDimensions) :
    predict_continuous_timeseries E s ts = continuousDecision E (timeseriesScore E s ts) s := by
  unfold predict_continuous_timeseries
  dsimp only
  rw [if_neg (by rw [ht]; simp), if_neg (by rw [hts]; simp)]
  rfl

/-- C16: in `predict_continuous` (both overloads) on a trained classifier with
an input of the right dimensionality, nothing guards the committee loop: the
call runs the scoring, sort and committee code and returns `true`. The sorted
`results` vector has one entry per exemplar model, the committee loop reads
`results[i]` for every `i < committeeSize`, and these reads are all in bounds
if and only if `committeeSize <= ` the number of exemplar models; when
`committeeSize` exceeds the exemplar count a read is out of bounds.
`setCommitteeSize` accepts every positive size. -/
theorem committee_reads_in_bounds_iff (E : Collaborators α DM CM) (s : HMM α DM CM)
    (v : List α) (ts : MatrixDouble α) (ht : s.trained = true)
    (hv : v.length = s.numInputDimensions) (hts : ts.getNumCols = s.numInputDimensions) :
    (predict_continuous E s v = continuousDecision E (vectorScore E s v) s ∧
      (predict_continuous E s v).1 = true) ∧
    (predict_continuous_timeseries E s ts = continuousDecision E (timeseriesScore E s ts) s ∧
      (predict_continuous_timeseries E s ts).1 = true) ∧
    (∀ score : CM → α,
      (sortedResults E score s).length = s.continuousModels.length ∧
      ((committeeVoteChecked (continuousStart s) (sortedResults E score s)
          (continuousScoreLoop E score (continuousStart s)).2
          (continuousStart s).classDistances).isSome = true ↔
        s.committeeSize ≤ s.continuousModels.length) ∧
      (s.continuousModels.length < s.committeeSize →
        committeeVoteChecked (continuousStart s) (sortedResults E score s)
          (continuousScoreLoop E score (continuousStart s)).2
          (continuousStart s).classDistances = none) ∧
      (s.committeeSize ≤ s.continuousModels.length →
        committeeVoteChecked (continuousStart s) (sortedResults E score s)
          (continuousScoreLoop E score (continuousStart s)).2
          (continuousStart s).classDistances =
          some (continuousDecision E score s).2.classDistances)) ∧
    (∀ c, 0 < c → setCommitteeSize s c = (true, { s with committeeSize := c })) := by
  refine ⟨⟨predict_continuous_runs E s v ht hv, ?_⟩,
    ⟨predict_continuous_timeseries_runs E s ts ht hts, ?_⟩, ?_, ?_⟩
  · rw [predict_continuous_runs E s v ht hv]
    rfl
  · rw [predict_continuous_timeseries_runs E s ts ht hts]
    rfl
  · intro score
    have hlen := sortedResults_length E score s
    have hc := continuousStart_committeeSize s
    refine ⟨hlen, ?_, ?_, ?_⟩
    · unfold committeeVoteChecked
      rw [forLoopReading_isSome_iff, hlen, hc]
    · intro hlt
      unfold committeeVoteChecked
      exact forLoopReading_eq_none _ _ _ _ (by rw [hlen, hc]; exact hlt)
    · intro hle
      unfold committeeVoteChecked
      rw [forLoopReading_eq_some _ _ _ ⟨0, 0⟩ _ (by rw [hlen, hc]; exact hle)]
      rfl
  · intro c hc
    unfold setCommitteeSize
    rw [if_pos hc]

/-- Witness for C16: the classifier with the default committee size 5 trained
on three exemplars is trained, the inputs `[1]` and `[[1]]` are valid, and the
committee loop reads `results` out of bounds. -/
theorem committee_reads_in_bounds_iff_witness :
    (defaultCommitteeClassifier.trained = true ∧
      ([1] : List ℚ).length = defaultCommitteeClassifier.numInputDimensions ∧
      MatrixDouble.getNumCols (⟨1, [[1]]⟩ : MatrixDouble ℚ) =
        defaultCommitteeClassifier.numInputDimensions) ∧
    (defaultCommitteeClassifier.committeeSize = 5 ∧
      defaultCommitteeClassifier.continuousModels.length = 3) ∧
    (predict_continuous (tableCollaborators id true) defaultCommitteeClassifier [1]).1 = true ∧
    committeeVoteChecked (continuousStart defaultCommitteeClassifier)
      (sortedResults (tableCollaborators id true)
        (vectorScore (tableCollaborators id true) defaultCommitteeClassifier [1])
        defaultCommitteeClassifier)
      (continuousScoreLoop (tableCollaborators id true)
        (vectorScore (tableCollaborators id true) defaultCommitteeClassifier [1])
        (continuousStart defaultCommitteeClassifier)).2
      (continuousStart defaultCommitteeClassifier).classDistances = none :=
  ⟨⟨by decide!, by decide!, by decide!⟩, ⟨by decide!, by decide!⟩,
   (committee_reads_in_bounds_iff (tableCollaborators id true) defaultCommitteeClassifier [1]
      ⟨1, [[1]]⟩ (by decide!) (by decide!) (by decide!)).1.2,
   ((committee_reads_in_bounds_iff (tableCollaborators id true) defaultCommitteeClassifier [1]
      ⟨1, [[1]]⟩ (by decide!) (by decide!) (by decide!)).2.2.1
      (vectorScore (tableCollaborators id true) defaultCommitteeClassifier [1])).2.2.1
      (by decide!)⟩

/-- The bounds-checked vector scaling loop within the stored ranges performs
the scaling of `scaleInputVector`. -/
theorem scaleInputVectorChecked_eq_some (E : Collaborators α DM CM) (s : HMM α DM CM)
    (v : List α) (h : s.numInputDimensions ≤ s.ranges.length) :
    scaleInputVectorChecked E s v = some (scaleInputVector E s v) := by
  unfold scaleInputVectorChecked
  rw [forLoopReading_eq_some _ _ _ ⟨0, 0⟩ _ h]
  rfl

/-- The inner loop of the bounds-checked time-series scaling keeps a failure. -/
theorem scaleRows_none {β γ : Type} (r : Option γ) (f : Nat → γ → β → β) :
    ∀ n, forLoop n (fun i (st : Option β) => st.bind (fun ts => r.map (fun x => f i x ts)))
      none = none := by
  intro n
  induction n with
  | zero => rfl
  | succ m ih => rw [forLoop_succ, ih]; rfl

/-- The inner loop of the bounds-checked time-series scaling with the range
entry present performs the unchecked updates. -/
theorem scaleRows_some {β γ : Type} (x : γ) (f : Nat → γ → β → β) (init : β) :
    ∀ n, forLoop n (fun i (st : Option β) => st.bind (fun ts => (some x).map (fun x => f i x ts)))
      (some init) = some (forLoop n (fun i ts => f i x ts) init) := by
  intro n
  induction n with
  | zero => rfl
  | succ m ih => rw [forLoop_succ, ih, forLoop_succ]; rfl

/-- The inner loop of the bounds-checked time-series scaling with the range
entry absent fails as soon as it has an iteration. -/
theorem scaleRows_absent {β γ : Type} (f : Nat → γ → β → β) (st : Option β) :
    ∀ n, 0 < n →
      forLoop n (fun i (st : Option β) =>
        st.bind (fun ts => (none : Option γ).map (fun x => f i x ts))) st = none := by
  intro n hn
  cases n with
  | zero => exact absurd hn (by omega)
  | succ m =>
    rw [forLoop_succ]
    cases forLoop m (fun i (st : Option β) =>
        st.bind (fun ts => (none : Option γ).map (fun x => f i x ts))) st with
    | none => rfl
    | some y => rfl

/-- The bounds-checked time-series scaling within the stored ranges performs
the scaling of `scaleTimeseries`. -/
theorem scaleTimeseriesChecked_eq_some (E : Collaborators α DM CM) (s : HMM α DM CM)
    (ts : MatrixDouble α) (h : s.numInputDimensions ≤ s.ranges.length) :
    scaleTimeseriesChecked E s ts = some (scaleTimeseries E s ts) := by
  unfold scaleTimeseriesChecked scaleTimeseries
  generalize s.numInputDimensions = n at h
  induction n with
  | zero => rfl
  | succ m ih =>
    rw [forLoop_succ, forLoop_succ, ih (by omega)]
    have hlt : m < s.ranges.length := by omega
    rw [List.getElem?_eq_getElem hlt, List.getD_eq_getElem?_getD, List.getElem?_eq_getElem hlt]
    exact scaleRows_some (s.ranges.get ⟨m, hlt⟩)
      (fun i (r : MinMax α) (ts : MatrixDouble α) =>
        { ts with
          rows := ts.rows.set i ((ts.rows.getD i []).set m
            (E.scale (ts.elem i m) r.minValue r.maxValue 0 1)) }) _ _

/-- The bounds-checked time-series scaling reads `ranges` out of bounds when
there are fewer range entries than dimensions and the series has a row. -/
theorem scaleTimeseriesChecked_eq_none (E : Collaborators α DM CM) (s : HMM α DM CM)
    (ts : MatrixDouble α) (h : s.ranges.length < s.numInputDimensions)
    (hrows : 0 < ts.getNumRows) :
    scaleTimeseriesChecked E s ts = none := by
  unfold scaleTimeseriesChecked
  generalize s.numInputDimensions = n at h
  induction n with
  | zero => exact absurd h (by omega)
  | succ m ih =>
    rw [forLoop_succ]
    by_cases hlt : s.ranges.length < m
    · rw [ih hlt]
      exact scaleRows_none (s.ranges[m]?)
        (fun i (r : MinMax α) (ts : MatrixDouble α) =>
          { ts with
            rows := ts.rows.set i ((ts.rows.getD i []).set m
              (E.scale (ts.elem i m) r.minValue r.maxValue 0 1)) }) _
    · have hnone : s.ranges[m]? = none := List.getElem?_eq_none (by omega)
      rw [hnone]
      exact scaleRows_absent
        (fun i (r : MinMax α) (ts : MatrixDouble α) =>
          { ts with
            rows := ts.rows.set i ((ts.rows.getD i []).set m
              (E.scale (ts.elem i m) r.minValue r.maxValue 0 1)) }) _ _ hrows

/-- The bounds-checked time-series scaling of a series without rows reads
nothing. -/
theorem scaleTimeseriesChecked_no_rows (E : Collaborators α DM CM) (s : HMM α DM CM)
    (ts : MatrixDouble α) (hrows : ts.getNumRows = 0) :
    scaleTimeseriesChecked E s ts = some ts := by
  unfold scaleTimeseriesChecked
  rw [hrows]
  generalize s.numInputDimensions = n
  induction n with
  | zero => rfl
  | succ m ih => rw [forLoop_succ, ih]; rfl

/-- `predict_continuous(VectorDouble&)` fails exactly at its two checks. -/
theorem predict_continuous_fails_iff (E : Collaborators α DM CM) (s : HMM α DM CM)
    (v : List α) :
    (predict_continuous E s v).1 = false ↔
      (s.trained = false ∨ v.length ≠ s.numInputDimensions) := by
  unfold predict_continuous
  dsimp only
  by_cases h1 : (!s.trained) = true
  · rw [if_pos h1]
    simp only [true_iff]
    left
    simpa using h1
  · rw [if_neg h1]
    have ht : s.trained = true := by simpa using h1
    by_cases h2 : v.length ≠ s.numInputDimensions
    · rw [if_pos h2]
      simp only [true_iff]
      exact Or.inr h2
    · rw [if_neg h2]
      have h0 : ∀ score : CM → α, (continuousDecision E score s).1 = true := fun _ => rfl
      rw [h0]
      constructor
      · intro h
        exact absurd h (by simp)
      · rintro (h | h)
        · rw [ht] at h
          exact absurd h (by simp)
        · exact absurd h h2

/-- `predict_continuous(MatrixDouble&)` fails exactly at its two checks. -/
theorem predict_continuous_timeseries_fails_iff (E : Collaborators α DM CM) (s : HMM α DM CM)
    (ts : MatrixDouble α) :
    (predict_continuous_timeseries E s ts).1 = false ↔
      (s.trained = false ∨ ts.getNumCols ≠ s.numInputDimensions) := by
  unfold predict_continuous_timeseries
  dsimp only
  by_cases h1 : (!s.trained) = true
  · rw [if_pos h1]
    simp only [true_iff]
    left
    simpa using h1
  · rw [if_neg h1]
    have ht : s.trained = true := by simpa using h1
    by_cases h2 : ts.getNumCols ≠ s.numInputDimensions
    · rw [if_pos h2]
      simp only [true_iff]
      exact Or.inr h2
    · rw [if_neg h2]
      have h0 : ∀ score : CM → α, (continuousDecision E score s).1 = true := fun _ => rfl
      rw [h0]
      constructor
      · intro h
        exact absurd h (by simp)
      · rintro (h | h)
        · rw [ht] at h
          exact absurd h (by simp)
        · exact absurd h h2

/-! ## The committee and its votes -/

/-- Inserting into a list in descending order of value keeps it in descending
order. -/
theorem orderedInsert_descending (a : IndexedDouble α) (l : List (IndexedDouble α))
    (h : l.Pairwise (fun x y => y.value ≤ x.value)) :
    (List.orderedInsert sortIndexedDoubleByValueDescending a l).Pairwise
      (fun x y => y.value ≤ x.value) := by
  induction l with
  | nil => exact List.pairwise_singleton _ _
  | cons b l ih =>
    obtain ⟨hb, hl⟩ := List.pairwise_cons.mp h
    by_cases hab : sortIndexedDoubleByValueDescending a b
    · rw [List.orderedInsert, if_pos hab]
      refine List.pairwise_cons.mpr ⟨?_, h⟩
      intro y hy
      rcases List.mem_cons.mp hy with hy | hy
      · rw [hy]
        exact le_of_lt hab
      · exact le_trans (hb y hy) (le_of_lt hab)
    · rw [List.orderedInsert, if_neg hab]
      refine List.pairwise_cons.mpr ⟨?_, ih hl⟩
      intro y hy
      rcases (List.mem_orderedInsert sortIndexedDoubleByValueDescending).mp hy with hy | hy
      · rw [hy]
        exact not_lt.mp hab
      · exact hb y hy

/-- The sorted results are in descending order of value. -/
theorem sortResults_descending (l : List (IndexedDouble α)) :
    (sortResults l).Pairwise (fun x y => y.value ≤ x.value) := by
  unfold sortResults
  induction l with
  | nil => exact List.Pairwise.nil
  | cons a l ih => exact orderedInsert_descending a _ ih

/-- The sorted results are a rearrangement of the results. -/
theorem sortResults_perm (l : List (IndexedDouble α)) : (sortResults l).Perm l :=
  List.perm_insertionSort _ l

/-- Every entry among the first `n` sorted results has a value at least that
of every later entry. -/
theorem sortResults_take_drop (l : List (IndexedDouble α)) (n : Nat) :
    ∀ a, a ∈ (sortResults l).take n → ∀ b, b ∈ (sortResults l).drop n → b.value ≤ a.value := by
  have h := sortResults_descending l
  rw [← List.take_append_drop n (sortResults l)] at h
  exact fun a ha b hb => (List.pairwise_append.mp h).2.2 a ha b hb

/-- The committee loop adds to entry `c` the votes of the entries read so far
whose class label maps to `c`. -/
theorem committeeVote_getD (s : HMM α DM CM) (results : List (IndexedDouble α)) (m : α)
    (cd : List α) (hc : s.committeeSize ≤ results.length) (c : Nat) (hlt : c < cd.length) :
    (committeeVote s results m cd).getD c 0 =
      cd.getD c 0 +
        (((results.take s.committeeSize).filter
          (fun r => decide (s.getClassLabelIndexValue r.index = c))).map
          (fun r => voteWeight r.value m)).sum := by
  unfold committeeVote
  generalize s.committeeSize = n at hc
  induction n with
  | zero => simp [forLoop_zero]
  | succ k ih =>
    have hk : k < results.length := by omega
    have hlen : (forLoop k
        (fun i (cd : List α) =>
          let r := results.getD i ⟨0, 0⟩
          let c := s.getClassLabelIndexValue r.index
          cd.set c (cd.getD c 0 + 1 / (r.value / m))) cd).length = cd.length :=
      forLoop_inv (fun l : List α => l.length = cd.length) _
        (fun k l hl => by simpa using hl) _ _ rfl
    rw [forLoop_succ, List.take_succ, List.getElem?_eq_getElem hk]
    dsimp only
    rw [List.getD_eq_getElem _ _ hk, Option.toList_some, List.filter_append, List.map_append,
      List.sum_append, ← add_assoc, ← ih (by omega)]
    by_cases hcc : s.getClassLabelIndexValue (results[k]).index = c
    · rw [hcc, getD_set_self _ _ _ _ (by rw [hlen]; exact hlt)]
      simp [hcc, voteWeight]
    · rw [getD_set_ne _ _ _ _ _ hcc]
      simp [hcc]

/-- The committee and the accumulated votes after the continuous decision
with `committeeSize` within the number of exemplar models. -/
theorem continuousDecision_committee (E : Collaborators α DM CM) (score : CM → α)
    (s : HMM α DM CM) (hc : s.committeeSize ≤ s.continuousModels.length) :
    (sortResults (exemplarResults E score s)).Perm (exemplarResults E score s) ∧
    (committee E score s).length = s.committeeSize ∧
    (∀ a, a ∈ committee E score s →
      ∀ b, b ∈ (sortResults (exemplarResults E score s)).drop s.committeeSize →
        b.value ≤ a.value) ∧
    (continuousDecision E score s).2.classDistances.length = s.numClasses ∧
    (∀ c, c < s.numClasses →
      (continuousDecision E score s).2.classDistances.getD c 0 =
        (((committee E score s).filter
          (fun m => decide (s.getClassLabelIndexValue m.index = c))).map
          (fun m => voteWeight m.value (scoredMinValue E score s))).sum) ∧
    (∀ c, c < s.numClasses →
      (∀ m, m ∈ committee E score s → s.getClassLabelIndexValue m.index ≠ c) →
      (continuousDecision E score s).2.classDistances.getD c 0 = 0) := by
  have hlen : (sortResults (exemplarResults E score s)).length = s.continuousModels.length := by
    rw [(sortResults_perm _).length_eq]
    unfold exemplarResults
    rw [List.length_map]
  have hsum : ∀ c, c < s.numClasses →
      (continuousDecision E score s).2.classDistances.getD c 0 =
        (((committee E score s).filter
          (fun m => decide (s.getClassLabelIndexValue m.index = c))).map
          (fun m => voteWeight m.value (scoredMinValue E score s))).sum := by
    intro c hlt
    rw [continuousDecision_classDistances,
      committeeVote_getD s _ _ _ (by rw [hlen]; exact hc) c
        (by rw [List.length_replicate]; exact hlt),
      getD_replicate_zero, zero_add]
    rfl
  refine ⟨sortResults_perm _, ?_, sortResults_take_drop _ _, ?_, hsum, ?_⟩
  · unfold committee
    rw [List.length_take, hlen]
    exact Nat.min_eq_left hc
  · rw [continuousDecision_classDistances, committeeVote_length, List.length_replicate]
  · intro c hlt hno
    rw [hsum c hlt]
    have hnil : (committee E score s).filter
        (fun m => decide (s.getClassLabelIndexValue m.index = c)) = [] := by
      rw [List.filter_eq_nil_iff]
      intro m hm
      simpa using hno m hm
    rw [hnil]
    rfl

/-- C21: after a successful `predict_continuous` (either overload; `score` is
the scoring call of the overload and `r` the classifier after the call) with
`committeeSize <= ` the number of exemplar models and no committee member that
scores 0 (every vote of line 391 is a finite number), the sorted results are a
rearrangement of the exemplars' (class label, score) pairs, the committee is
its first `committeeSize` entries, each with a score at least that of every
exemplar left out, and for each class index `c`, `classDistances[c]` is the
sum of `1 / (score / minValue)` over exactly the committee members whose class
label maps to `c`; a class without a committee member has
`classDistances[c] = 0`. -/
theorem committee_votes (E : Collaborators α DM CM) (s r : HMM α DM CM) (v : List α)
    (ts : MatrixDouble α) (score : CM → α)
    (hc : s.committeeSize ≤ s.continuousModels.length)
    (h : (predict_continuous E s v = (true, r) ∧ score = vectorScore E s v) ∨
      (predict_continuous_timeseries E s ts = (true, r) ∧ score = timeseriesScore E s ts))
    (_hz : ∀ m, m ∈ committee E score s → m.value ≠ 0) :
    (sortResults (exemplarResults E score s)).Perm (exemplarResults E score s) ∧
    committee E score s = (sortResults (exemplarResults E score s)).take s.committeeSize ∧
    (committee E score s).length = s.committeeSize ∧
    (∀ a, a ∈ committee E score s →
      ∀ b, b ∈ (sortResults (exemplarResults E score s)).drop s.committeeSize →
        b.value ≤ a.value) ∧
    r.classDistances.length = s.numClasses ∧
    (∀ c, c < s.numClasses →
      r.classDistances.getD c 0 =
        (((committee E score s).filter
          (fun m => decide (s.getClassLabelIndexValue m.index = c))).map
          (fun m => 1 / (m.value / scoredMinValue E score s))).sum) ∧
    (∀ c, c < s.numClasses →
      (∀ m, m ∈ committee E score s → s.getClassLabelIndexValue m.index ≠ c) →
      r.classDistances.getD c 0 = 0) := by
  have hr : r = (continuousDecision E score s).2 := by
    rcases h with ⟨h1, h2⟩ | ⟨h1, h2⟩
    · have h3 := predict_continuous_eq_vectorScore E s v (by rw [h1])
      rw [h1] at h3
      rw [h2, ← h3]
    · have h3 := predict_continuous_timeseries_eq_timeseriesScore E s ts (by rw [h1])
      rw [h1] at h3
      rw [h2, ← h3]
  rw [hr]
  obtain ⟨h1, h2, h3, h4, h5, h6⟩ := continuousDecision_committee E score s hc
  exact ⟨h1, rfl, h2, h3, h4, h5, h6⟩

/-- Witness for C21: `exampleContinuous` has a committee of 2 and the
exemplars (7, -2), (9, -4), (7, -3); on the input `[1]` the committee is
(7, -2), (7, -3), both of class index 0, and `classDistances` is
`[500 + 1000/3, 0]`. -/
theorem committee_votes_witness :
    exampleContinuous.committeeSize ≤ exampleContinuous.continuousModels.length ∧
    (∀ m, m ∈ committee (tableCollaborators id true)
        (vectorScore (tableCollaborators id true) exampleContinuous [1]) exampleContinuous →
      m.value ≠ 0) ∧
    (committee (tableCollaborators id true)
      (vectorScore (tableCollaborators id true) exampleContinuous [1]) exampleContinuous).map
      (fun m => (m.index, m.value)) = [(7, -2), (7, -3)] ∧
    (predict_continuous (tableCollaborators id true) exampleContinuous [1]).2.classDistances =
      [500 + 1000 / 3, 0] ∧
    (committee (tableCollaborators id true)
      (vectorScore (tableCollaborators id true) exampleContinuous [1])
      exampleContinuous).length = exampleContinuous.committeeSize :=
  ⟨by decide!, by decide!, by decide!, by decide!,
   (committee_votes (tableCollaborators id true) exampleContinuous
      (predict_continuous (tableCollaborators id true) exampleContinuous [1]).2 [1] ⟨1, [[1]]⟩
      (vectorScore (tableCollaborators id true) exampleContinuous [1]) (by decide!)
      (Or.inl ⟨Prod.ext (by decide!) rfl, rfl⟩) (by decide!)).2.2.1⟩

/-- The local `minValue` after the scoring loop: the running minimum of the
exemplar scores, started at `-1000`. -/
theorem continuousScoreLoop_minValue (E : Collaborators α DM CM) (score : CM → α)
    (s : HMM α DM CM) :
    (continuousScoreLoop E score s).2 = (s.continuousModels.map score).foldl min (-1000) := by
  unfold continuousScoreLoop
  dsimp only
  have key : ∀ n, n ≤ s.continuousModels.length →
      (forLoop n
        (fun i (st : List (IndexedDouble α) × α) =>
          let m := s.continuousModels.getD i E.cNew
          let results := st.1.set i { index := E.cGetClassLabel m, value := score m }
          let minValue := if score m < st.2 then score m else st.2
          (results, minValue))
        (List.replicate s.continuousModels.length ⟨0, 0⟩, -1000)).2 =
      ((s.continuousModels.take n).map score).foldl min (-1000) := by
    intro n
    induction n with
    | zero => intro _; rfl
    | succ k ih =>
      intro hk
      have hlt : k < s.continuousModels.length := by omega
      rw [forLoop_succ]
      dsimp only
      rw [ih (by omega), List.take_succ, List.getElem?_eq_getElem hlt, Option.toList_some,
        List.map_append, List.foldl_append, List.getD_eq_getElem _ _ hlt]
      simp only [List.map_cons, List.map_nil, List.foldl_cons, List.foldl_nil]
      rw [min_def]
      split_ifs with h1 h2 h2
      · exact absurd h1 (not_lt.mpr h2)
      · rfl
      · rfl
      · exact absurd (not_lt.mp h1) h2
  have := key s.continuousModels.length (le_refl _)
  rw [List.take_length] at this
  exact this

/-- A running minimum is at most its start value and every element, and it is
the start value or one of the elements. -/
theorem foldl_min_spec (l : List α) (init : α) :
    l.foldl min init ≤ init ∧ (∀ x, x ∈ l → l.foldl min init ≤ x) ∧
    (l.foldl min init = init ∨ l.foldl min init ∈ l) := by
  induction l generalizing init with
  | nil => exact ⟨le_refl _, fun x hx => absurd hx (List.not_mem_nil x), Or.inl rfl⟩
  | cons a l ih =>
    obtain ⟨h1, h2, h3⟩ := ih (min init a)
    rw [List.foldl_cons]
    refine ⟨le_trans h1 (min_le_left _ _), ?_, ?_⟩
    · intro x hx
      rcases List.mem_cons.mp hx with hx | hx
      · rw [hx]
        exact le_trans h1 (min_le_right _ _)
      · exact h2 x hx
    · rcases h3 with h3 | h3
      · rcases min_choice init a with hm | hm
        · left
          rw [h3, hm]
        · right
          rw [h3, hm]
          exact List.mem_cons_self _ _
      · right
        exact List.mem_cons_of_mem _ h3

/-- The scoring loop of the prediction reads only the exemplar models, which
the buffer set-up leaves as they are. -/
theorem continuousScoreLoop_start (E : Collaborators α DM CM) (score : CM → α)
    (s : HMM α DM CM) :
    continuousScoreLoop E score (continuousStart s) = continuousScoreLoop E score s := by
  apply continuousScoreLoop_congr
  unfold continuousStart resizeBuffers
  dsimp only
  split_ifs <;> rfl

/-- Counterexample for C22: on the input `[1]` the three exemplar models of
`exampleContinuous` score -2, -4 and -3; `minValue` is its start value -1000,
which is not the minimum -4 of the scores and is not a score at all. -/
theorem min_value_counterexample :
    (predict_continuous (tableCollaborators id true) exampleContinuous [1]).1 = true ∧
    exampleContinuous.continuousModels.map
      (vectorScore (tableCollaborators id true) exampleContinuous [1]) = [-2, -4, -3] ∧
    (continuousScoreLoop (tableCollaborators id true)
      (vectorScore (tableCollaborators id true) exampleContinuous [1])
      (continuousStart exampleContinuous)).2 = -1000 ∧
    scoredMinValue (tableCollaborators id true)
      (vectorScore (tableCollaborators id true) exampleContinuous [1]) exampleContinuous
      = -1000 ∧
    ¬ (scoredMinValue (tableCollaborators id true)
        (vectorScore (tableCollaborators id true) exampleContinuous [1]) exampleContinuous ∈
      exampleContinuous.continuousModels.map
        (vectorScore (tableCollaborators id true) exampleContinuous [1])) := by
  decide!

/-- C22 (amended): in `predict_continuous` (either overload, `score` being its
scoring call) the value `minValue` that weights the committee votes is the
running minimum of the exemplar scores started at `-1000`: it is at most
`-1000` and at most every exemplar score; it is the minimum of the exemplar
scores when some exemplar scores `-1000` or less, and it is `-1000` when every
exemplar scores above `-1000`. -/
theorem min_value_is_floored_minimum (E : Collaborators α DM CM) (score : CM → α)
    (s : HMM α DM CM) :
    (continuousScoreLoop E score (continuousStart s)).2 = scoredMinValue E score s ∧
    (continuousDecision E score s).2.classDistances =
      committeeVote s (sortResults (exemplarResults E score s)) (scoredMinValue E score s)
        (List.replicate s.numClasses 0) ∧
    scoredMinValue E score s = (s.continuousModels.map score).foldl min (-1000) ∧
    scoredMinValue E score s ≤ -1000 ∧
    (∀ m, m ∈ s.continuousModels → scoredMinValue E score s ≤ score m) ∧
    ((∃ m, m ∈ s.continuousModels ∧ score m ≤ -1000) →
      ∃ m, m ∈ s.continuousModels ∧ scoredMinValue E score s = score m) ∧
    ((∀ m, m ∈ s.continuousModels → -1000 < score m) → scoredMinValue E score s = -1000) := by
  obtain ⟨h1, h2, h3⟩ := foldl_min_spec (s.continuousModels.map score) (-1000)
  have hm := continuousScoreLoop_minValue E score s
  refine ⟨by rw [continuousScoreLoop_start]; rfl, continuousDecision_classDistances E score s,
    hm, ?_, ?_, ?_, ?_⟩
  · unfold scoredMinValue
    rw [hm]
    exact h1
  · intro m hmem
    unfold scoredMinValue
    rw [hm]
    exact h2 _ (List.mem_map_of_mem score hmem)
  · rintro ⟨m, hmem, hle⟩
    unfold scoredMinValue
    rw [hm]
    rcases h3 with h3 | h3
    · refine ⟨m, hmem, le_antisymm (h2 _ (List.mem_map_of_mem score hmem)) ?_⟩
      rw [h3]
      exact hle
    · obtain ⟨m1, hm1, he⟩ := List.mem_map.mp h3
      exact ⟨m1, hm1, he.symm⟩
  · intro hall
    unfold scoredMinValue
    rw [hm]
    rcases h3 with h3 | h3
    · exact h3
    · obtain ⟨m1, hm1, he⟩ := List.mem_map.mp h3
      have := hall m1 hm1
      rw [he] at this
      exact absurd h1 (not_le.mpr this)

/-- Every committee member is one of the exemplars' (class label, score) pairs. -/
theorem committee_subset (E : Collaborators α DM CM) (score : CM → α) (s : HMM α DM CM)
    (a : IndexedDouble α) (ha : a ∈ committee E score s) :
    ∃ m, m ∈ s.continuousModels ∧ a.value = score m := by
  unfold committee at ha
  have h1 := (sortResults_perm (exemplarResults E score s)).mem_iff.mp (List.mem_of_mem_take ha)
  unfold exemplarResults at h1
  obtain ⟨m, hm, he⟩ := List.mem_map.mp h1
  exact ⟨m, hm, by rw [← he]⟩

/-- The vote `1 / (d / minValue)` with a negative `minValue`, on negative
scores: it is positive and it grows with the score. -/
theorem vote_order (mv d1 d2 : α) (hmv : mv < 0) (h1 : d1 < 0) :
    0 < 1 / (d1 / mv) ∧ (d2 < d1 → 1 / (d2 / mv) < 1 / (d1 / mv)) ∧
    (d2 ≤ d1 → 1 / (d2 / mv) ≤ 1 / (d1 / mv)) := by
  have hp1 : 0 < d1 / mv := div_pos_of_neg_of_neg h1 hmv
  refine ⟨one_div_pos.mpr hp1, ?_, ?_⟩
  · intro hlt
    exact one_div_lt_one_div_of_lt hp1 ((div_lt_div_right_of_neg hmv).mpr hlt)
  · intro hle
    exact one_div_le_one_div_of_le hp1 ((div_le_div_right_of_neg hmv).mpr hle)

/-- C23: in `predict_continuous` (either overload, `score` being its scoring
call), when every exemplar score is a strictly negative log-likelihood, the
vote `1 / (distance / minValue)` is monotone in fit quality: every committee
member's vote is positive, of two committee members with distances `d1 > d2`
the first votes strictly more, and no committee member votes more than the
best-scoring exemplar, which is itself in the committee. -/
theorem vote_is_monotone (E : Collaborators α DM CM) (score : CM → α) (s : HMM α DM CM)
    (hneg : ∀ m, m ∈ s.continuousModels → score m < 0) :
    (∀ a, a ∈ committee E score s → 0 < 1 / (a.value / scoredMinValue E score s)) ∧
    (∀ a, a ∈ committee E score s → ∀ b, b ∈ committee E score s → b.value < a.value →
      1 / (b.value / scoredMinValue E score s) < 1 / (a.value / scoredMinValue E score s)) ∧
    (s.continuousModels ≠ [] → 0 < s.committeeSize →
      bestExemplar E score s ∈ committee E score s ∧
      ∀ a, a ∈ committee E score s →
        1 / (a.value / scoredMinValue E score s) ≤
          1 / ((bestExemplar E score s).value / scoredMinValue E score s)) := by
  have hmv : scoredMinValue E score s < 0 :=
    lt_of_le_of_lt (continuousScoreLoop_spec E score s).2 (by norm_num)
  have hval : ∀ a, a ∈ committee E score s → a.value < 0 := by
    intro a ha
    obtain ⟨m, hm, he⟩ := committee_subset E score s a ha
    rw [he]
    exact hneg m hm
  refine ⟨fun a ha => (vote_order _ _ a.value hmv (hval a ha)).1,
    fun a ha b _ hlt => (vote_order _ _ b.value hmv (hval a ha)).2.1 hlt, ?_⟩
  intro hm hc
  have hne : exemplarResults E score s ≠ [] := by
    unfold exemplarResults
    intro h
    exact hm (List.map_eq_nil_iff.mp h)
  have hsne : sortResults (exemplarResults E score s) ≠ [] := by
    intro h
    have := (sortResults_perm (exemplarResults E score s)).length_eq
    rw [h] at this
    exact hne (List.length_eq_zero.mp this.symm)
  have hbest : bestExemplar E score s ∈ committee E score s := by
    unfold bestExemplar committee
    rcases hs : sortResults (exemplarResults E score s) with _ | ⟨b, tl⟩
    · exact absurd hs hsne
    · obtain ⟨n, hn⟩ := Nat.exists_eq_succ_of_ne_zero (Nat.pos_iff_ne_zero.mp hc)
      rw [hn]
      exact List.mem_cons_self _ _
  refine ⟨hbest, fun a ha => ?_⟩
  obtain ⟨hb1, hb2⟩ := bestExemplar_spec E score s hm
  have hin : a ∈ exemplarResults E score s := by
    unfold committee at ha
    exact (sortResults_perm _).mem_iff.mp (List.mem_of_mem_take ha)
  exact (vote_order _ _ a.value hmv (hval _ hbest)).2.2 (hb2 a hin)

/-- Witness for C23: the exemplars of `exampleContinuous` score -2, -4 and -3;
the committee (7, -2), (7, -3) votes 500 and 1000/3. -/
theorem vote_is_monotone_witness :
    (∀ m, m ∈ exampleContinuous.continuousModels →
      vectorScore (tableCollaborators id true) exampleContinuous [1] m < 0) ∧
    (committee (tableCollaborators id true)
      (vectorScore (tableCollaborators id true) exampleContinuous [1]) exampleContinuous).map
      (fun a => 1 / (a.value / scoredMinValue (tableCollaborators id true)
        (vectorScore (tableCollaborators id true) exampleContinuous [1]) exampleContinuous))
      = [500, 1000 / 3] ∧
    ∀ a, a ∈ committee (tableCollaborators id true)
        (vectorScore (tableCollaborators id true) exampleContinuous [1]) exampleContinuous →
      0 < 1 / (a.value / scoredMinValue (tableCollaborators id true)
        (vectorScore (tableCollaborators id true) exampleContinuous [1]) exampleContinuous) :=
  ⟨by decide!, by decide!,
   (vote_is_monotone (tableCollaborators id true)
      (vectorScore (tableCollaborators id true) exampleContinuous [1]) exampleContinuous
      (by decide!)).1⟩

/-! ## The maximum search of the continuous decision -/

/-- The maximum search, as the running maximum of a score state. -/
theorem findMaximumLabel_eq_running (cd : List α) (bd0 : α) (k : Nat) :
    forLoop k
      (fun k (st : α × Nat) => if cd.getD k 0 > st.1 then (cd.getD k 0, k) else st) (bd0, 0) =
    ((forLoop k
        (fun k (st : ScoreState α) =>
          { st with
            bestDistance := if cd.getD k 0 > st.bestDistance then cd.getD k 0 else st.bestDistance
            bestIndex := if cd.getD k 0 > st.bestDistance then k else st.bestIndex })
        ⟨[], [], bd0, 0, 0⟩).bestDistance,
     (forLoop k
        (fun k (st : ScoreState α) =>
          { st with
            bestDistance := if cd.getD k 0 > st.bestDistance then cd.getD k 0 else st.bestDistance
            bestIndex := if cd.getD k 0 > st.bestDistance then k else st.bestIndex })
        ⟨[], [], bd0, 0, 0⟩).bestIndex) := by
  induction k with
  | zero => rfl
  | succ n ih =>
    rw [forLoop_succ, ih, forLoop_succ]
    dsimp only
    split_ifs <;> rfl

/-- The maximum search returns the first index of the greatest element when
some element exceeds the start value, and the start value with index 0
otherwise. -/
theorem findMaximumLabel_spec (n : Nat) (cd : List α) (bd0 : α) :
    ((∀ i, i < n → cd.getD i 0 ≤ bd0) → findMaximumLabel n cd bd0 = (bd0, 0)) ∧
    ((∃ i, i < n ∧ bd0 < cd.getD i 0) →
      (findMaximumLabel n cd bd0).2 < n ∧
      (findMaximumLabel n cd bd0).1 = cd.getD (findMaximumLabel n cd bd0).2 0 ∧
      (∀ i, i < n → cd.getD i 0 ≤ cd.getD (findMaximumLabel n cd bd0).2 0) ∧
      (∀ i, i < (findMaximumLabel n cd bd0).2 →
        cd.getD i 0 < cd.getD (findMaximumLabel n cd bd0).2 0)) := by
  unfold findMaximumLabel
  rw [findMaximumLabel_eq_running]
  obtain ⟨hA, hB⟩ := runningMaximum_partial (fun i => cd.getD i 0) bd0
    (fun k (st : ScoreState α) =>
      { st with
        bestDistance := if cd.getD k 0 > st.bestDistance then cd.getD k 0 else st.bestDistance
        bestIndex := if cd.getD k 0 > st.bestDistance then k else st.bestIndex })
    (fun _ _ => rfl) (fun _ _ => rfl) ⟨[], [], bd0, 0, 0⟩ rfl rfl n
  constructor
  · intro h
    obtain ⟨e1, e2⟩ := hA h
    rw [e1, e2]
  · intro h
    obtain ⟨b1, b2, _, b4, b5⟩ := hB h
    exact ⟨b1, b2, b4, b5⟩

/-- The label, likelihood and distance the continuous decision stores are
those at the index found by the maximum search. -/
theorem continuousDecision_best (E : Collaborators α DM CM) (score : CM → α)
    (s : HMM α DM CM) :
    (continuousDecision E score s).2.predictedClassLabel =
      s.classLabels.getD (continuousBestIndex E score s) 0 ∧
    (continuousDecision E score s).2.maxLikelihood =
      (continuousDecision E score s).2.classLikelihoods.getD (continuousBestIndex E score s) 0 ∧
    (continuousDecision E score s).2.bestDistance =
      (findMaximumLabel s.numClasses (continuousDecision E score s).2.classDistances
        (-1000)).1 := by
  have h2 : (continuousStart s).numClasses = s.numClasses := resizeBuffers_numClasses s
  have hl : (continuousDecision E score s).2.maxLikelihood =
      (continuousDecision E score s).2.classLikelihoods.getD
        (findMaximumLabel (continuousStart s).numClasses
          (continuousDecision E score s).2.classDistances (-1000)).2 0 := rfl
  have hb : (continuousDecision E score s).2.bestDistance =
      (findMaximumLabel (continuousStart s).numClasses
        (continuousDecision E score s).2.classDistances (-1000)).1 := rfl
  rw [h2] at hl hb
  exact ⟨continuousDecision_predictedClassLabel E score s, hl, hb⟩

/-- Counterexample for C24: the two exemplars of `fractionScoreClassifier`
score 1/3 (class 1) and 1/2 (class 2), so the accumulated values are
`[-3000, -2000]`. The largest is at class index 1, but no value exceeds the
start value -1000 of `bestDistance`: the index stays 0 and the label 1 of
class index 0 is predicted, not the label 2 of class index 1. -/
theorem continuous_label_counterexample :
    (predict_continuous (tableCollaborators id true) fractionScoreClassifier [1]).1 = true ∧
    (predict_continuous (tableCollaborators id true) fractionScoreClassifier
      [1]).2.classDistances = [-3000, -2000] ∧
    fractionScoreClassifier.classLabels = [1, 2] ∧
    isFirstMaxIndex (predict_continuous (tableCollaborators id true) fractionScoreClassifier
      [1]).2.classDistances 1 ∧
    (predict_continuous (tableCollaborators id true) fractionScoreClassifier
      [1]).2.predictedClassLabel = 1 ∧
    ¬ ((predict_continuous (tableCollaborators id true) fractionScoreClassifier
      [1]).2.predictedClassLabel = fractionScoreClassifier.classLabels.getD 1 0) := by
  unfold isFirstMaxIndex
  decide!

/-- C24 (amended): after a successful `predict_continuous` (either overload;
`score` is its scoring call and `r` the classifier after the call), the
predicted label is `classLabels[bestIndex]` and `maxLikelihood` is
`classLikelihoods[bestIndex]` for the index `bestIndex` found by the maximum
search. When the accumulated value of at least one class exceeds `-1000`, the
start value of `bestDistance`, that index is the first class index with the
largest accumulated `classDistances[k]`, and `bestDistance` is that value;
when no accumulated value exceeds `-1000` the index is 0 and `bestDistance`
keeps `-1000`. -/
theorem continuous_label_is_first_maximum (E : Collaborators α DM CM) (s r : HMM α DM CM)
    (v : List α) (ts : MatrixDouble α) (score : CM → α)
    (h : (predict_continuous E s v = (true, r) ∧ score = vectorScore E s v) ∨
      (predict_continuous_timeseries E s ts = (true, r) ∧ score = timeseriesScore E s ts)) :
    r.predictedClassLabel = s.classLabels.getD (continuousBestIndex E score s) 0 ∧
    r.maxLikelihood = r.classLikelihoods.getD (continuousBestIndex E score s) 0 ∧
    ((∃ k, k < s.numClasses ∧ -1000 < r.classDistances.getD k 0) →
      isFirstMaxIndex r.classDistances (continuousBestIndex E score s) ∧
      r.bestDistance = r.classDistances.getD (continuousBestIndex E score s) 0) ∧
    ((∀ k, k < s.numClasses → r.classDistances.getD k 0 ≤ -1000) →
      continuousBestIndex E score s = 0 ∧ r.bestDistance = -1000) := by
  have hr : r = (continuousDecision E score s).2 := by
    rcases h with ⟨h1, h2⟩ | ⟨h1, h2⟩
    · have h3 := predict_continuous_eq_vectorScore E s v (by rw [h1])
      rw [h1] at h3
      rw [h2, ← h3]
    · have h3 := predict_continuous_timeseries_eq_timeseriesScore E s ts (by rw [h1])
      rw [h1] at h3
      rw [h2, ← h3]
  rw [hr]
  obtain ⟨h1, h2, h3⟩ := continuousDecision_best E score s
  obtain ⟨hA, hB⟩ := findMaximumLabel_spec s.numClasses
    (continuousDecision E score s).2.classDistances (-1000)
  have hlen := (continuousDecision_likelihoods E score s).2
  refine ⟨h1, h2, ?_, ?_⟩
  · intro hex
    obtain ⟨b1, b2, b4, b5⟩ := hB hex
    refine ⟨⟨?_, ?_, b5⟩, ?_⟩
    · rw [hlen]
      exact b1
    · intro i hi
      exact b4 i (by rw [← hlen]; exact hi)
    · rw [h3]
      exact b2
  · intro hall
    have := hA hall
    constructor
    · unfold continuousBestIndex
      rw [this]
    · rw [h3, this]

/-- Witness for C24 (amended): `exampleContinuous` on the input `[1]`
accumulates `[500 + 1000/3, 0]`; the index found is 0, the first index of the
maximum, and the label 7 of class index 0 is predicted. -/
theorem continuous_label_is_first_maximum_witness :
    (predict_continuous (tableCollaborators id true) exampleContinuous [1]).1 = true ∧
    continuousBestIndex (tableCollaborators id true)
      (vectorScore (tableCollaborators id true) exampleContinuous [1]) exampleContinuous = 0 ∧
    (predict_continuous (tableCollaborators id true) exampleContinuous
      [1]).2.predictedClassLabel = 7 ∧
    isFirstMaxIndex
      (predict_continuous (tableCollaborators id true) exampleContinuous [1]).2.classDistances
      (continuousBestIndex (tableCollaborators id true)
        (vectorScore (tableCollaborators id true) exampleContinuous [1]) exampleContinuous) :=
  ⟨by decide!, by decide!, by decide!,
   ((continuous_label_is_first_maximum (tableCollaborators id true) exampleContinuous
      (predict_continuous (tableCollaborators id true) exampleContinuous [1]).2 [1] ⟨1, [[1]]⟩
      (vectorScore (tableCollaborators id true) exampleContinuous [1])
      (Or.inl ⟨Prod.ext (by decide!) rfl, rfl⟩)).2.2.1 ⟨0, by decide!, by decide!⟩).1⟩

/-! ## The two sub-model collections -/

/-- `train_discrete` leaves no exemplar model, and after a success there is one
discrete model per class of a dataset that has samples. -/
theorem train_discrete_collections (E : Collaborators α DM CM) (s : HMM α DM CM)
    (d : TimeSeriesClassificationData α) :
    (train_discrete E s d).2.continuousModels = [] ∧
    ((train_discrete E s d).1 = true →
      (train_discrete E s d).2.discreteModels.length = d.getNumClasses ∧
      d.getNumSamples ≠ 0) := by
  by_cases h1 : d.getNumSamples = 0
  · rw [train_discrete_empty E s d h1]
    exact ⟨rfl, fun h => Bool.noConfusion h⟩
  · by_cases h2 : d.getNumDimensions = 1
    · have hstart : (discreteTrainingStart E s d).discreteModels.length = d.getNumClasses := by
        unfold discreteTrainingStart
        dsimp only
        rw [initDiscreteModels_length, resize_length]
      rw [train_discrete_eq E s d h1 h2]
      rcases hr1 : forLoopE (List.range d.getNumClasses) (trainDiscreteModel E d)
          (discreteTrainingStart E s d) with ⟨b1, s1⟩
      have c1 : s1.continuousModels = [] :=
        forLoopE_proj_eq (fun x : HMM α DM CM => x.continuousModels) _
          (trainDiscreteModel_continuousModels E d) hr1
      have l1 := forLoopE_proj_eq (fun x : HMM α DM CM => x.discreteModels.length) _
        (trainDiscreteModel_length E d) hr1
      dsimp only at l1
      cases b1
      · exact ⟨c1, fun h => Bool.noConfusion h⟩
      · dsimp only
        rcases hr2 : forLoopE (List.range s1.numClasses) (computeThreshold E d)
            { s1 with
              nullRejectionThresholds := resize s1.nullRejectionThresholds s1.numClasses 0 }
            with ⟨b2, s2⟩
        have c2 := forLoopE_proj_eq (fun x : HMM α DM CM => x.continuousModels) _
          (computeThreshold_continuousModels E d) hr2
        have l2 := forLoopE_proj_eq (fun x : HMM α DM CM => x.discreteModels) _
          (computeThreshold_discreteModels E d) hr2
        dsimp only at c2 l2
        cases b2
        · exact ⟨c2.trans c1, fun h => Bool.noConfusion h⟩
        · refine ⟨c2.trans c1, fun _ => ⟨?_, h1⟩⟩
          dsimp only
          rw [l2, l1, hstart]
    · unfold train_discrete
      dsimp only
      rw [if_neg h1, if_pos h2]
      exact ⟨rfl, fun h => Bool.noConfusion h⟩

/-- `train_continuous` leaves no discrete model, and after a success there is
one exemplar model per training sample, of which there is at least one. -/
theorem train_continuous_collections (E : Collaborators α DM CM) (s : HMM α DM CM)
    (d : TimeSeriesClassificationData α) :
    (train_continuous E s d).2.discreteModels = [] ∧
    ((train_continuous E s d).1 = true →
      (train_continuous E s d).2.continuousModels.length = d.getNumSamples ∧
      d.getNumSamples ≠ 0) := by
  by_cases h1 : d.getNumSamples = 0
  · rw [train_continuous_empty E s d h1]
    exact ⟨rfl, fun h => Bool.noConfusion h⟩
  · have hlen : (if s.useScaling then scaleData E d 0 1 else d).getNumSamples
        = d.getNumSamples := by
      split_ifs
      · exact scaleData_getNumSamples E d 0 1
      · rfl
    unfold train_continuous
    dsimp only
    rw [if_neg h1]
    split
    · next s1 hr =>
      refine ⟨?_, fun h => Bool.noConfusion h⟩
      exact forLoopE_proj_eq (fun x : HMM α DM CM => x.discreteModels) _
        (trainContinuousModel_discreteModels E _) hr
    · next s1 hr =>
      have c1 := forLoopE_proj_eq (fun x : HMM α DM CM => x.discreteModels) _
        (trainContinuousModel_discreteModels E _) hr
      have l1 := forLoopE_proj_eq (fun x : HMM α DM CM => x.continuousModels.length) _
        (trainContinuousModel_length E _) hr
      dsimp only at c1 l1
      rw [resize_length] at l1
      have l1 := l1.trans hlen
      refine ⟨?_, fun _ => ⟨?_, h1⟩⟩
      · split_ifs
        · exact c1
        · exact c1
      · split_ifs
        · exact l1
        · exact l1

/-- Two classifiers with the same persistent state have the same sub-models. -/
theorem models_of_persistentState {a b : HMM α DM CM}
    (h : persistentState a = persistentState b) :
    a.discreteModels = b.discreteModels ∧ a.continuousModels = b.continuousModels :=
  ⟨congrArg (fun p => p.2.2.2.2.2.2.2.1) h, congrArg (fun p => p.2.2.2.2.2.2.2.2) h⟩

/-- No call makes both sub-model collections non-empty. -/
theorem applyCall_exclusive (E : Collaborators α DM CM) (s : HMM α DM CM) (c : Call α)
    (h : s.discreteModels = [] ∨ s.continuousModels = []) :
    (applyCall E s c).2.discreteModels = [] ∨ (applyCall E s c).2.continuousModels = [] := by
  cases c with
  | train d =>
    unfold applyCall train_
    split_ifs
    · exact Or.inr (train_discrete_collections E s d).1
    · exact Or.inl (train_continuous_collections E s d).1
    · exact h
  | predict v =>
    unfold applyCall predict_
    split_ifs
    · obtain ⟨e1, e2⟩ := models_of_persistentState (predict_discrete_persistentState E s v)
      rw [e1, e2]
      exact h
    · obtain ⟨e1, e2⟩ := models_of_persistentState (predict_continuous_persistentState E s v)
      rw [e1, e2]
      exact h
    · exact h
  | predictTimeseries ts =>
    unfold applyCall predict_timeseries
    split_ifs
    · obtain ⟨e1, e2⟩ :=
        models_of_persistentState (predict_discrete_timeseries_persistentState E s ts)
      rw [e1, e2]
      exact h
    · obtain ⟨e1, e2⟩ :=
        models_of_persistentState (predict_continuous_timeseries_persistentState E s ts)
      rw [e1, e2]
      exact h
    · exact h
  | clear => exact Or.inl rfl
  | setHMMType n =>
    unfold applyCall setHMMType
    dsimp only
    split_ifs <;> exact Or.inl rfl
  | setModelType n =>
    unfold applyCall setModelType
    dsimp only
    split_ifs <;> exact Or.inl rfl
  | setDelta n =>
    unfold applyCall setDelta
    dsimp only
    split_ifs <;> exact Or.inl rfl
  | setDownsampleFactor n =>
    unfold applyCall setDownsampleFactor
    dsimp only
    split_ifs <;> exact Or.inl rfl
  | setCommitteeSize n =>
    unfold applyCall setCommitteeSize
    dsimp only
    split_ifs <;> exact h
  | setNumStates n =>
    unfold applyCall setNumStates
    dsimp only
    split_ifs <;> exact Or.inl rfl
  | setNumSymbols n =>
    unfold applyCall setNumSymbols
    dsimp only
    split_ifs <;> exact Or.inl rfl
  | setNumRandomTrainingIterations n =>
    unfold applyCall setNumRandomTrainingIterations
    dsimp only
    split_ifs <;> exact Or.inl rfl

/-- No sequence of calls makes both sub-model collections non-empty. -/
theorem runCalls_exclusive (E : Collaborators α DM CM) (calls : List (Call α)) :
    ∀ s : HMM α DM CM, (s.discreteModels = [] ∨ s.continuousModels = []) →
      (runCalls E calls s).discreteModels = [] ∨ (runCalls E calls s).continuousModels = [] := by
  unfold runCalls
  induction calls with
  | nil => exact fun s h => h
  | cons c cs ih =>
    intro s h
    rw [List.foldl_cons]
    exact ih _ (applyCall_exclusive E s c h)

/-- C25: in every state `s` reached from a freshly constructed classifier by a
sequence of `train_`, `predict_`, `clear` and setter calls, `discreteModels`
and `continuousModels` are never both non-empty. After a successful training
call on such a state exactly one collection is non-empty, the one selected by
`hmmType`: in the discrete mode `continuousModels` is empty and
`discreteModels` has one model per class (of a dataset with at least one
class), in the continuous mode `discreteModels` is empty and
`continuousModels` has one model per training sample. -/
theorem models_exclusive (E : Collaborators α DM CM) (hmmType modelType delta : Nat)
    (useScaling useNullRejection : Bool) (calls : List (Call α)) (s : HMM α DM CM)
    (d : TimeSeriesClassificationData α)
    (hs : s = runCalls E calls (new hmmType modelType delta useScaling useNullRejection)) :
    ¬ (s.discreteModels ≠ [] ∧ s.continuousModels ≠ []) ∧
    ((train_ E s d).1 = true →
      (s.hmmType = HMM_DISCRETE ∧
        (train_ E s d).2.discreteModels.length = d.getNumClasses ∧
        (0 < d.getNumClasses → (train_ E s d).2.discreteModels ≠ []) ∧
        (train_ E s d).2.continuousModels = []) ∨
      (s.hmmType = HMM_CONTINUOUS ∧
        (train_ E s d).2.continuousModels.length = d.getNumSamples ∧
        (train_ E s d).2.continuousModels ≠ [] ∧
        (train_ E s d).2.discreteModels = [])) := by
  constructor
  · rintro ⟨h1, h2⟩
    have := runCalls_exclusive E calls
      (new hmmType modelType delta useScaling useNullRejection) (Or.inl rfl)
    rw [← hs] at this
    rcases this with h | h
    · exact h1 h
    · exact h2 h
  · unfold train_
    split_ifs with h1 h2
    · intro ht
      left
      obtain ⟨hc, hl⟩ := train_discrete_collections E s d
      obtain ⟨hlen, _⟩ := hl ht
      refine ⟨h1, hlen, ?_, hc⟩
      intro hpos hnil
      rw [hnil] at hlen
      exact absurd hlen.symm (Nat.pos_iff_ne_zero.mp hpos)
    · intro ht
      right
      obtain ⟨hc, hl⟩ := train_continuous_collections E s d
      obtain ⟨hlen, hne⟩ := hl ht
      refine ⟨h2, hlen, ?_, hc⟩
      intro hnil
      rw [hnil] at hlen
      exact hne hlen.symm
    · intro ht
      exact absurd ht (by simp)

/-- Witness for C25: after the calls of `exampleCalls` on a fresh discrete
classifier (configure, train discrete, predict, switch to continuous, train
continuous, predict) there is no discrete model and there are three exemplar
models. -/
theorem models_exclusive_witness :
    (runCalls (tableCollaborators id true) exampleCalls
      (new HMM_DISCRETE HMM_ERGODIC 1 false false)).discreteModels = [] ∧
    (runCalls (tableCollaborators id true) exampleCalls
      (new HMM_DISCRETE HMM_ERGODIC 1 false false)).continuousModels.length = 3 ∧
    (runCalls (tableCollaborators (id : ℚ → ℚ) true)
      [Call.setNumStates 5, Call.train exampleData]
      (new HMM_DISCRETE HMM_ERGODIC 1 false false)).discreteModels.length = 2 ∧
    ¬ ((runCalls (tableCollaborators id true) exampleCalls
        (new HMM_DISCRETE HMM_ERGODIC 1 false false)).discreteModels ≠ [] ∧
      (runCalls (tableCollaborators id true) exampleCalls
        (new HMM_DISCRETE HMM_ERGODIC 1 false false)).continuousModels ≠ []) :=
  ⟨by decide!, by decide!, by decide!,
   (models_exclusive (tableCollaborators id true) HMM_DISCRETE HMM_ERGODIC 1 false false
      exampleCalls _ exampleData rfl).1⟩

/-- Witness for C22 (amended): the exemplars of `lowScoreClassifier` score
-2000 and -4, and `minValue` is -2000, the minimum of the scores; the
exemplars of `exampleContinuous` all score above -1000, and `minValue` is
-1000. -/
theorem min_value_is_floored_minimum_witness :
    scoredMinValue (tableCollaborators id true)
      (vectorScore (tableCollaborators id true) lowScoreClassifier [1]) lowScoreClassifier
      = -2000 ∧
    (∃ m, m ∈ lowScoreClassifier.continuousModels ∧
      scoredMinValue (tableCollaborators id true)
        (vectorScore (tableCollaborators id true) lowScoreClassifier [1]) lowScoreClassifier =
      vectorScore (tableCollaborators id true) lowScoreClassifier [1] m) ∧
    scoredMinValue (tableCollaborators id true)
      (vectorScore (tableCollaborators id true) exampleContinuous [1]) exampleContinuous
      = -1000 :=
  ⟨by decide!,
   (min_value_is_floored_minimum (tableCollaborators id true)
      (vectorScore (tableCollaborators id true) lowScoreClassifier [1])
      lowScoreClassifier).2.2.2.2.2.1 ⟨(7, -2000), by decide!, by decide!⟩,
   (min_value_is_floored_minimum (tableCollaborators id true)
      (vectorScore (tableCollaborators id true) exampleContinuous [1])
      exampleContinuous).2.2.2.2.2.2 (by decide!)⟩

/-! ## The normalised likelihoods of the discrete decision -/

/-- Element `k` of a mapped list. -/
theorem getD_map_zero {β : Type} (l : List β) (f : β → α) (k : Nat) (d : β)
    (hk : k < l.length) : (l.map f).getD k 0 = f (l.getD k d) := by
  rw [List.getD_eq_getElem _ _ (by rw [List.length_map]; exact hk), List.getElem_map,
    List.getD_eq_getElem _ _ hk]

/-- Two elements at different places of a list of non-negative numbers add up
to at most the sum of the list. -/
theorem two_le_sum (l : List α) (hnn : ∀ x, x ∈ l → 0 ≤ x) (i j : Nat) (hij : i < j)
    (hj : j < l.length) : l.getD i 0 + l.getD j 0 ≤ l.sum := by
  have hsplit : l = l.take j ++ l.getD j 0 :: l.drop (j + 1) := by
    rw [List.getD_eq_getElem _ _ hj, ← List.drop_eq_getElem_cons hj, List.take_append_drop]
  have hi : l.getD i 0 ∈ l.take j := by
    rw [List.getD_eq_getElem _ _ (lt_trans hij hj), List.mem_take_iff_getElem]
    exact ⟨i, by rw [lt_min_iff]; exact ⟨hij, lt_trans hij hj⟩, rfl⟩
  have h1 : l.getD i 0 ≤ (l.take j).sum :=
    List.single_le_sum (fun x hx => hnn x (List.mem_of_mem_take hx)) _ hi
  have h2 : 0 ≤ (l.drop (j + 1)).sum :=
    List.sum_nonneg (fun x hx => hnn x (List.mem_of_mem_drop hx))
  have h3 : l.sum = (l.take j).sum + (l.getD j 0 + (l.drop (j + 1)).sum) := by
    conv_lhs => rw [hsplit]
    rw [List.sum_append, List.sum_cons]
  rw [h3]
  linarith

/-- The distances the discrete decision stores are the scores of the class
models, in class order. -/
theorem discreteStart_classDistances (E : Collaborators α DM CM) (score : DM → α)
    (s0 : HMM α DM CM) :
    (discreteDecision E score (discreteStart s0)).2.classDistances =
      (List.range s0.numClasses).map (fun i => score (s0.discreteModels.getD i E.dNew)) := by
  have hnc : (discreteStart s0).numClasses = s0.numClasses := resizeBuffers_numClasses s0
  have hdm : (discreteStart s0).discreteModels = s0.discreteModels :=
    resizeBuffers_discreteModels s0
  have hd : (discreteStart s0).classDistances.length = (discreteStart s0).numClasses := by
    rw [hnc]; exact resizeBuffers_classDistances_length s0
  have hl : (discreteStart s0).classLikelihoods.length = (discreteStart s0).numClasses := by
    rw [hnc]; exact resizeBuffers_classLikelihoods_length s0
  rw [discreteDecision_classDistances, (discreteScoreLoop_spec E score (discreteStart s0) hd hl).1,
    hnc, hdm]

/-- A successful discrete prediction, of either overload, is the discrete
decision on the classifier's models, labels and thresholds, and its best index
is the one of the scoring loop. -/
theorem predict_discrete_cases (E : Collaborators α DM CM) (s r : HMM α DM CM) (v : List α)
    (ts : MatrixDouble α) (b : Nat)
    (h : (predict_discrete E s v = (true, r) ∧ b = vectorBestIndex E s v) ∨
      (predict_discrete_timeseries E s ts = (true, r) ∧ b = timeseriesBestIndex E s ts)) :
    ∃ (score : DM → α) (s0 : HMM α DM CM),
      s0.numClasses = s.numClasses ∧ s0.discreteModels = s.discreteModels ∧
      s0.classLabels = s.classLabels ∧ s0.useNullRejection = s.useNullRejection ∧
      s0.nullRejectionThresholds = s.nullRejectionThresholds ∧
      r = (discreteDecision E score (discreteStart s0)).2 ∧
      b = (discreteScoreLoop E score (discreteStart s0)).bestIndex := by
  rcases h with ⟨h1, h2⟩ | ⟨h1, h2⟩
  · have h3 := predict_discrete_eq_decision E s v (by rw [h1])
    rw [h1] at h3
    exact ⟨symbolScore E v, { s with predictedClassLabel := 0, maxLikelihood := -10000 },
      rfl, rfl, rfl, rfl, rfl, by rw [← h3], h2⟩
  · have h3 := predict_discrete_timeseries_eq_decision E s ts (by rw [h1])
    rw [h1] at h3
    exact ⟨sequenceScore E s ts, s, rfl, rfl, rfl, rfl, rfl, by rw [← h3], h2⟩

/-- The distances of a successful `predict_discrete(VectorDouble&)` are the
scores the class models give to the symbol. -/
theorem predict_discrete_classDistances (E : Collaborators α DM CM) (s : HMM α DM CM) (v : List α)
    (h : (predict_discrete E s v).1 = true) :
    (predict_discrete E s v).2.classDistances =
      (List.range s.numClasses).map (fun i => symbolScore E v (s.discreteModels.getD i E.dNew)) := by
  rw [predict_discrete_eq_decision E s v h]
  exact discreteStart_classDistances E (symbolScore E v)
    { s with predictedClassLabel := 0, maxLikelihood := -10000 }

/-! ## Success of the discrete training -/

/-- The loop body of the model fits succeeds when the class's values are below
`numSymbols` and the fit succeeds. -/
theorem trainDiscreteModel_succeeds (E : Collaborators α DM CM)
    (d : TimeSeriesClassificationData α) (k : Nat) (st : HMM α DM CM)
    (hfit : ∀ m seqs, (E.dTrain m seqs).1 = true)
    (hr : ∀ x, x ∈ (d.getClassData (d.classLabelAt k)).data → ∀ j, j < x.data.getNumRows →
      x.data.elem j 0 < (st.numSymbols : α)) :
    (trainDiscreteModel E d k st).1 = true := by
  have hc := (convertDataToObservationSequence_fst E
    { st with classLabels := st.classLabels.set k (d.classLabelAt k) }
    (d.getClassData (d.classLabelAt k)) []).mpr hr
  unfold trainDiscreteModel
  dsimp only
  split
  · next x heq =>
    rw [heq] at hc
    exact absurd hc (by simp)
  · next obs heq =>
    split
    · next m heq2 =>
      have := hfit (st.discreteModels.getD k E.dNew) obs
      rw [heq2] at this
      exact absurd this (by simp)
    · rfl

/-- The loop body of the thresholds succeeds when the class's values are below
`numSymbols`. -/
theorem computeThreshold_succeeds (E : Collaborators α DM CM)
    (d : TimeSeriesClassificationData α) (k : Nat) (st : HMM α DM CM)
    (hr : ∀ x, x ∈ (d.getClassData (d.classLabelAt k)).data → ∀ j, j < x.data.getNumRows →
      x.data.elem j 0 < (st.numSymbols : α)) :
    (computeThreshold E d k st).1 = true := by
  have hc := (convertDataToObservationSequence_fst E
    { st with classLabels := st.classLabels.set k (d.classLabelAt k) }
    (d.getClassData (d.classLabelAt k)) []).mpr hr
  unfold computeThreshold
  dsimp only
  split
  · next x heq =>
    rw [heq] at hc
    exact absurd hc (by simp)
  · rfl

/-- `train_discrete` succeeds on a one-dimensional dataset with samples whose
values are all below `numSymbols`, when every model fit succeeds. -/
theorem train_discrete_succeeds (E : Collaborators α DM CM) (s : HMM α DM CM)
    (d : TimeSeriesClassificationData α) (h1 : d.getNumSamples ≠ 0)
    (h2 : d.getNumDimensions = 1) (hfit : ∀ m seqs, (E.dTrain m seqs).1 = true)
    (hrange : ∀ k, k < d.getNumClasses →
      ∀ x, x ∈ (d.getClassData (d.classLabelAt k)).data → ∀ j, j < x.data.getNumRows →
        x.data.elem j 0 < (s.numSymbols : α)) :
    (train_discrete E s d).1 = true := by
  rw [train_discrete_eq E s d h1 h2]
  have hloop1 : (forLoopE (List.range d.getNumClasses) (trainDiscreteModel E d)
      (discreteTrainingStart E s d)).1 = true :=
    (forLoopE_true_iff (fun st : HMM α DM CM => st.numSymbols = s.numSymbols)
      (fun k => k < d.getNumClasses) (trainDiscreteModel E d) _ (discreteTrainingStart E s d)
      (fun k st hk hP =>
        ⟨⟨fun _ => List.mem_range.mp hk,
          fun _ => trainDiscreteModel_succeeds E d k st hfit
            (by rw [hP]; exact hrange k (List.mem_range.mp hk))⟩,
         (trainDiscreteModel_numSymbols E d k st).trans hP⟩)
      (rfl : (discreteTrainingStart E s d).numSymbols = s.numSymbols)).mpr
      (fun k hk => List.mem_range.mp hk)
  rcases hr1 : forLoopE (List.range d.getNumClasses) (trainDiscreteModel E d)
      (discreteTrainingStart E s d) with ⟨b1, s1⟩
  rw [hr1] at hloop1
  dsimp only at hloop1
  subst hloop1
  dsimp only
  have hsym0 := forLoopE_proj_eq (fun x : HMM α DM CM => x.numSymbols) _
    (trainDiscreteModel_numSymbols E d) hr1
  have hsym : s1.numSymbols = s.numSymbols := hsym0
  have hnc0 := forLoopE_proj_eq (fun x : HMM α DM CM => x.numClasses) _
    (trainDiscreteModel_numClasses E d) hr1
  have hnc : s1.numClasses = d.getNumClasses := hnc0
  have hloop2 : (forLoopE (List.range s1.numClasses) (computeThreshold E d)
      { s1 with nullRejectionThresholds := resize s1.nullRejectionThresholds s1.numClasses 0 }).1
      = true :=
    (forLoopE_true_iff (fun st : HMM α DM CM => st.numSymbols = s.numSymbols)
      (fun k => k < d.getNumClasses) (computeThreshold E d) _
      { s1 with nullRejectionThresholds := resize s1.nullRejectionThresholds s1.numClasses 0 }
      (fun k st hk hP =>
        ⟨⟨fun _ => hnc ▸ List.mem_range.mp hk,
          fun _ => computeThreshold_succeeds E d k st
            (by rw [hP]; exact hrange k (hnc ▸ List.mem_range.mp hk))⟩,
         (computeThreshold_numSymbols E d k st).trans hP⟩) hsym).mpr
      (fun k hk => hnc ▸ List.mem_range.mp hk)
  rcases hr2 : forLoopE (List.range s1.numClasses) (computeThreshold E d)
      { s1 with nullRejectionThresholds := resize s1.nullRejectionThresholds s1.numClasses 0 }
      with ⟨b2, s2⟩
  rw [hr2] at hloop2
  dsimp only at hloop2
  subst hloop2
  rfl


/-- The fit of a class model leaves `hmmType` as it is. -/
theorem trainDiscreteModel_hmmType (E : Collaborators α DM CM)
    (d : TimeSeriesClassificationData α) (k : Nat) (s : HMM α DM CM) :
    (trainDiscreteModel E d k s).2.hmmType = s.hmmType := by
  unfold trainDiscreteModel
  dsimp only
  split
  · rfl
  · split <;> rfl

/-- The threshold of a class leaves `hmmType` as it is. -/
theorem computeThreshold_hmmType (E : Collaborators α DM CM)
    (d : TimeSeriesClassificationData α) (k : Nat) (s : HMM α DM CM) :
    (computeThreshold E d k s).2.hmmType = s.hmmType := by
  unfold computeThreshold
  dsimp only
  split <;> rfl

/-- `train_discrete` leaves `hmmType` as it is. -/
theorem train_discrete_hmmType (E : Collaborators α DM CM) (s : HMM α DM CM)
    (d : TimeSeriesClassificationData α) :
    (train_discrete E s d).2.hmmType = s.hmmType := by
  by_cases h1 : d.getNumSamples = 0
  · rw [train_discrete_empty E s d h1]
    rfl
  · by_cases h2 : d.getNumDimensions = 1
    · rw [train_discrete_eq E s d h1 h2]
      rcases hr1 : forLoopE (List.range d.getNumClasses) (trainDiscreteModel E d)
          (discreteTrainingStart E s d) with ⟨b1, s1⟩
      have c1 := forLoopE_proj_eq (fun x : HMM α DM CM => x.hmmType) _
        (trainDiscreteModel_hmmType E d) hr1
      dsimp only at c1
      have c1' : s1.hmmType = s.hmmType := c1
      cases b1
      · exact c1'
      · dsimp only
        rcases hr2 : forLoopE (List.range s1.numClasses) (computeThreshold E d)
            { s1 with
              nullRejectionThresholds := resize s1.nullRejectionThresholds s1.numClasses 0 }
            with ⟨b2, s2⟩
        have c2 := forLoopE_proj_eq (fun x : HMM α DM CM => x.hmmType) _
          (computeThreshold_hmmType E d) hr2
        dsimp only at c2
        cases b2
        · exact c2.trans c1'
        · exact c2.trans c1'
    · unfold train_discrete
      dsimp only
      rw [if_neg h1, if_pos h2]
      rfl

/-- The fit of an exemplar model leaves `ranges` and `numInputDimensions` as
they are. -/
theorem trainContinuousModel_ranges (E : Collaborators α DM CM)
    (d : TimeSeriesClassificationData α) (k : Nat) (s : HMM α DM CM) :
    (trainContinuousModel E d k s).2.ranges = s.ranges ∧
    (trainContinuousModel E d k s).2.numInputDimensions = s.numInputDimensions := by
  unfold trainContinuousModel
  dsimp only
  split <;> exact ⟨rfl, rfl⟩

/-- After `train_continuous`, whatever it returns, `ranges` has one entry per
input dimension, when `getRanges` returns one range per dimension of the
dataset. -/
theorem train_continuous_ranges (E : Collaborators α DM CM) (s : HMM α DM CM)
    (d : TimeSeriesClassificationData α)
    (hR : ∀ d : TimeSeriesClassificationData α, (E.getRanges d).length = d.getNumDimensions) :
    (train_continuous E s d).2.ranges.length = (train_continuous E s d).2.numInputDimensions := by
  by_cases h1 : d.getNumSamples = 0
  · rw [train_continuous_empty E s d h1]
    rfl
  · unfold train_continuous
    dsimp only
    rw [if_neg h1]
    split
    · next s1 hr =>
      have c1 := forLoopE_proj_eq (fun x : HMM α DM CM => x.ranges) _
        (fun k st => (trainContinuousModel_ranges E _ k st).1) hr
      have c2 := forLoopE_proj_eq (fun x : HMM α DM CM => x.numInputDimensions) _
        (fun k st => (trainContinuousModel_ranges E _ k st).2) hr
      dsimp only at c1 c2 ⊢
      rw [c1, c2]
      exact hR d
    · next s1 hr =>
      have c1 := forLoopE_proj_eq (fun x : HMM α DM CM => x.ranges) _
        (fun k st => (trainContinuousModel_ranges E _ k st).1) hr
      have c2 := forLoopE_proj_eq (fun x : HMM α DM CM => x.numInputDimensions) _
        (fun k st => (trainContinuousModel_ranges E _ k st).2) hr
      dsimp only at c1 c2 ⊢
      split_ifs
      · dsimp only
        rw [c1, c2]
        exact hR d
      · rw [c1, c2]
        exact hR d

/-- Two classifiers with the same persistent state have the same mode, ranges
and input dimensionality. -/
theorem ranges_of_persistentState {a b : HMM α DM CM}
    (h : persistentState a = persistentState b) :
    a.hmmType = b.hmmType ∧ a.ranges = b.ranges ∧
    a.numInputDimensions = b.numInputDimensions :=
  ⟨congrArg (fun p => p.1.1) h, congrArg (fun p => p.2.2.2.2.2.2.1) h,
   congrArg (fun p => p.2.2.1) h⟩

/-- Every call keeps: in the continuous mode `ranges` has one entry per input
dimension. -/
theorem applyCall_ranges (E : Collaborators α DM CM) (s : HMM α DM CM) (c : Call α)
    (hR : ∀ d : TimeSeriesClassificationData α, (E.getRanges d).length = d.getNumDimensions)
    (h : s.hmmType = HMM_CONTINUOUS → s.ranges.length = s.numInputDimensions) :
    (applyCall E s c).2.hmmType = HMM_CONTINUOUS →
      (applyCall E s c).2.ranges.length = (applyCall E s c).2.numInputDimensions := by
  cases c with
  | train d =>
    unfold applyCall train_
    dsimp only
    split_ifs with h1 h2
    · intro hc
      rw [train_discrete_hmmType, h1] at hc
      exact absurd hc (by decide)
    · intro _
      exact train_continuous_ranges E s d hR
    · exact h
  | predict v =>
    unfold applyCall predict_
    dsimp only
    split_ifs
    · obtain ⟨e1, e2, e3⟩ := ranges_of_persistentState (predict_discrete_persistentState E s v)
      rw [e1, e2, e3]
      exact h
    · obtain ⟨e1, e2, e3⟩ := ranges_of_persistentState (predict_continuous_persistentState E s v)
      rw [e1, e2, e3]
      exact h
    · exact h
  | predictTimeseries ts =>
    unfold applyCall predict_timeseries
    dsimp only
    split_ifs
    · obtain ⟨e1, e2, e3⟩ :=
        ranges_of_persistentState (predict_discrete_timeseries_persistentState E s ts)
      rw [e1, e2, e3]
      exact h
    · obtain ⟨e1, e2, e3⟩ :=
        ranges_of_persistentState (predict_continuous_timeseries_persistentState E s ts)
      rw [e1, e2, e3]
      exact h
    · exact h
  | clear => exact fun _ => rfl
  | setHMMType n =>
    unfold applyCall setHMMType
    dsimp only
    split_ifs <;> exact fun _ => rfl
  | setModelType n =>
    unfold applyCall setModelType
    dsimp only
    split_ifs <;> exact fun _ => rfl
  | setDelta n =>
    unfold applyCall setDelta
    dsimp only
    split_ifs <;> exact fun _ => rfl
  | setDownsampleFactor n =>
    unfold applyCall setDownsampleFactor
    dsimp only
    split_ifs <;> exact fun _ => rfl
  | setCommitteeSize n =>
    unfold applyCall setCommitteeSize
    dsimp only
    split_ifs <;> exact h
  | setNumStates n =>
    unfold applyCall setNumStates
    dsimp only
    split_ifs <;> exact fun _ => rfl
  | setNumSymbols n =>
    unfold applyCall setNumSymbols
    dsimp only
    split_ifs <;> exact fun _ => rfl
  | setNumRandomTrainingIterations n =>
    unfold applyCall setNumRandomTrainingIterations
    dsimp only
    split_ifs <;> exact fun _ => rfl

/-- After every sequence of calls: in the continuous mode `ranges` has one
entry per input dimension. -/
theorem runCalls_ranges (E : Collaborators α DM CM) (calls : List (Call α))
    (hR : ∀ d : TimeSeriesClassificationData α, (E.getRanges d).length = d.getNumDimensions) :
    ∀ s : HMM α DM CM, (s.hmmType = HMM_CONTINUOUS → s.ranges.length = s.numInputDimensions) →
      (runCalls E calls s).hmmType = HMM_CONTINUOUS →
      (runCalls E calls s).ranges.length = (runCalls E calls s).numInputDimensions := by
  unfold runCalls
  induction calls with
  | nil => exact fun s h => h
  | cons c cs ih =>
    intro s h
    rw [List.foldl_cons]
    exact ih _ (applyCall_ranges E s c hR h)


/-- The ranges computed by `rangedCollaborators` have one entry per dimension. -/
theorem rangedCollaborators_getRanges_length (d : TimeSeriesClassificationData ℚ) :
    (rangedCollaborators.getRanges d).length = d.getNumDimensions := by
  simp [rangedCollaborators, dataRanges]

/-- C17: in every state `s` reached from a freshly constructed classifier by a
sequence of `train_`, `predict_`, `clear` and setter calls and in the
continuous mode (the mode in which `predict_` runs `predict_continuous`), when
`getRanges` returns one range per dimension of the dataset: `ranges` has
exactly `numInputDimensions` entries, so a state with fewer range entries than
`numInputDimensions` does not occur; `predict_continuous` (both overloads)
returns failure exactly when the classifier is untrained or the input's
dimensionality differs from `numInputDimensions`; when no ranges are stored
(`ranges` is empty) every input with at least one dimension is rejected; and
the scaling loop, which reads `ranges[i]` for every `i < numInputDimensions`,
never reads `ranges` out of bounds. This holds whether or not scaling is
enabled. -/
theorem scaling_reads_in_bounds (E : Collaborators α DM CM) (hmmType modelType delta : Nat)
    (useScaling useNullRejection : Bool) (calls : List (Call α)) (s : HMM α DM CM)
    (v : List α) (ts : MatrixDouble α)
    (hR : ∀ d : TimeSeriesClassificationData α, (E.getRanges d).length = d.getNumDimensions)
    (hs : s = runCalls E calls (new hmmType modelType delta useScaling useNullRejection))
    (hc : s.hmmType = HMM_CONTINUOUS) :
    (predict_ E s v = predict_continuous E s v ∧
      predict_timeseries E s ts = predict_continuous_timeseries E s ts) ∧
    s.ranges.length = s.numInputDimensions ∧
    ((predict_continuous E s v).1 = false ↔
      (s.trained = false ∨ v.length ≠ s.numInputDimensions)) ∧
    ((predict_continuous_timeseries E s ts).1 = false ↔
      (s.trained = false ∨ ts.getNumCols ≠ s.numInputDimensions)) ∧
    (s.ranges = [] →
      (0 < v.length → (predict_continuous E s v).1 = false) ∧
      (0 < ts.getNumCols → (predict_continuous_timeseries E s ts).1 = false)) ∧
    scaleInputVectorChecked E s v = some (scaleInputVector E s v) ∧
    scaleTimeseriesChecked E s ts = some (scaleTimeseries E s ts) := by
  have hlen : s.ranges.length = s.numInputDimensions := by
    rw [hs] at hc ⊢
    exact runCalls_ranges E calls hR _ (fun _ => rfl) hc
  have hne : ¬ s.hmmType = HMM_DISCRETE := by
    rw [hc]
    decide
  refine ⟨⟨?_, ?_⟩, hlen, predict_continuous_fails_iff E s v,
    predict_continuous_timeseries_fails_iff E s ts, ?_,
    scaleInputVectorChecked_eq_some E s v (le_of_eq hlen.symm),
    scaleTimeseriesChecked_eq_some E s ts (le_of_eq hlen.symm)⟩
  · unfold predict_
    rw [if_neg hne, if_pos hc]
  · unfold predict_timeseries
    rw [if_neg hne, if_pos hc]
  · intro hnil
    have h0 : s.numInputDimensions = 0 := by
      rw [← hlen, hnil]
      rfl
    constructor
    · intro hv
      exact (predict_continuous_fails_iff E s v).mpr (Or.inr (by rw [h0]; exact ne_of_gt hv))
    · intro hv
      exact (predict_continuous_timeseries_fails_iff E s ts).mpr
        (Or.inr (by rw [h0]; exact ne_of_gt hv))

/-- Witness for C17: a fresh continuous classifier with scaling enabled, after
the calls of `scalingCalls` (committee size 2, training on `scalingData`), is
trained with the stored range `[0, 4]` of its single dimension; the input `[2]`
is accepted and the scaling loop stays in bounds and yields `[1/2]`. -/
theorem scaling_reads_in_bounds_witness :
    (∀ d : TimeSeriesClassificationData ℚ,
      (rangedCollaborators.getRanges d).length = d.getNumDimensions) ∧
    ((runCalls rangedCollaborators scalingCalls
        (new HMM_CONTINUOUS HMM_ERGODIC 1 true false)).hmmType = HMM_CONTINUOUS ∧
      (runCalls rangedCollaborators scalingCalls
        (new HMM_CONTINUOUS HMM_ERGODIC 1 true false)).useScaling = true ∧
      (runCalls rangedCollaborators scalingCalls
        (new HMM_CONTINUOUS HMM_ERGODIC 1 true false)).trained = true ∧
      (runCalls rangedCollaborators scalingCalls
        (new HMM_CONTINUOUS HMM_ERGODIC 1 true false)).ranges = [⟨0, 4⟩]) ∧
    (predict_continuous rangedCollaborators
      (runCalls rangedCollaborators scalingCalls
        (new HMM_CONTINUOUS HMM_ERGODIC 1 true false)) [2]).1 = true ∧
    scaleInputVector rangedCollaborators
      (runCalls rangedCollaborators scalingCalls
        (new HMM_CONTINUOUS HMM_ERGODIC 1 true false)) [2] = [1 / 2] ∧
    scaleInputVectorChecked rangedCollaborators
      (runCalls rangedCollaborators scalingCalls
        (new HMM_CONTINUOUS HMM_ERGODIC 1 true false)) [2] =
      some (scaleInputVector rangedCollaborators
        (runCalls rangedCollaborators scalingCalls
          (new HMM_CONTINUOUS HMM_ERGODIC 1 true false)) [2]) :=
  ⟨rangedCollaborators_getRanges_length,
   ⟨by decide!, by decide!, by decide!, by decide!⟩, by decide!, by decide!,
   (scaling_reads_in_bounds rangedCollaborators HMM_CONTINUOUS HMM_ERGODIC 1 true false
      scalingCalls _ [2] ⟨1, [[2]]⟩ rangedCollaborators_getRanges_length rfl
      (by decide!)).2.2.2.2.2.1⟩

/-! ## Underflow of the exponential -/

/-- The stand-in for `exp` is never negative. -/
theorem underflowAntilog_nonneg (x : α) : 0 ≤ underflowAntilog x := by
  unfold underflowAntilog
  split_ifs with h1 h2
  · exact le_refl _
  · apply div_nonneg zero_le_one
    linarith
  · push_neg at h2
    linarith

/-- The stand-in for `exp` is non-decreasing. -/
theorem underflowAntilog_mono (x y : α) (hxy : x ≤ y) :
    underflowAntilog x ≤ underflowAntilog y := by
  by_cases hx : x < -746
  · have h0 : underflowAntilog x = 0 := by
      unfold underflowAntilog
      rw [if_pos hx]
    rw [h0]
    exact underflowAntilog_nonneg y
  · have hy : ¬ y < -746 := fun h => hx (lt_of_le_of_lt hxy h)
    unfold underflowAntilog
    rw [if_neg hx, if_neg hy]
    by_cases hx0 : x ≤ 0
    · rw [if_pos hx0]
      by_cases hy0 : y ≤ 0
      · rw [if_pos hy0]
        apply one_div_le_one_div_of_le
        · linarith
        · linarith
      · rw [if_neg hy0]
        push_neg at hy0
        have h1 : 1 / (1 - x) ≤ 1 := by
          rw [div_le_one (by linarith)]
          linarith
        linarith
    · have hy0 : ¬ y ≤ 0 := fun h => hx0 (le_trans hxy h)
      rw [if_neg hx0, if_neg hy0]
      linarith

/-- The stand-in for `exp` is 0 at and below `-99e+99`. -/
theorem underflowAntilog_sentinel (x : α) (hx : x ≤ -(99 * 10 ^ 99)) :
    underflowAntilog x = 0 := by
  unfold underflowAntilog
  rw [if_pos]
  refine lt_of_le_of_lt hx ?_
  rw [neg_lt_neg_iff]
  have h1 : (1 : α) ≤ 10 ^ 99 := one_le_pow₀ (by norm_num)
  linarith

/-- The best index of the discrete decision is a class index, and
`maxLikelihood` is the likelihood stored at that index. -/
theorem discreteStart_bestIndex (E : Collaborators α DM CM) (score : DM → α)
    (s0 : HMM α DM CM) (hn : 0 < s0.numClasses) :
    (discreteDecision E score (discreteStart s0)).2.classDistances.length = s0.numClasses ∧
    (discreteDecision E score (discreteStart s0)).2.classLikelihoods.length = s0.numClasses ∧
    (discreteScoreLoop E score (discreteStart s0)).bestIndex < s0.numClasses ∧
    (discreteDecision E score (discreteStart s0)).2.maxLikelihood =
      (discreteDecision E score (discreteStart s0)).2.classLikelihoods.getD
        (discreteScoreLoop E score (discreteStart s0)).bestIndex 0 := by
  have hnc : (discreteStart s0).numClasses = s0.numClasses := resizeBuffers_numClasses s0
  have hd : (discreteStart s0).classDistances.length = (discreteStart s0).numClasses := by
    rw [hnc]; exact resizeBuffers_classDistances_length s0
  have hl : (discreteStart s0).classLikelihoods.length = (discreteStart s0).numClasses := by
    rw [hnc]; exact resizeBuffers_classLikelihoods_length s0
  obtain ⟨hlk, hlen⟩ := discreteDecision_likelihoods E score (discreteStart s0) hd hl
  rw [hnc] at hlen
  have hlen2 : (discreteDecision E score (discreteStart s0)).2.classLikelihoods.length
      = s0.numClasses := by
    rw [hlk, List.length_map, hlen]
  refine ⟨hlen, hlen2, ?_, (discreteDecision_label_start E score s0 s0 rfl rfl rfl).1⟩
  obtain ⟨hA, hB⟩ := discreteDecision_best_start E score s0
  by_cases hex : ∃ k, k < s0.numClasses ∧ -(99 * 10 ^ 99) <
      (discreteDecision E score (discreteStart s0)).2.classDistances.getD k 0
  · have := (hA hex).1.1
    rw [hlen] at this
    exact this
  · have hall : ∀ k, k < s0.numClasses →
        (discreteDecision E score (discreteStart s0)).2.classDistances.getD k 0
          ≤ -(99 * 10 ^ 99) := by
      intro k hk
      by_contra hgt
      exact hex ⟨k, hk, not_le.mp hgt⟩
    rw [(hB hall).1]
    exact hn

/-- The discrete decision with a non-negative `antilog` whose values on the
class distances do not all vanish: every normalised likelihood is the antilog
of the class's distance over the positive sum of all antilogs, it lies in
`[0, 1]` and is positive exactly when the antilog of the distance is not 0, and
the likelihoods sum to 1. -/
theorem discreteStart_likelihoods (E : Collaborators α DM CM) (score : DM → α)
    (s0 : HMM α DM CM) (hnn : ∀ x, 0 ≤ E.antilog x)
    (hS : ((discreteDecision E score (discreteStart s0)).2.classDistances.map E.antilog).sum
      ≠ 0) :
    0 < ((discreteDecision E score (discreteStart s0)).2.classDistances.map E.antilog).sum ∧
    (∀ k, k < s0.numClasses →
      (discreteDecision E score (discreteStart s0)).2.classLikelihoods.getD k 0 =
        E.antilog ((discreteDecision E score (discreteStart s0)).2.classDistances.getD k 0) /
          ((discreteDecision E score (discreteStart s0)).2.classDistances.map E.antilog).sum) ∧
    (∀ k, k < s0.numClasses →
      0 ≤ (discreteDecision E score (discreteStart s0)).2.classLikelihoods.getD k 0 ∧
      (discreteDecision E score (discreteStart s0)).2.classLikelihoods.getD k 0 ≤ 1 ∧
      (0 < (discreteDecision E score (discreteStart s0)).2.classLikelihoods.getD k 0 ↔
        E.antilog ((discreteDecision E score (discreteStart s0)).2.classDistances.getD k 0)
          ≠ 0)) ∧
    (discreteDecision E score (discreteStart s0)).2.classLikelihoods.sum = 1 := by
  have hnc : (discreteStart s0).numClasses = s0.numClasses := resizeBuffers_numClasses s0
  have hd : (discreteStart s0).classDistances.length = (discreteStart s0).numClasses := by
    rw [hnc]; exact resizeBuffers_classDistances_length s0
  have hl : (discreteStart s0).classLikelihoods.length = (discreteStart s0).numClasses := by
    rw [hnc]; exact resizeBuffers_classLikelihoods_length s0
  obtain ⟨hlk, hlen⟩ := discreteDecision_likelihoods E score (discreteStart s0) hd hl
  rw [hnc] at hlen
  have hnnl : ∀ x, x ∈ (discreteDecision E score (discreteStart s0)).2.classDistances.map
      E.antilog → 0 ≤ x := by
    intro x hx
    obtain ⟨y, _, hy⟩ := List.mem_map.mp hx
    rw [← hy]
    exact hnn y
  have hSpos : 0 < ((discreteDecision E score (discreteStart s0)).2.classDistances.map
      E.antilog).sum := lt_of_le_of_ne (List.sum_nonneg hnnl) (Ne.symm hS)
  have hget : ∀ k, k < s0.numClasses →
      (discreteDecision E score (discreteStart s0)).2.classLikelihoods.getD k 0 =
        E.antilog ((discreteDecision E score (discreteStart s0)).2.classDistances.getD k 0) /
          ((discreteDecision E score (discreteStart s0)).2.classDistances.map E.antilog).sum := by
    intro k hk
    conv_lhs => rw [hlk]
    exact getD_map_zero _ _ k 0 (by rw [hlen]; exact hk)
  refine ⟨hSpos, hget, ?_, ?_⟩
  · intro k hk
    rw [hget k hk]
    refine ⟨div_nonneg (hnn _) (le_of_lt hSpos), (div_le_one hSpos).mpr ?_, ?_⟩
    · apply List.single_le_sum hnnl
      apply List.mem_map_of_mem
      rw [List.getD_eq_getElem _ _ (by rw [hlen]; exact hk)]
      exact List.getElem_mem _
    · constructor
      · intro hpos h0
        rw [h0, zero_div] at hpos
        exact lt_irrefl _ hpos
      · intro hne
        exact div_pos (lt_of_le_of_ne (hnn _) (Ne.symm hne)) hSpos
  · have hmm : (discreteDecision E score (discreteStart s0)).2.classLikelihoods =
        ((discreteDecision E score (discreteStart s0)).2.classDistances.map E.antilog).map
          (fun x => x /
            ((discreteDecision E score (discreteStart s0)).2.classDistances.map
              E.antilog).sum) := by
      conv_lhs => rw [hlk]
      rw [List.map_map]
      rfl
    rw [hmm]
    exact sum_map_div_self _ hS


/-- The discrete decision with a non-negative, non-decreasing `antilog` whose
values on the class distances do not all vanish, when the distance of some
class exceeds the start value of `bestDistance`: the likelihood of the best
class is the largest, it is positive and at least `1 / numClasses`, a
likelihood above `1/2` is that of the best class, and with two classes whose
distances have different antilogs the likelihood of the best class is above
`1/2`. -/
theorem discreteStart_maximum (E : Collaborators α DM CM) (score : DM → α)
    (s0 : HMM α DM CM) (hnn : ∀ x, 0 ≤ E.antilog x)
    (hmono : ∀ x y, x ≤ y → E.antilog x ≤ E.antilog y) (hn : 0 < s0.numClasses)
    (hS : ((discreteDecision E score (discreteStart s0)).2.classDistances.map E.antilog).sum
      ≠ 0)
    (hex : ∃ k, k < s0.numClasses ∧ -(99 * 10 ^ 99) <
      (discreteDecision E score (discreteStart s0)).2.classDistances.getD k 0) :
    (∀ k, k < s0.numClasses →
      (discreteDecision E score (discreteStart s0)).2.classLikelihoods.getD k 0 ≤
        (discreteDecision E score (discreteStart s0)).2.maxLikelihood) ∧
    0 < (discreteDecision E score (discreteStart s0)).2.maxLikelihood ∧
    1 / (s0.numClasses : α) ≤ (discreteDecision E score (discreteStart s0)).2.maxLikelihood ∧
    (∀ k, k < s0.numClasses →
      1 / 2 < (discreteDecision E score (discreteStart s0)).2.classLikelihoods.getD k 0 →
      k = (discreteScoreLoop E score (discreteStart s0)).bestIndex) ∧
    (s0.numClasses = 2 →
      E.antilog ((discreteDecision E score (discreteStart s0)).2.classDistances.getD 0 0) ≠
        E.antilog ((discreteDecision E score (discreteStart s0)).2.classDistances.getD 1 0) →
      1 / 2 < (discreteDecision E score (discreteStart s0)).2.maxLikelihood) := by
  obtain ⟨hlen, hlen2, hb, hmax⟩ := discreteStart_bestIndex E score s0 hn
  obtain ⟨hSpos, hget, hin, hsum⟩ := discreteStart_likelihoods E score s0 hnn hS
  obtain ⟨⟨_, hge, _⟩, _⟩ := (discreteDecision_best_start E score s0).1 hex
  rw [hlen] at hge
  have hle : ∀ k, k < s0.numClasses →
      (discreteDecision E score (discreteStart s0)).2.classLikelihoods.getD k 0 ≤
        (discreteDecision E score (discreteStart s0)).2.maxLikelihood := by
    intro k hk
    rw [hmax, hget k hk, hget _ hb]
    exact div_le_div_of_nonneg_right (hmono _ _ (hge k hk)) (le_of_lt hSpos)
  have hnnl : ∀ x, x ∈ (discreteDecision E score (discreteStart s0)).2.classLikelihoods →
      0 ≤ x := by
    intro x hx
    obtain ⟨k, hk, he⟩ := List.mem_iff_getElem.mp hx
    rw [← he, ← List.getD_eq_getElem _ 0 hk]
    exact (hin k (by rw [← hlen2]; exact hk)).1
  have hstrict : ∀ k, k < s0.numClasses →
      E.antilog ((discreteDecision E score (discreteStart s0)).2.classDistances.getD k 0) ≠
        E.antilog ((discreteDecision E score (discreteStart s0)).2.classDistances.getD
          (discreteScoreLoop E score (discreteStart s0)).bestIndex 0) →
      (discreteDecision E score (discreteStart s0)).2.classLikelihoods.getD k 0 <
        (discreteDecision E score (discreteStart s0)).2.maxLikelihood := by
    intro k hk hne
    rw [hmax, hget k hk, hget _ hb]
    exact div_lt_div_of_pos_right (lt_of_le_of_ne (hmono _ _ (hge k hk)) hne) hSpos
  have hpair : ∀ k, k < s0.numClasses →
      k ≠ (discreteScoreLoop E score (discreteStart s0)).bestIndex →
      (discreteDecision E score (discreteStart s0)).2.classLikelihoods.getD k 0 +
        (discreteDecision E score (discreteStart s0)).2.maxLikelihood ≤ 1 := by
    intro k hk hkb
    rw [hmax, ← hsum]
    rcases lt_or_gt_of_ne hkb with h | h
    · exact two_le_sum _ hnnl _ _ h (by rw [hlen2]; exact hb)
    · rw [add_comm]
      exact two_le_sum _ hnnl _ _ h (by rw [hlen2]; exact hk)
  have hnpos : (0 : α) < (s0.numClasses : α) := by exact_mod_cast hn
  have hinv : 1 / (s0.numClasses : α) ≤
      (discreteDecision E score (discreteStart s0)).2.maxLikelihood := by
    have hcard := List.sum_le_card_nsmul
      (discreteDecision E score (discreteStart s0)).2.classLikelihoods
      (discreteDecision E score (discreteStart s0)).2.maxLikelihood
      (fun x hx => by
        obtain ⟨k, hk, he⟩ := List.mem_iff_getElem.mp hx
        rw [← he, ← List.getD_eq_getElem _ 0 hk]
        exact hle k (by rw [← hlen2]; exact hk))
    rw [hsum, hlen2, nsmul_eq_mul] at hcard
    rw [div_le_iff₀ hnpos, mul_comm]
    exact hcard
  refine ⟨hle, lt_of_lt_of_le (div_pos one_pos hnpos) hinv, hinv, ?_, ?_⟩
  · intro k hk hhalf
    by_contra hkb
    have h1 := hpair k hk hkb
    have h2 := hle k hk
    linarith
  · intro h2 hne
    have hl := hlen2
    rw [h2] at hl
    obtain ⟨a, b, hab⟩ := List.length_eq_two.mp hl
    have h01 : (discreteDecision E score (discreteStart s0)).2.classLikelihoods.getD 0 0 +
        (discreteDecision E score (discreteStart s0)).2.classLikelihoods.getD 1 0 = 1 := by
      rw [← hsum, hab]
      simp
    by_cases hb0 : (discreteScoreLoop E score (discreteStart s0)).bestIndex = 0
    · have h1 := hstrict 1 (by omega) (by rw [hb0]; exact fun h => hne h.symm)
      have hm := hmax
      rw [hb0] at hm
      linarith
    · have hb1 : (discreteScoreLoop E score (discreteStart s0)).bestIndex = 1 := by omega
      have h1 := hstrict 0 (by omega) (by rw [hb1]; exact hne)
      have hm := hmax
      rw [hb1] at hm
      linarith

/-! ## The largest likelihood of the discrete mode -/

/-- C27, as stated, fails: `underflowClassifier`, trained by `train_discrete`
on the two classes of `binaryData`, scores the symbol 0 with the distances
`[0, -1000]`. The exponential of 0 is 1 and the double-precision exponential of
-1000 is 0, so the successful prediction stores the likelihoods `[1, 0]`: the
entry of class 1 is 0 and does not lie in `(0, 1]`. -/
theorem likelihood_zero_counterexample :
    (predict_discrete underflowCollaborators underflowClassifier [0]).1 = true ∧
    0 < underflowClassifier.numClasses ∧
    (predict_discrete underflowCollaborators underflowClassifier
      [0]).2.classDistances = [0, -1000] ∧
    (underflowAntilog (0 : ℚ) = 1 ∧ underflowAntilog (-1000 : ℚ) = 0) ∧
    (predict_discrete underflowCollaborators underflowClassifier
      [0]).2.classLikelihoods = [1, 0] ∧
    ¬ (0 < (predict_discrete underflowCollaborators underflowClassifier
      [0]).2.classLikelihoods.getD 1 0) := by
  refine ⟨?_, ?_, ?_, ⟨?_, ?_⟩, ?_, ?_⟩ <;> decide!

/-- C27 (amended): after a successful discrete prediction (either overload;
`r` is the classifier after the call and `b` the best index) over `n >= 1`
classes whose raw distances are log-likelihoods (none above 0) and whose
exponentials have not all underflowed to 0 (their sum is not 0), with an
`antilog` that, as the double-precision `exp`, is non-negative, non-decreasing
and 0 at and below `-99e+99`: `b` is a class index, the first index of the
maximum raw distance; `maxLikelihood` is the entry of `classLikelihoods` at
`b` and the largest entry; every entry `k` is the antilog of class `k` over the
sum of the antilogs, lies in `[0, 1]` and is positive exactly when the antilog
of class `k` is not 0; the entries sum to 1; `maxLikelihood` is positive and
`>= 1/n`, a likelihood above `1/2` is that of class `b`, and with two classes
whose distances have different antilogs `maxLikelihood > 1/2`. -/
theorem max_likelihood_is_largest (E : Collaborators α DM CM) (s r : HMM α DM CM)
    (v : List α) (ts : MatrixDouble α) (b : Nat)
    (hnn : ∀ x, 0 ≤ E.antilog x) (hmono : ∀ x y, x ≤ y → E.antilog x ≤ E.antilog y)
    (hunder : ∀ x, x ≤ -(99 * 10 ^ 99) → E.antilog x = 0)
    (hn : 0 < s.numClasses)
    (h : (predict_discrete E s v = (true, r) ∧ b = vectorBestIndex E s v) ∨
      (predict_discrete_timeseries E s ts = (true, r) ∧ b = timeseriesBestIndex E s ts))
    (_hlog : ∀ k, k < s.numClasses → r.classDistances.getD k 0 ≤ 0)
    (hS : (r.classDistances.map E.antilog).sum ≠ 0) :
    b < s.numClasses ∧
    isFirstMaxIndex r.classDistances b ∧
    r.maxLikelihood = r.classLikelihoods.getD b 0 ∧
    r.classLikelihoods.length = s.numClasses ∧
    (∀ k, k < s.numClasses →
      r.classLikelihoods.getD k 0 =
        E.antilog (r.classDistances.getD k 0) / (r.classDistances.map E.antilog).sum) ∧
    (∀ k, k < s.numClasses →
      0 ≤ r.classLikelihoods.getD k 0 ∧ r.classLikelihoods.getD k 0 ≤ 1 ∧
      (0 < r.classLikelihoods.getD k 0 ↔ E.antilog (r.classDistances.getD k 0) ≠ 0)) ∧
    r.classLikelihoods.sum = 1 ∧
    (∀ k, k < s.numClasses → r.classLikelihoods.getD k 0 ≤ r.maxLikelihood) ∧
    0 < r.maxLikelihood ∧
    1 / (s.numClasses : α) ≤ r.maxLikelihood ∧
    (∀ k, k < s.numClasses → 1 / 2 < r.classLikelihoods.getD k 0 → k = b) ∧
    (s.numClasses = 2 →
      E.antilog (r.classDistances.getD 0 0) ≠ E.antilog (r.classDistances.getD 1 0) →
      1 / 2 < r.maxLikelihood) := by
  obtain ⟨score, s0, hnc, _, _, _, _, hr, hb⟩ := predict_discrete_cases E s r v ts b h
  rw [← hnc] at hn ⊢
  rw [hr] at hS ⊢
  rw [hb]
  obtain ⟨hlen, hlen2, hbn, hmax⟩ := discreteStart_bestIndex E score s0 hn
  obtain ⟨_, hget, hin, hsum⟩ := discreteStart_likelihoods E score s0 hnn hS
  have hex : ∃ k, k < s0.numClasses ∧ -(99 * 10 ^ 99) <
      (discreteDecision E score (discreteStart s0)).2.classDistances.getD k 0 := by
    by_contra hno
    apply hS
    apply List.sum_eq_zero
    intro x hx
    obtain ⟨y, hy, hxy⟩ := List.mem_map.mp hx
    obtain ⟨k, hk, he⟩ := List.mem_iff_getElem.mp hy
    rw [← hxy, ← he, ← List.getD_eq_getElem _ 0 hk]
    apply hunder
    by_contra hgt
    exact hno ⟨k, by rw [← hlen]; exact hk, not_le.mp hgt⟩
  obtain ⟨h1, h2, h3, h4, h5⟩ := discreteStart_maximum E score s0 hnn hmono hn hS hex
  exact ⟨hbn, ((discreteDecision_best_start E score s0).1 hex).1, hmax, hlen2, hget, hin, hsum,
    h1, h2, h3, h4, h5⟩

/-- Witness for C27 (amended): `underflowClassifier` scores the symbol 0 with
the distances `[0, -1000]`, whose antilogs 1 and 0 have the sum 1; the
likelihoods are `[1, 0]` and `maxLikelihood`, the likelihood 1 of the best
class 0, is the largest entry. -/
theorem max_likelihood_is_largest_witness :
    (0 < underflowClassifier.numClasses ∧
      (predict_discrete underflowCollaborators underflowClassifier [0]).1 = true ∧
      (predict_discrete underflowCollaborators underflowClassifier
        [0]).2.classDistances = [0, -1000] ∧
      ((predict_discrete underflowCollaborators underflowClassifier
        [0]).2.classDistances.map underflowCollaborators.antilog).sum ≠ 0 ∧
      vectorBestIndex underflowCollaborators underflowClassifier [0] = 0 ∧
      (predict_discrete underflowCollaborators underflowClassifier
        [0]).2.maxLikelihood = 1) ∧
    ∀ k, k < underflowClassifier.numClasses →
      (predict_discrete underflowCollaborators underflowClassifier
        [0]).2.classLikelihoods.getD k 0 ≤
      (predict_discrete underflowCollaborators underflowClassifier
        [0]).2.maxLikelihood :=
  ⟨⟨by decide!, by decide!, by decide!, by decide!, by decide!, by decide!⟩,
   (max_likelihood_is_largest underflowCollaborators underflowClassifier
      (predict_discrete underflowCollaborators underflowClassifier [0]).2
      [0] ⟨1, [[0]]⟩
      (vectorBestIndex underflowCollaborators underflowClassifier [0])
      underflowAntilog_nonneg underflowAntilog_mono underflowAntilog_sentinel (by decide!)
      (Or.inl ⟨by decide!, rfl⟩) (by decide!) (by decide!)).2.2.2.2.2.2.2.1⟩

/-! ## Null rejection in the discrete mode -/

end HMM

end GRT
